import Mathlib

/-!
Escargot: fast-mode array storage and the call dispatcher.

A shallow embedding of `ArrayObject` (src/runtime/ArrayObject.h): the dense
fast-mode storage of an array object, its length setter and the fast-path
getter and setter; and of `FunctionObject::call` and
`FunctionObject::generateBytecodeBlock` (src/runtime/FunctionObject.cpp): the
depth guard, receiver and parameter binding, native argument padding and the
compiled-code cache; with the properties the specification states about them.

Machine integers are natural numbers; `uint32_t` arithmetic is reduced modulo
`2^32` where the source computes a value of that type.
-/

namespace Escargot

/-! ## Values, property names, descriptors -/

/-- Modelled from the spec: `Value` (runtime/Value.h is not among the sources) is a
variant over undefined, null, boolean, number, heap reference and the reserved
empty sentinel that marks an unoccupied slot. Numbers are integers here; no
property below computes with them. -/
inductive Value where
  | empty
  | undefined
  | null
  | boolean (b : Bool)
  | number (n : Int)
  | pointer (id : Nat)
  deriving DecidableEq, Repr

/-- The test `Value::isEmpty()`. -/
def Value.isEmpty : Value → Bool
  | .empty => true
  | _ => false

/-- The number of values of type `uint32_t`. -/
def UINT32_SIZE : Nat := 4294967296

/-- The constant `Value::InvalidArrayIndexValue`, the invalid-index sentinel `2^32 - 1`. -/
def Value.InvalidArrayIndexValue : Nat := 4294967295

/-- The macro `#define ESCARGOT_ARRAY_NON_FASTMODE_MIN_SIZE 65536 * 2`. -/
def ESCARGOT_ARRAY_NON_FASTMODE_MIN_SIZE : Nat := 65536 * 2

/-- The macro `#define ESCARGOT_ARRAY_NON_FASTMODE_START_MIN_GAP 1024`. -/
def ESCARGOT_ARRAY_NON_FASTMODE_START_MIN_GAP : Nat := 1024

/-- The error codes `ErrorObject::Code` (runtime/ErrorObject.h is not among the sources). -/
inductive ErrorObject.Code where
  | None
  | ReferenceError
  | TypeError
  | SyntaxError
  | RangeError
  | URIError
  | EvalError
  deriving DecidableEq, Repr

/-- The exception raised by `ErrorObject::throwBuiltinError(state, code, message)`. -/
structure ThrownError where
  code : ErrorObject.Code
  message : String
  deriving DecidableEq, Repr

/-- The message constant `errorMessage_GlobalObject_InvalidArrayLength`. -/
def errorMessage_GlobalObject_InvalidArrayLength : String := "Invalid array length"

deriving instance DecidableEq for Except

/-- The call `ErrorObject::throwBuiltinError`: it never returns normally. -/
def ErrorObject.throwBuiltinError {α : Type} (code : ErrorObject.Code) (message : String) :
    Except ThrownError α :=
  .error { code := code, message := message }

/-- A string used as a property name (runtime/String.h is not among the sources):
its characters, and the `uint32_t` that `tryToUseAsArrayIndex()` returns for it
(the invalid-index sentinel when the string is not an array index). The second
field stands for the absent function, so every statement below holds whatever
that function computes. -/
structure StringRef where
  data : String
  tryToUseAsArrayIndex : Nat
  deriving DecidableEq, Repr

/-- The type `ObjectPropertyName`: either an unsigned integer or a string. -/
inductive ObjectPropertyName where
  | uint (uintValue : Nat)
  | string (s : StringRef)
  deriving DecidableEq, Repr

/-- The test `P.isUIntType()`. -/
def ObjectPropertyName.isUIntType : ObjectPropertyName → Bool
  | .uint _ => true
  | .string _ => false

/-- The local `uint32_t idx` that both fast-path entry points compute from the
property name: `P.uintValue()` when `P.isUIntType()`, and
`P.string(state)->tryToUseAsArrayIndex()` otherwise. -/
def ObjectPropertyName.arrayIndex : ObjectPropertyName → Nat
  | .uint v => v % UINT32_SIZE
  | .string s => s.tryToUseAsArrayIndex % UINT32_SIZE

/-- Modelled from the spec: `ObjectPropertyDescriptor` (runtime/Object.h is not
among the sources) carries a value and an attribute intent. The intent is
"unspecified" when no attribute is present; it is the default data-property
triple when the descriptor is a data descriptor whose writable, enumerable and
configurable attributes are all present and true. -/
structure ObjectPropertyDescriptor where
  m_value : Value
  m_isDataProperty : Bool
  m_writable : Option Bool
  m_enumerable : Option Bool
  m_configurable : Option Bool
  deriving DecidableEq, Repr

/-- The accessor `desc.value()`. -/
def ObjectPropertyDescriptor.value (desc : ObjectPropertyDescriptor) : Value :=
  desc.m_value

/-- The test `desc.isNotPresent()`: no attribute is specified. -/
def ObjectPropertyDescriptor.isNotPresent (desc : ObjectPropertyDescriptor) : Bool :=
  desc.m_writable.isNone && desc.m_enumerable.isNone && desc.m_configurable.isNone

/-- The test `desc.isDataWritableEnumerableConfigurable()`: exactly the default triple. -/
def ObjectPropertyDescriptor.isDataWritableEnumerableConfigurable
    (desc : ObjectPropertyDescriptor) : Bool :=
  desc.m_isDataProperty && desc.m_writable == some true && desc.m_enumerable == some true
    && desc.m_configurable == some true

/-- Modelled from the spec: `ObjectGetResult` (runtime/Object.h is not among the
sources) is either "not found", built by `ObjectGetResult()`, or "found" with a
value and the three attributes, built by `ObjectGetResult(v, w, e, c)`. -/
inductive ObjectGetResult where
  | notFound
  | found (value : Value) (isWritable isEnumerable isConfigurable : Bool)
  deriving DecidableEq, Repr

/-! ## The array object -/

/-- The part of `ObjectRareData` that `isFastModeArray` reads. -/
structure ObjectRareData where
  m_isFastModeArrayObject : Bool
  deriving DecidableEq, Repr

/-- An entry of the generic keyed storage: an index-named data property. -/
structure GenericProperty where
  index : Nat
  value : Value
  isWritable : Bool
  isEnumerable : Bool
  isConfigurable : Bool
  deriving DecidableEq, Repr

/-- The state of an `ArrayObject`: `m_rareData` (null or present), the length
stored in `m_values[ESCARGOT_OBJECT_BUILTIN_PROPERTY_NUMBER]`, the dense vector
`m_fastModeData`, and the index-named properties of the generic keyed storage. -/
structure ArrayObject where
  m_rareData : Option ObjectRareData
  m_lengthValue : Nat
  m_fastModeData : List Value
  m_genericProperties : List GenericProperty
  deriving DecidableEq, Repr

/-- The method `ArrayObject::isFastModeArray`. -/
def ArrayObject.isFastModeArray (a : ArrayObject) : Bool :=
  match a.m_rareData with
  | none => true
  | some r => r.m_isFastModeArrayObject

/-- The method `ArrayObject::getArrayLength`: the stored length, read with `toUint32`. -/
def ArrayObject.getArrayLength (a : ArrayObject) : Nat :=
  a.m_lengthValue % UINT32_SIZE

/-- The call `std::vector::resize(n, fill)`: keep the first `n` elements, then pad with
`fill` up to `n` elements. -/
def ValueVector.resize (v : List Value) (n : Nat) (fill : Value) : List Value :=
  v.take n ++ List.replicate (n - v.length) fill

/-- The occupied slots of a dense vector, in index order, as generic data
properties with the default attributes. -/
def occupiedSlots (data : List Value) : List GenericProperty :=
  (data.enum.filter (fun p => !p.2.isEmpty)).map
    (fun p => { index := p.1, value := p.2, isWritable := true, isEnumerable := true,
                isConfigurable := true })

/-- Modelled from the spec: `ArrayObject::convertIntoNonFastMode` is declared in
ArrayObject.h and defined in ArrayObject.cpp, which is not among the sources. It
copies every occupied dense slot into generic keyed storage with default data
attributes, in index order, then sets the mode flag to dictionary mode. The
transition is one-directional, so the flag is set to dictionary mode whatever
it was. -/
def ArrayObject.convertIntoNonFastMode (a : ArrayObject) : ArrayObject :=
  { a with
    m_genericProperties := a.m_genericProperties ++ occupiedSlots a.m_fastModeData
    m_rareData := some { m_isFastModeArrayObject := false } }

/-- The method `ArrayObject::setArrayLength(state, newLength, isCalledFromCtor)`. The result
pairs the outcome (the returned fast-mode state, or the thrown error) with the
array state the call leaves behind. -/
def ArrayObject.setArrayLength (a : ArrayObject) (newLength : Nat) (isCalledFromCtor : Bool) :
    Except ThrownError Bool × ArrayObject :=
  if newLength = Value.InvalidArrayIndexValue then
    (ErrorObject.throwBuiltinError .RangeError errorMessage_GlobalObject_InvalidArrayLength, a)
  else
    let a1 :=
      if a.isFastModeArray && decide (newLength > ESCARGOT_ARRAY_NON_FASTMODE_MIN_SIZE) then
        let orgLength := a.getArrayLength
        if newLength > orgLength then
          if decide (newLength - orgLength > ESCARGOT_ARRAY_NON_FASTMODE_START_MIN_GAP)
              && !isCalledFromCtor then
            a.convertIntoNonFastMode
          else a
        else a
      else a
    let a2 := { a1 with m_lengthValue := newLength }
    if a2.isFastModeArray then
      (.ok true, { a2 with m_fastModeData := ValueVector.resize a2.m_fastModeData newLength .empty })
    else
      (.ok false, a2)

/-- The method `ArrayObject::getFastModeValue(state, P)`. The function does not modify the
array. -/
def ArrayObject.getFastModeValue (a : ArrayObject) (P : ObjectPropertyName) : ObjectGetResult :=
  if a.isFastModeArray then
    let idx := P.arrayIndex
    if idx ≠ Value.InvalidArrayIndexValue then
      if h : idx < a.m_fastModeData.length then
        let v := a.m_fastModeData.get ⟨idx, h⟩
        if !v.isEmpty then
          .found v true true true
        else
          .notFound
      else .notFound
    else .notFound
  else .notFound

/-- Where `setFastModeValue` stands after its checks: it has either returned
(or thrown), or it has reached the `ASSERT` that precedes the store into slot
`idx`. -/
inductive SetProgress where
  | returned (result : Except ThrownError Bool) (a : ArrayObject)
  | atStore (a : ArrayObject) (idx : Nat)
  deriving DecidableEq, Repr

/-- The test `len > idx && !m_fastModeData[idx].isEmpty()` of `setFastModeValue`,
where `uint32_t len = m_fastModeData.size()`. -/
def ArrayObject.slotOccupied (a : ArrayObject) (idx : Nat) : Bool :=
  if h : a.m_fastModeData.length % UINT32_SIZE > idx then
    !(a.m_fastModeData.get ⟨idx, Nat.lt_of_lt_of_le h (Nat.mod_le _ _)⟩).isEmpty
  else false

/-- The method `ArrayObject::setFastModeValue(state, P, desc)` up to the `ASSERT` on line 148. -/
def ArrayObject.setFastModeValueChecks (a : ArrayObject) (P : ObjectPropertyName)
    (desc : ObjectPropertyDescriptor) : SetProgress :=
  if a.isFastModeArray then
    let idx := P.arrayIndex
    if idx ≠ Value.InvalidArrayIndexValue then
      let len := a.m_fastModeData.length % UINT32_SIZE
      let reject : Bool :=
        if a.slotOccupied idx then
          !desc.isNotPresent && !desc.isDataWritableEnumerableConfigurable
        else
          !desc.isDataWritableEnumerableConfigurable
      if reject then
        .returned (.ok false) a.convertIntoNonFastMode
      else if len ≤ idx then
        match a.setArrayLength ((idx + 1) % UINT32_SIZE) false with
        | (.error e, a1) => .returned (.error e) a1
        | (.ok false, a1) => .returned (.ok false) a1
        | (.ok true, a1) => .atStore a1 idx
      else .atStore a idx
    else .returned (.ok false) a
  else .returned (.ok false) a

/-- The method `ArrayObject::setFastModeValue(state, P, desc)`: the checks, then the store
`m_fastModeData[idx] = desc.value()` and `return true`. The result pairs the
outcome with the array state the call leaves behind. -/
def ArrayObject.setFastModeValue (a : ArrayObject) (P : ObjectPropertyName)
    (desc : ObjectPropertyDescriptor) : Except ThrownError Bool × ArrayObject :=
  match a.setFastModeValueChecks P desc with
  | .returned result a1 => (result, a1)
  | .atStore a1 idx =>
    (.ok true, { a1 with m_fastModeData := a1.m_fastModeData.set idx desc.value })

/-- The fast-mode size invariant: in fast mode the dense storage has exactly
`length` elements. -/
def ArrayObject.sizeInvariant (a : ArrayObject) : Prop :=
  a.isFastModeArray = true → a.m_fastModeData.length = a.getArrayLength

instance (a : ArrayObject) : Decidable a.sizeInvariant := by
  unfold ArrayObject.sizeInvariant; infer_instance

/-- The empty array a constructor leaves in fast mode: length 0, no slots. -/
def ArrayObject.emptyArray : ArrayObject :=
  { m_rareData := none, m_lengthValue := 0, m_fastModeData := [], m_genericProperties := [] }

/-- A fast-mode array whose dense storage is `data` and whose length matches. -/
def ArrayObject.ofValues (data : List Value) : ArrayObject :=
  { m_rareData := none, m_lengthValue := data.length, m_fastModeData := data,
    m_genericProperties := [] }

/-- A data descriptor with value `v` and every attribute present with the given
settings. -/
def ObjectPropertyDescriptor.data (v : Value) (w e c : Bool) : ObjectPropertyDescriptor :=
  { m_value := v, m_isDataProperty := true, m_writable := some w, m_enumerable := some e,
    m_configurable := some c }

/-- A descriptor with value `v` and no attribute present. -/
def ObjectPropertyDescriptor.valueOnly (v : Value) : ObjectPropertyDescriptor :=
  { m_value := v, m_isDataProperty := true, m_writable := none, m_enumerable := none,
    m_configurable := none }

/-- The operations on an array that the fast-path contract covers. -/
inductive ArrayOp where
  | getFastModeValue (P : ObjectPropertyName)
  | setFastModeValue (P : ObjectPropertyName) (desc : ObjectPropertyDescriptor)
  | setArrayLength (newLength : Nat) (isCalledFromCtor : Bool)
  | convertIntoNonFastMode
  deriving DecidableEq, Repr

/-- The array state an operation leaves behind, whether it returns or throws. -/
def ArrayObject.step (a : ArrayObject) : ArrayOp → ArrayObject
  | .getFastModeValue _ => a
  | .setFastModeValue P desc => (a.setFastModeValue P desc).2
  | .setArrayLength newLength isCalledFromCtor => (a.setArrayLength newLength isCalledFromCtor).2
  | .convertIntoNonFastMode => a.convertIntoNonFastMode

/-- The array state after a sequence of operations, first to last. -/
def ArrayObject.run (a : ArrayObject) (ops : List ArrayOp) : ArrayObject :=
  ops.foldl ArrayObject.step a

/-! ## Function objects: code blocks, the compiled-code cache, call frames

The embedding of src/runtime/FunctionObject.cpp. Objects the source reaches
through pointers (`CodeBlock*`) live in a store indexed by address. The parser,
the bytecode generator, the interpreter, host routines and the environment
record classes are not among the sources; they enter as the fields of
`Collaborators`. A result of `none` stands for a null-pointer dereference. -/

/-- Modelled from the spec: the compiled-code artifact `ByteCodeBlock`
(interpreter/ByteCode.h is not among the sources): bytecode, position metadata,
literal data and auxiliary tables, with the fields FunctionObject.cpp reads. -/
structure ByteCodeBlock where
  m_code : List Nat
  m_locData : List (Nat × Nat)
  m_literalData : List Nat
  m_objectStructuresInUse : List Nat
  m_getObjectCodePositions : List Nat
  m_requiredRegisterFileSizeInValueSize : Nat
  m_numeralLiteralData : List Value
  m_shouldClearStack : Bool
  deriving DecidableEq, Repr

/-- Modelled from the spec: an entry of `CodeBlock::FunctionParametersInfoVector`
(runtime/CodeBlock.h is not among the sources), the resolved storage location of
one declared parameter: a heap slot or a stack slot, with its `int32_t` index. -/
structure FunctionParametersInfo where
  m_isHeapAllocated : Bool
  m_index : Int
  deriving DecidableEq, Repr

/-- Modelled from the spec: an entry of `CodeBlock::IdentifierInfoVector`, with the
fields `generateArgumentsObject` reads. -/
structure IdentifierInfo where
  m_name : String
  m_needToAllocateOnStack : Bool
  m_indexForIndexedStorage : Nat
  deriving DecidableEq, Repr

/-- Modelled from the spec: the compiled function descriptor `CodeBlock`
(runtime/CodeBlock.h is not among the sources). Each field holds what the
accessor of the same name returns; `m_script` is null (`none`) for a descriptor
that is not script-backed and `m_byteCodeBlock` is null while no compiled
artifact is held. -/
structure CodeBlock where
  isStrict : Bool
  hasCallNativeFunctionCode : Bool
  m_script : Option Nat
  m_byteCodeBlock : Option ByteCodeBlock
  functionName : String
  functionParameters : List String
  parametersInfomation : List FunctionParametersInfo
  identifierInfos : List IdentifierInfo
  identifierOnStackCount : Nat
  canAllocateEnvironmentOnStack : Bool
  canUseIndexedVariableStorage : Bool
  m_isFunctionNameSaveOnHeap : Bool
  needsComplexParameterCopy : Bool
  usesArgumentsObject : Bool
  deriving DecidableEq, Repr

/-- What `env->record()` of an execution context is, as far as the liveness scan
of `generateBytecodeBlock` tells records apart: not a declarative record, a
declarative record that is not a function record, or the function environment
record of a call, with the address of `functionObject()->codeBlock()`. -/
inductive EnvironmentRecord where
  | objectEnvironment
  | declarativeEnvironment
  | functionEnvironment (codeBlock : Nat)
  deriving DecidableEq, Repr

/-- The part of `ExecutionState` and its `Context` that FunctionObject.cpp reads
and writes: the `CodeBlock` objects by address, the compiled-code cache
`Context::compiledCodeBlocks()`, the chain of execution contexts from
`state.executionContext()` along `parent()` (topmost first), and
`state.stackBase()`. -/
structure ExecutionState where
  codeBlocks : Nat → CodeBlock
  compiledCodeBlocks : List Nat
  executionContext : List EnvironmentRecord
  stackBase : Nat

/-- A `FunctionObject`: its own address (`this`) and its `m_codeBlock` pointer. -/
structure FunctionObject where
  address : Nat
  m_codeBlock : Nat
  deriving DecidableEq, Repr

/-- The three classes of function environment record that `call` allocates. -/
inductive FunctionEnvironmentRecordKind where
  | simple
  | onHeap
  | notIndexed
  deriving DecidableEq, Repr

/-- Modelled from the spec: the binding frame of a call (runtime/EnvironmentRecord.h
is not among the sources): its class, the heap slots of an indexed heap frame by
index, and the name-based bindings of a dictionary frame in creation order. -/
structure FunctionEnvironmentRecord where
  kind : FunctionEnvironmentRecordKind
  heapStorage : Int → Value
  bindings : List (String × Value)

/-- The storage buffer of a call: `Value* registerFile` of
`registerSize + stackStorageSize + literalStorageSize` values, addressed
relative to `stackStorage = registerFile + registerSize` (registers lie at the
negative offsets, literals from offset `stackStorageSize`), together with the
environment record of the call. -/
structure CallFrame where
  registerSize : Nat
  stackStorageSize : Nat
  literalStorageSize : Nat
  stackStorage : Int → Value
  record : FunctionEnvironmentRecord

/-- The number of values of type `size_t` (64-bit target). -/
def SIZE_T_SIZE : Nat := 18446744073709551616

/-- The constant `SIZE_MAX`. -/
def SIZE_MAX : Nat := 18446744073709551615

/-- Subtraction of two `size_t` values, with wrap-around. -/
def sizeSub (a b : Nat) : Nat :=
  (a % SIZE_T_SIZE + (SIZE_T_SIZE - b % SIZE_T_SIZE)) % SIZE_T_SIZE

/-- The cast `(int32_t)argc` of a `size_t`. -/
def toInt32 (n : Nat) : Int :=
  ((n : Int) + 2147483648) % 4294967296 - 2147483648

/-- What FunctionObject.cpp takes from outside: the macros `STACK_LIMIT_FROM_BASE`
and `STACK_GROWS_DOWN`, `ctx->globalObject()`, `Value::toObject`, the parser
followed by the bytecode generator (given the descriptor's address and the
remaining stack budget; it may fail), the host routine stored in a native
descriptor's bytecode, `ByteCodeInterpreter::processException` (which does not
return), `ByteCodeInterpreter::interpret`, `createArgumentsObject`, and the
initial contents of a freshly constructed heap or dictionary record. -/
structure Collaborators where
  STACK_LIMIT_FROM_BASE : Nat
  STACK_GROWS_DOWN : Bool
  globalObject : Value
  toObject : Value → Value
  parseFunctionAndGenerateByteCode : ExecutionState → Nat → Nat → Except ThrownError ByteCodeBlock
  nativeFunction : ByteCodeBlock → ExecutionState → Value → Nat → List Value → Bool →
    Except Value Value × ExecutionState
  processException : ExecutionState → Value → ThrownError
  interpret : ExecutionState → ByteCodeBlock → CallFrame → Except ThrownError Value × ExecutionState
  createArgumentsObject : FunctionObject → List Value → Value
  newHeapStorage : FunctionObject → List Value → Int → Value
  newBindings : FunctionObject → List Value → List (String × Value)


/-! ### Lazy compilation and the compiled-code cache -/

/-- The value `sizeof(std::pair<size_t, size_t>)` on the 64-bit target. -/
def SIZEOF_SIZE_T_PAIR : Nat := 16

/-- The value `sizeof(size_t)` on the 64-bit target. -/
def SIZEOF_SIZE_T : Nat := 8

/-- The constant `codeSizeMax = 1024 * 1024 * 2` of `generateBytecodeBlock`. -/
def codeSizeMax : Nat := 1024 * 1024 * 2

/-- What one cached artifact adds to `currentCodeSizeTotal`. -/
def ByteCodeBlock.codeSize (b : ByteCodeBlock) : Nat :=
  b.m_code.length + b.m_locData.length * SIZEOF_SIZE_T_PAIR
    + b.m_literalData.length * SIZEOF_SIZE_T
    + b.m_objectStructuresInUse.length * SIZEOF_SIZE_T
    + b.m_getObjectCodePositions.length * SIZEOF_SIZE_T

/-- The summation loop of `generateBytecodeBlock` over the cache entries from a
running total; dereferencing the null `m_byteCodeBlock` of an entry gives `none`. -/
def sumCodeSize (codeBlocks : Nat → CodeBlock) : List Nat → Nat → Option Nat
  | [], total => some total
  | p :: rest, total =>
    match (codeBlocks p).m_byteCodeBlock with
    | none => none
    | some b => sumCodeSize codeBlocks rest (total + b.codeSize)

/-- The value of `currentCodeSizeTotal` after the summation loop. -/
def ExecutionState.currentCodeSizeTotal (st : ExecutionState) : Option Nat :=
  sumCodeSize st.codeBlocks st.compiledCodeBlocks 0

/-- The walk `while (ec) { ... ec = ec->parent(); }` that collects
`codeBlocksInCurrentStack`: the script-backed descriptors with an artifact whose
function environment record is on the chain, each pushed once. -/
def collectCodeBlocksInStack (codeBlocks : Nat → CodeBlock) :
    List EnvironmentRecord → List Nat → List Nat
  | [], acc => acc
  | .functionEnvironment cblk :: parents, acc =>
    if (codeBlocks cblk).m_script.isSome && (codeBlocks cblk).m_byteCodeBlock.isSome then
      if cblk ∈ acc then collectCodeBlocksInStack codeBlocks parents acc
      else collectCodeBlocksInStack codeBlocks parents (acc ++ [cblk])
    else collectCodeBlocksInStack codeBlocks parents acc
  | _ :: parents, acc => collectCodeBlocksInStack codeBlocks parents acc

/-- The vector `codeBlocksInCurrentStack` after the walk. -/
def ExecutionState.codeBlocksInCurrentStack (st : ExecutionState) : List Nat :=
  collectCodeBlocksInStack st.codeBlocks st.executionContext []

/-- The loop that sets `v[i]->m_byteCodeBlock = nullptr` for every cache entry
not found in `codeBlocksInCurrentStack`. -/
def discardNotInStack (inStack : List Nat) : List Nat → (Nat → CodeBlock) → Nat → CodeBlock
  | [], codeBlocks => codeBlocks
  | p :: rest, codeBlocks =>
    if p ∈ inStack then discardNotInStack inStack rest codeBlocks
    else discardNotInStack inStack rest
      (Function.update codeBlocks p { codeBlocks p with m_byteCodeBlock := none })

/-- The loop that refills the cache from `codeBlocksInCurrentStack` and clears
`m_locData` of every entry that holds an artifact; this is its effect on the
`CodeBlock` objects. -/
def clearLocData : List Nat → (Nat → CodeBlock) → Nat → CodeBlock
  | [], codeBlocks => codeBlocks
  | p :: rest, codeBlocks =>
    match (codeBlocks p).m_byteCodeBlock with
    | some b =>
      clearLocData rest
        (Function.update codeBlocks p
          { codeBlocks p with m_byteCodeBlock := some { b with m_locData := [] } })
    | none => clearLocData rest codeBlocks

/-- The body of `if (currentCodeSizeTotal > codeSizeMax) { ... }`: the eviction
pass. -/
def ExecutionState.evictionPass (st : ExecutionState) : ExecutionState :=
  { st with
    codeBlocks :=
      clearLocData st.codeBlocksInCurrentStack
        (discardNotInStack st.codeBlocksInCurrentStack st.compiledCodeBlocks st.codeBlocks)
    compiledCodeBlocks := st.codeBlocksInCurrentStack }

/-- The consumed stack depth both `call` and `generateBytecodeBlock` compute from
the address of a local variable: `state.stackBase() - currentStackBase` when the
stack grows down, `currentStackBase - state.stackBase()` otherwise. -/
def consumedStackDepth (env : Collaborators) (st : ExecutionState) (currentStackBase : Nat) :
    Nat :=
  if env.STACK_GROWS_DOWN then sizeSub st.stackBase currentStackBase
  else sizeSub currentStackBase st.stackBase

/-- The state of `generateBytecodeBlock` once the size test and the eviction pass
are behind it and before it compiles. -/
def ExecutionState.afterSizeCheck (st : ExecutionState) (total : Nat) : ExecutionState :=
  if total > codeSizeMax then st.evictionPass else st

/-- The last two statements of `generateBytecodeBlock`: store the artifact in the
descriptor and push the descriptor onto the cache. -/
def ExecutionState.registerByteCodeBlock (st : ExecutionState) (codeBlock : Nat)
    (blk : ByteCodeBlock) : ExecutionState :=
  { st with
    codeBlocks :=
      Function.update st.codeBlocks codeBlock
        { st.codeBlocks codeBlock with m_byteCodeBlock := some blk }
    compiledCodeBlocks := st.compiledCodeBlocks ++ [codeBlock] }

/-- The method `FunctionObject::generateBytecodeBlock(state)`; `currentStackBase`
is the address of its local `sp`. The result is `none` when the summation
dereferences a null artifact; otherwise the outcome (an error of the parser or
generator, or a normal return) and the state left behind. -/
def FunctionObject.generateBytecodeBlock (env : Collaborators) (st : ExecutionState)
    (f : FunctionObject) (currentStackBase : Nat) :
    Option (Except ThrownError Unit × ExecutionState) :=
  match st.currentCodeSizeTotal with
  | none => none
  | some currentCodeSizeTotal =>
    let st1 := st.afterSizeCheck currentCodeSizeTotal
    let stackRemainApprox :=
      sizeSub env.STACK_LIMIT_FROM_BASE (consumedStackDepth env st currentStackBase)
    match env.parseFunctionAndGenerateByteCode st1 f.m_codeBlock stackRemainApprox with
    | .error e => some (.error e, st1)
    | .ok blk => some (.ok (), st1.registerByteCodeBlock f.m_codeBlock blk)


/-! ### Call frames -/

/-- The test `Value::isUndefinedOrNull()`. -/
def Value.isUndefinedOrNull : Value → Bool
  | .undefined => true
  | .null => true
  | _ => false

/-- The store `stackStorage[i] = v`. -/
def CallFrame.setStack (fr : CallFrame) (i : Int) (v : Value) : CallFrame :=
  { fr with stackStorage := Function.update fr.stackStorage i v }

/-- Modelled from the spec: `FunctionEnvironmentRecordOnHeap::setHeapValueByIndex`
writes the indexed heap slot. -/
def FunctionEnvironmentRecord.setHeapValueByIndex (r : FunctionEnvironmentRecord) (idx : Int)
    (v : Value) : FunctionEnvironmentRecord :=
  { r with heapStorage := Function.update r.heapStorage idx v }

/-- The write of one name-based binding: the first binding of that name takes the
value, and a name without a binding gets one. -/
def setBinding : List (String × Value) → String → Value → List (String × Value)
  | [], name, v => [(name, v)]
  | (n, w) :: rest, name, v =>
    if n = name then (n, v) :: rest else (n, w) :: setBinding rest name v

/-- Modelled from the spec: `setMutableBinding(state, name, v)` writes the
dictionary binding of `name`. -/
def FunctionEnvironmentRecord.setMutableBinding (r : FunctionEnvironmentRecord) (name : String)
    (v : Value) : FunctionEnvironmentRecord :=
  { r with bindings := setBinding r.bindings name v }

/-- Modelled from the spec: `hasBinding(state, name).m_index`, the position of
the binding of `name`, or `SIZE_MAX` when there is none. -/
def FunctionEnvironmentRecord.hasBinding (r : FunctionEnvironmentRecord) (name : String) : Nat :=
  match r.bindings.findIdx? (fun b => b.1 = name) with
  | some i => i
  | none => SIZE_MAX

/-- Modelled from the spec: `createMutableBinding(state, name, false)` adds a
fresh dynamic binding. -/
def FunctionEnvironmentRecord.createMutableBinding (r : FunctionEnvironmentRecord)
    (name : String) : FunctionEnvironmentRecord :=
  { r with bindings := r.bindings ++ [(name, Value.undefined)] }

/-- Modelled from the spec: `setMutableBindingByIndex(state, idx, name, v)` writes
the binding at position `idx`. -/
def FunctionEnvironmentRecord.setMutableBindingByIndex (r : FunctionEnvironmentRecord)
    (idx : Nat) (name : String) (v : Value) : FunctionEnvironmentRecord :=
  { r with bindings := r.bindings.set idx (name, v) }

/-- The loop `for (size_t i = 0; i < n; i++) dst[i] = src[i]` over the values
`src[0..n)`, where `dst = stackStorage + base`. -/
def CallFrame.copyValuesFrom : Nat → List Value → CallFrame → CallFrame
  | _, [], fr => fr
  | base, v :: rest, fr => CallFrame.copyValuesFrom (base + 1) rest (fr.setStack (base : Int) v)

/-- The loop `for (size_t i = lo; i < lo + count; i++) stackStorage[i] = Value();`. -/
def CallFrame.fillUndefinedFrom : Nat → Nat → CallFrame → CallFrame
  | _, 0, fr => fr
  | lo, count + 1, fr =>
    CallFrame.fillUndefinedFrom (lo + 1) count (fr.setStack (lo : Int) Value.undefined)

/-- The loop `for (size_t i = lo; i < hi; i++) stackStorage[i] = Value();`. -/
def CallFrame.fillUndefined (fr : CallFrame) (lo hi : Nat) : CallFrame :=
  CallFrame.fillUndefinedFrom lo (hi - lo) fr

/-- The allocation of the environment record (`// prepare env, ec`): a simple
record when the environment can live on the stack, else a heap record, indexed
or not. -/
def FunctionObject.newRecord (env : Collaborators) (cb : CodeBlock) (f : FunctionObject)
    (argv : List Value) : FunctionEnvironmentRecord :=
  if cb.canAllocateEnvironmentOnStack then
    { kind := .simple, heapStorage := fun _ => Value.undefined, bindings := [] }
  else if cb.canUseIndexedVariableStorage then
    { kind := .onHeap, heapStorage := env.newHeapStorage f argv, bindings := [] }
  else
    { kind := .notIndexed, heapStorage := fun _ => Value.undefined,
      bindings := env.newBindings f argv }

/-- The receiver of the native path (`// prepare receiver`, first occurrence). -/
def FunctionObject.nativeReceiver (env : Collaborators) (isStrict : Bool) (receiverSrc : Value) :
    Value :=
  let receiver := receiverSrc
  if !isStrict then
    if receiver.isUndefinedOrNull then env.globalObject
    else env.toObject receiver
  else receiver

/-- The receiver of the interpreted path (`// prepare receiver`, second
occurrence): the store into `stackStorage[0]`. -/
def CallFrame.prepareReceiver (fr : CallFrame) (env : Collaborators) (isStrict : Bool)
    (receiverSrc : Value) : CallFrame :=
  if !isStrict then
    if receiverSrc.isUndefinedOrNull then fr.setStack 0 env.globalObject
    else fr.setStack 0 (env.toObject receiverSrc)
  else fr.setStack 0 receiverSrc

/-- The step `// binding function name`. -/
def CallFrame.bindFunctionName (fr : CallFrame) (cb : CodeBlock) (f : FunctionObject) :
    CallFrame :=
  let fr1 := fr.setStack 1 (Value.pointer f.address)
  if cb.m_isFunctionNameSaveOnHeap then
    if cb.canUseIndexedVariableStorage then
      { fr1 with record := fr1.record.setHeapValueByIndex 0 (Value.pointer f.address) }
    else
      { fr1 with
        record := fr1.record.setMutableBinding cb.functionName (Value.pointer f.address) }
  else fr1

/-- The write of `val` to the resolved location of a parameter: the heap slot
`m_index` when `m_isHeapAllocated`, else `parameterStorageInStack[m_index]` with
`parameterStorageInStack = stackStorage + 2`. -/
def CallFrame.writeParameter (fr : CallFrame) (p : FunctionParametersInfo) (val : Value) :
    CallFrame :=
  if p.m_isHeapAllocated then
    { fr with record := fr.record.setHeapValueByIndex p.m_index val }
  else fr.setStack (2 + p.m_index) val

/-- The value held at the resolved location of a parameter. -/
def CallFrame.readParameter (fr : CallFrame) (p : FunctionParametersInfo) : Value :=
  if p.m_isHeapAllocated then fr.record.heapStorage p.m_index
  else fr.stackStorage (2 + p.m_index)

/-- One iteration, at position `i`, of the loop over `info` in the complex
parameter copy. -/
def CallFrame.bindComplexParameter (fr : CallFrame) (argv : List Value) (i : Nat)
    (p : FunctionParametersInfo) : CallFrame :=
  if h : i < argv.length then fr.writeParameter p (argv.get ⟨i, h⟩)
  else if p.m_index ≥ toInt32 argv.length then fr
  else fr.writeParameter p Value.undefined

/-- The loop `for (size_t i = 0; i < info.size(); i++)` of the complex parameter
copy, from position `i` over the remaining entries. -/
def CallFrame.bindComplexParametersFrom (argv : List Value) :
    Nat → List FunctionParametersInfo → CallFrame → CallFrame
  | _, [], fr => fr
  | i, p :: rest, fr =>
    CallFrame.bindComplexParametersFrom argv (i + 1) rest (fr.bindComplexParameter argv i p)

/-- The loop of the complex parameter copy for a dictionary frame: the first
`parameterCopySize` parameter names receive their arguments. -/
def FunctionEnvironmentRecord.bindNamedParameters (r : FunctionEnvironmentRecord) :
    List String → List Value → FunctionEnvironmentRecord
  | name :: names, v :: rest => (r.setMutableBinding name v).bindNamedParameters names rest
  | _, _ => r

/-- The step `// prepare parameters`, with `stackStorageSize` as stored in the
frame. -/
def CallFrame.prepareParameters (fr : CallFrame) (cb : CodeBlock) (argv : List Value) :
    CallFrame :=
  let parameterCopySize := min argv.length cb.functionParameters.length
  if cb.needsComplexParameterCopy then
    let fr1 := fr.fillUndefined 2 fr.stackStorageSize
    if !cb.canUseIndexedVariableStorage then
      { fr1 with record := fr1.record.bindNamedParameters cb.functionParameters argv }
    else
      CallFrame.bindComplexParametersFrom argv 0 cb.parametersInfomation fr1
  else
    let fr1 := CallFrame.copyValuesFrom 2 (argv.take parameterCopySize) fr
    fr1.fillUndefined (parameterCopySize + 2) fr.stackStorageSize

/-- The method `FunctionObject::generateArgumentsObject(state, fnRecord, stackStorage)`. -/
def FunctionObject.generateArgumentsObject (env : Collaborators) (cb : CodeBlock)
    (f : FunctionObject) (argv : List Value) (fr : CallFrame) : CallFrame :=
  let arguments := "arguments"
  if fr.record.kind = .notIndexed then
    let r1 :=
      if fr.record.hasBinding arguments = SIZE_MAX then fr.record.createMutableBinding arguments
      else fr.record
    { fr with
      record := r1.setMutableBindingByIndex (r1.hasBinding arguments) arguments
        (env.createArgumentsObject f argv) }
  else
    match cb.identifierInfos.find? (fun v => v.m_name = arguments) with
    | some v => fr.setStack (v.m_indexForIndexedStorage : Int) (env.createArgumentsObject f argv)
    | none => fr

/-- The frame `call` hands to the interpreter: the buffer is allocated with the
contents `rawMemory`, the literals are copied behind the local slots, then the
receiver, the function name, the parameters and, when the descriptor asks for
it, the arguments object are bound. -/
def FunctionObject.prepareFrame (env : Collaborators) (cb : CodeBlock) (blk : ByteCodeBlock)
    (f : FunctionObject) (isStrict : Bool) (receiverSrc : Value) (argv : List Value)
    (rawMemory : Int → Value) : CallFrame :=
  let fr0 : CallFrame :=
    { registerSize := blk.m_requiredRegisterFileSizeInValueSize
      stackStorageSize := cb.identifierOnStackCount
      literalStorageSize := blk.m_numeralLiteralData.length
      stackStorage := rawMemory
      record := f.newRecord env cb argv }
  let fr1 := CallFrame.copyValuesFrom cb.identifierOnStackCount blk.m_numeralLiteralData fr0
  let fr2 := fr1.prepareReceiver env isStrict receiverSrc
  let fr3 := fr2.bindFunctionName cb f
  let fr4 := fr3.prepareParameters cb argv
  if cb.usesArgumentsObject then f.generateArgumentsObject env cb argv fr4 else fr4


/-! ### The call dispatcher -/

/-- The machine-level inputs of a call: the address of the local `sp` of `call`,
the address of the local `sp` of `generateBytecodeBlock` should it run, and the
contents of the buffer that `alloca` returns for the register file. -/
structure StackInputs where
  currentStackBase : Nat
  generateStackBase : Nat
  rawMemory : Int → Value

/-- The argument vector handed to a host routine: when `argc < len` a new vector
of `len` values holding `argv[0..argc)` and then `Value()`, else `argv` itself. -/
def FunctionObject.nativeArguments (len : Nat) (argv : List Value) : List Value :=
  if argv.length < len then argv ++ List.replicate (len - argv.length) Value.undefined
  else argv

/-- The state a call leaves to its caller: the shared context as the callee left
it, under the caller's own execution context and stack base. -/
def ExecutionState.returnTo (callee caller : ExecutionState) : ExecutionState :=
  { callee with executionContext := caller.executionContext, stackBase := caller.stackBase }

/-- The state the callee runs in: the caller's, with the function environment
record of the call on top of the chain. -/
def ExecutionState.enter (st : ExecutionState) (f : FunctionObject) : ExecutionState :=
  { st with executionContext := .functionEnvironment f.m_codeBlock :: st.executionContext }

/-- The native branch of `FunctionObject::call`
(`if (m_codeBlock->hasCallNativeFunctionCode()) { ... }`). -/
def FunctionObject.callNative (env : Collaborators) (st : ExecutionState) (f : FunctionObject)
    (receiverSrc : Value) (argv : List Value) (isNewExpression : Bool) :
    Option (Except ThrownError Value × ExecutionState) :=
  let cb := st.codeBlocks f.m_codeBlock
  match cb.m_byteCodeBlock with
  | none => none
  | some blk =>
    let newState := st.enter f
    let len := cb.parametersInfomation.length
    let argv1 := FunctionObject.nativeArguments len argv
    let receiver := FunctionObject.nativeReceiver env cb.isStrict receiverSrc
    match env.nativeFunction blk newState receiver argv.length argv1 isNewExpression with
    | (.ok v, st1) => some (.ok v, st1.returnTo st)
    | (.error thrown, st1) => some (.error (env.processException st1 thrown), st1.returnTo st)

/-- The interpreted branch of `FunctionObject::call`, from
`// prepare ByteCodeBlock if needed` to the end. Clearing the machine stack
after the run (`clearStack<512>()`) leaves no trace in the state. -/
def FunctionObject.callInterpreted (env : Collaborators) (st : ExecutionState)
    (f : FunctionObject) (receiverSrc : Value) (argv : List Value) (stack : StackInputs) :
    Option (Except ThrownError Value × ExecutionState) :=
  let isStrict := (st.codeBlocks f.m_codeBlock).isStrict
  let prepared : Option (Except ThrownError Unit × ExecutionState) :=
    if (st.codeBlocks f.m_codeBlock).m_byteCodeBlock.isNone then
      f.generateBytecodeBlock env st stack.generateStackBase
    else some (.ok (), st)
  match prepared with
  | none => none
  | some (.error e, st1) => some (.error e, st1)
  | some (.ok _, st1) =>
    let cb := st1.codeBlocks f.m_codeBlock
    match cb.m_byteCodeBlock with
    | none => none
    | some blk =>
      let fr := f.prepareFrame env cb blk isStrict receiverSrc argv stack.rawMemory
      match env.interpret (st1.enter f) blk fr with
      | (r, st2) => some (r, st2.returnTo st)

/-- The method `FunctionObject::call(state, receiverSrc, argc, argv,
isNewExpression)`, with `argc = argv.length`. The result is `none` on a
null-pointer dereference; otherwise the returned value or the thrown error, and
the state left behind. -/
def FunctionObject.call (env : Collaborators) (st : ExecutionState) (f : FunctionObject)
    (receiverSrc : Value) (argv : List Value) (isNewExpression : Bool) (stack : StackInputs) :
    Option (Except ThrownError Value × ExecutionState) :=
  if consumedStackDepth env st stack.currentStackBase > env.STACK_LIMIT_FROM_BASE then
    some (ErrorObject.throwBuiltinError .RangeError "Maximum call stack size exceeded", st)
  else if (st.codeBlocks f.m_codeBlock).hasCallNativeFunctionCode then
    f.callNative env st receiverSrc argv isNewExpression
  else
    f.callInterpreted env st receiverSrc argv stack


/-! ### Sample objects -/

/-- A script-backed, non-strict descriptor without parameters whose environment
lives on the stack and which holds no artifact yet. -/
def CodeBlock.sample : CodeBlock :=
  { isStrict := false, hasCallNativeFunctionCode := false, m_script := some 1,
    m_byteCodeBlock := none, functionName := "f", functionParameters := [],
    parametersInfomation := [], identifierInfos := [], identifierOnStackCount := 2,
    canAllocateEnvironmentOnStack := true, canUseIndexedVariableStorage := true,
    m_isFunctionNameSaveOnHeap := false, needsComplexParameterCopy := false,
    usesArgumentsObject := false }

/-- An artifact with `n` bytes of code and nothing else. -/
def ByteCodeBlock.sample (n : Nat) : ByteCodeBlock :=
  { m_code := List.replicate n 0, m_locData := [], m_literalData := [],
    m_objectStructuresInUse := [], m_getObjectCodePositions := [],
    m_requiredRegisterFileSizeInValueSize := 0, m_numeralLiteralData := [],
    m_shouldClearStack := false }

/-- A frame of `stackStorageSize` local slots over a buffer filled with the empty
sentinel, with a simple record. -/
def CallFrame.sample (stackStorageSize : Nat) : CallFrame :=
  { registerSize := 0, stackStorageSize := stackStorageSize, literalStorageSize := 0,
    stackStorage := fun _ => Value.empty,
    record := { kind := .simple, heapStorage := fun _ => Value.empty, bindings := [] } }

/-- Collaborators that do nothing: the parser and generator yield the empty
artifact, host routines and the interpreter return `undefined`. -/
def Collaborators.sample : Collaborators :=
  { STACK_LIMIT_FROM_BASE := 1000, STACK_GROWS_DOWN := true, globalObject := Value.pointer 1,
    toObject := fun v => v,
    parseFunctionAndGenerateByteCode := fun _ _ _ => .ok (ByteCodeBlock.sample 0),
    nativeFunction := fun _ st _ _ _ _ => (.ok Value.undefined, st),
    processException := fun _ _ => { code := .None, message := "" },
    interpret := fun st _ _ => (.ok Value.undefined, st),
    createArgumentsObject := fun _ _ => Value.pointer 2,
    newHeapStorage := fun _ _ _ => Value.undefined,
    newBindings := fun _ _ => [] }


/-- A state with two cached descriptors, at addresses 1 and 2, holding artifacts of
`n` and 10 bytes of code, of which only the second is live on the chain. -/
def ExecutionState.sample (n : Nat) : ExecutionState :=
  { codeBlocks := fun p =>
      if p = 1 then { CodeBlock.sample with m_byteCodeBlock := some (ByteCodeBlock.sample n) }
      else if p = 2 then
        { CodeBlock.sample with m_byteCodeBlock := some (ByteCodeBlock.sample 10) }
      else CodeBlock.sample
    compiledCodeBlocks := [1, 2]
    executionContext := [.functionEnvironment 2, .objectEnvironment]
    stackBase := 5000 }

/-- Machine-level inputs with the local of `call` at the given address. -/
def StackInputs.sample (currentStackBase : Nat) : StackInputs :=
  { currentStackBase := currentStackBase, generateStackBase := currentStackBase - 100,
    rawMemory := fun _ => Value.empty }


/-- The compiled-code cache invariant: the cache has no duplicate entries and
every cached descriptor holds a compiled artifact. -/
def ExecutionState.cacheInvariant (st : ExecutionState) : Prop :=
  st.compiledCodeBlocks.Nodup
    ∧ ∀ p ∈ st.compiledCodeBlocks, (st.codeBlocks p).m_byteCodeBlock.isSome = true

instance (st : ExecutionState) : Decidable st.cacheInvariant := by
  unfold ExecutionState.cacheInvariant; infer_instance


/-! ## Basic facts about the operations -/

theorem ValueVector.resize_length (v : List Value) (n : Nat) (fill : Value) :
    (ValueVector.resize v n fill).length = n := by
  simp only [ValueVector.resize, List.length_append, List.length_take, List.length_replicate]
  omega

theorem ObjectPropertyName.arrayIndex_lt (P : ObjectPropertyName) :
    P.arrayIndex < UINT32_SIZE := by
  cases P <;> exact Nat.mod_lt _ (by decide)

theorem ArrayObject.isFastModeArray_convertIntoNonFastMode (a : ArrayObject) :
    a.convertIntoNonFastMode.isFastModeArray = false := rfl

/-- The length setter on the invalid-index sentinel: a range error, state untouched. -/
theorem ArrayObject.setArrayLength_invalid (a : ArrayObject) (c : Bool) :
    a.setArrayLength Value.InvalidArrayIndexValue c
      = (.error { code := .RangeError, message := errorMessage_GlobalObject_InvalidArrayLength },
         a) := by
  simp [ArrayObject.setArrayLength, ErrorObject.throwBuiltinError]

/-- The length setter in dictionary mode only stores the length. -/
theorem ArrayObject.setArrayLength_dictionary (a : ArrayObject) (n : Nat) (c : Bool)
    (hn : n ≠ Value.InvalidArrayIndexValue) (hf : a.isFastModeArray = false) :
    a.setArrayLength n c = (.ok false, { a with m_lengthValue := n }) := by
  have h2 : ArrayObject.isFastModeArray { a with m_lengthValue := n } = false := hf
  simp [ArrayObject.setArrayLength, hn, hf, h2]

/-- The length setter in fast mode when the conversion test passes. -/
theorem ArrayObject.setArrayLength_convert (a : ArrayObject) (n : Nat) (c : Bool)
    (hn : n ≠ Value.InvalidArrayIndexValue) (hf : a.isFastModeArray = true)
    (hbig : n > ESCARGOT_ARRAY_NON_FASTMODE_MIN_SIZE) (hgrow : n > a.getArrayLength)
    (hgap : n - a.getArrayLength > ESCARGOT_ARRAY_NON_FASTMODE_START_MIN_GAP)
    (hc : c = false) :
    a.setArrayLength n c = (.ok false, { a.convertIntoNonFastMode with m_lengthValue := n }) := by
  have h2 : ArrayObject.isFastModeArray { a.convertIntoNonFastMode with m_lengthValue := n }
      = false := rfl
  simp [ArrayObject.setArrayLength, hn, hf, hbig, hgrow, hgap, hc, h2]

/-- The length setter in fast mode when the conversion test does not pass. -/
theorem ArrayObject.setArrayLength_keep (a : ArrayObject) (n : Nat) (c : Bool)
    (hn : n ≠ Value.InvalidArrayIndexValue) (hf : a.isFastModeArray = true)
    (hno : ¬ (n > ESCARGOT_ARRAY_NON_FASTMODE_MIN_SIZE ∧ n > a.getArrayLength
      ∧ n - a.getArrayLength > ESCARGOT_ARRAY_NON_FASTMODE_START_MIN_GAP ∧ c = false)) :
    a.setArrayLength n c
      = (.ok true, { a with m_lengthValue := n,
                            m_fastModeData := ValueVector.resize a.m_fastModeData n .empty }) := by
  have h2 : ArrayObject.isFastModeArray { a with m_lengthValue := n } = true := hf
  unfold ArrayObject.setArrayLength
  rw [if_neg hn]
  by_cases hbig : n > ESCARGOT_ARRAY_NON_FASTMODE_MIN_SIZE
  · by_cases hgrow : n > a.getArrayLength
    · by_cases hgap : n - a.getArrayLength > ESCARGOT_ARRAY_NON_FASTMODE_START_MIN_GAP
      · have hc : c = true := by
          cases c
          · exact absurd ⟨hbig, hgrow, hgap, rfl⟩ hno
          · rfl
        simp [hf, hbig, hgrow, hgap, hc, h2]
      · simp [hf, hbig, hgrow, hgap, h2]
    · simp [hf, hbig, hgrow, h2]
  · simp [hf, hbig, h2]

/-- The three ways the length setter can end. -/
theorem ArrayObject.setArrayLength_cases (a : ArrayObject) (n : Nat) (c : Bool) :
    (n = Value.InvalidArrayIndexValue ∧ a.setArrayLength n c
        = (.error { code := .RangeError, message := errorMessage_GlobalObject_InvalidArrayLength },
           a))
    ∨ (n ≠ Value.InvalidArrayIndexValue ∧ a.isFastModeArray = true ∧ a.setArrayLength n c
        = (.ok true, { a with m_lengthValue := n,
                              m_fastModeData := ValueVector.resize a.m_fastModeData n .empty }))
    ∨ (n ≠ Value.InvalidArrayIndexValue ∧ (a.setArrayLength n c).1 = .ok false
        ∧ (a.setArrayLength n c).2.isFastModeArray = false
        ∧ (a.setArrayLength n c).2.m_fastModeData = a.m_fastModeData
        ∧ (a.setArrayLength n c).2.m_lengthValue = n) := by
  by_cases hn : n = Value.InvalidArrayIndexValue
  · left; subst hn; exact ⟨rfl, a.setArrayLength_invalid c⟩
  · right
    cases hf : a.isFastModeArray
    · right
      rw [a.setArrayLength_dictionary n c hn hf]
      exact ⟨hn, rfl, hf, rfl, rfl⟩
    · by_cases hcv : n > ESCARGOT_ARRAY_NON_FASTMODE_MIN_SIZE ∧ n > a.getArrayLength
          ∧ n - a.getArrayLength > ESCARGOT_ARRAY_NON_FASTMODE_START_MIN_GAP ∧ c = false
      · right
        rw [a.setArrayLength_convert n c hn hf hcv.1 hcv.2.1 hcv.2.2.1 hcv.2.2.2]
        exact ⟨hn, rfl, rfl, rfl, rfl⟩
      · left
        exact ⟨hn, rfl, a.setArrayLength_keep n c hn hf hcv⟩

theorem ArrayObject.getArrayLength_lt (a : ArrayObject) : a.getArrayLength < UINT32_SIZE :=
  Nat.mod_lt _ (by decide)

/-- An occupied slot lies inside the dense storage and holds a non-empty value. -/
theorem ArrayObject.slotOccupied_spec (a : ArrayObject) (idx : Nat)
    (h : a.slotOccupied idx = true) :
    idx < a.m_fastModeData.length % UINT32_SIZE
      ∧ ∃ v, a.m_fastModeData[idx]? = some v ∧ v ≠ Value.empty := by
  unfold ArrayObject.slotOccupied at h
  split at h
  · next hlt =>
    have hin : idx < a.m_fastModeData.length := Nat.lt_of_lt_of_le hlt (Nat.mod_le _ _)
    refine ⟨hlt, a.m_fastModeData.get ⟨idx, hin⟩, ?_, ?_⟩
    · simp [List.getElem?_eq_getElem hin]
    · intro he
      rw [he] at h
      simp [Value.isEmpty] at h
  · simp at h

/-- A slot inside a dense storage of `uint32_t` size that holds a non-empty value
is occupied. -/
theorem ArrayObject.slotOccupied_of_value (a : ArrayObject) (idx : Nat) (v : Value)
    (hsize : a.m_fastModeData.length < UINT32_SIZE)
    (hv : a.m_fastModeData[idx]? = some v) (hne : v ≠ Value.empty) :
    a.slotOccupied idx = true := by
  have hin : idx < a.m_fastModeData.length := by
    rcases Nat.lt_or_ge idx a.m_fastModeData.length with h | h
    · exact h
    · rw [List.getElem?_eq_none h] at hv
      cases hv
  have hlt : a.m_fastModeData.length % UINT32_SIZE > idx := by
    rw [Nat.mod_eq_of_lt hsize]; exact hin
  have hget : a.m_fastModeData.get ⟨idx, hin⟩ = v := by
    rw [List.getElem?_eq_getElem hin] at hv
    simpa using hv
  unfold ArrayObject.slotOccupied
  rw [dif_pos hlt, hget]
  cases v <;> simp_all [Value.isEmpty]

/-- A slot that holds the empty sentinel, or lies outside the dense storage, is
not occupied. -/
theorem ArrayObject.slotOccupied_eq_false (a : ArrayObject) (idx : Nat)
    (h : a.m_fastModeData.length ≤ idx ∨ a.m_fastModeData[idx]? = some Value.empty) :
    a.slotOccupied idx = false := by
  cases hocc : a.slotOccupied idx
  · rfl
  · obtain ⟨hlt, v, hv, hne⟩ := a.slotOccupied_spec idx hocc
    have hin : idx < a.m_fastModeData.length := Nat.lt_of_lt_of_le hlt (Nat.mod_le _ _)
    rcases h with h | h
    · omega
    · rw [h] at hv
      cases hv
      exact absurd rfl hne

/-- In dictionary mode the setter declines at once. -/
theorem ArrayObject.setFastModeValueChecks_dictionary (a : ArrayObject)
    (P : ObjectPropertyName) (desc : ObjectPropertyDescriptor)
    (hf : a.isFastModeArray = false) :
    a.setFastModeValueChecks P desc = .returned (.ok false) a := by
  simp [ArrayObject.setFastModeValueChecks, hf]

/-- On the invalid-index sentinel the setter declines at once. -/
theorem ArrayObject.setFastModeValueChecks_invalid (a : ArrayObject)
    (P : ObjectPropertyName) (desc : ObjectPropertyDescriptor)
    (hi : P.arrayIndex = Value.InvalidArrayIndexValue) :
    a.setFastModeValueChecks P desc = .returned (.ok false) a := by
  simp [ArrayObject.setFastModeValueChecks, hi]

/-- In fast mode with a valid index, a rejected attribute intent converts. -/
theorem ArrayObject.setFastModeValueChecks_reject (a : ArrayObject)
    (P : ObjectPropertyName) (desc : ObjectPropertyDescriptor)
    (hf : a.isFastModeArray = true) (hi : P.arrayIndex ≠ Value.InvalidArrayIndexValue)
    (hr : (if a.slotOccupied P.arrayIndex then
            !desc.isNotPresent && !desc.isDataWritableEnumerableConfigurable
          else !desc.isDataWritableEnumerableConfigurable) = true) :
    a.setFastModeValueChecks P desc = .returned (.ok false) a.convertIntoNonFastMode := by
  simp only [ArrayObject.setFastModeValueChecks, hf, hi, hr, if_true, ne_eq, not_false_eq_true]

/-- In fast mode with a valid index inside the dense storage, an accepted
attribute intent reaches the store on the unchanged array. -/
theorem ArrayObject.setFastModeValueChecks_inside (a : ArrayObject)
    (P : ObjectPropertyName) (desc : ObjectPropertyDescriptor)
    (hf : a.isFastModeArray = true) (hi : P.arrayIndex ≠ Value.InvalidArrayIndexValue)
    (hr : (if a.slotOccupied P.arrayIndex then
            !desc.isNotPresent && !desc.isDataWritableEnumerableConfigurable
          else !desc.isDataWritableEnumerableConfigurable) = false)
    (hin : P.arrayIndex < a.m_fastModeData.length % UINT32_SIZE) :
    a.setFastModeValueChecks P desc = .atStore a P.arrayIndex := by
  have hnle : ¬ a.m_fastModeData.length % UINT32_SIZE ≤ P.arrayIndex := by omega
  simp only [ArrayObject.setFastModeValueChecks, hf, hi, hr, if_true, ne_eq, not_false_eq_true,
    hnle, if_false, Bool.false_eq_true]

/-- In fast mode with a valid index at or past the dense storage, an accepted
attribute intent goes through the length setter. -/
theorem ArrayObject.setFastModeValueChecks_grow (a : ArrayObject)
    (P : ObjectPropertyName) (desc : ObjectPropertyDescriptor)
    (hf : a.isFastModeArray = true) (hi : P.arrayIndex ≠ Value.InvalidArrayIndexValue)
    (hr : (if a.slotOccupied P.arrayIndex then
            !desc.isNotPresent && !desc.isDataWritableEnumerableConfigurable
          else !desc.isDataWritableEnumerableConfigurable) = false)
    (hout : a.m_fastModeData.length % UINT32_SIZE ≤ P.arrayIndex) :
    a.setFastModeValueChecks P desc
      = match a.setArrayLength ((P.arrayIndex + 1) % UINT32_SIZE) false with
        | (.error e, a1) => .returned (.error e) a1
        | (.ok false, a1) => .returned (.ok false) a1
        | (.ok true, a1) => .atStore a1 P.arrayIndex := by
  simp only [ArrayObject.setFastModeValueChecks, hf, hi, hr, if_true, ne_eq, not_false_eq_true,
    hout, Bool.false_eq_true, if_false]

/-! ## The fast-mode size invariant -/

theorem ArrayObject.setArrayLength_sizeInvariant (a : ArrayObject) (n : Nat) (c : Bool)
    (hinv : a.sizeInvariant) (hn : n < UINT32_SIZE) :
    (a.setArrayLength n c).2.sizeInvariant := by
  rcases a.setArrayLength_cases n c with ⟨_, h⟩ | ⟨_, _, h⟩ | ⟨_, _, hd, _, _⟩
  · rw [h]; exact hinv
  · rw [h]
    intro _
    show (ValueVector.resize a.m_fastModeData n Value.empty).length = n % UINT32_SIZE
    rw [ValueVector.resize_length, Nat.mod_eq_of_lt hn]
  · intro hf
    rw [hd] at hf
    cases hf

/-- When the setter reaches its store, the array is in fast mode, the dense
storage has exactly `length` elements, and slot `idx` exists. -/
theorem ArrayObject.setFastModeValueChecks_atStore (a : ArrayObject)
    (P : ObjectPropertyName) (desc : ObjectPropertyDescriptor) (a1 : ArrayObject) (idx : Nat)
    (hinv : a.sizeInvariant) (h : a.setFastModeValueChecks P desc = .atStore a1 idx) :
    a1.isFastModeArray = true ∧ a1.m_fastModeData.length = a1.getArrayLength
      ∧ idx = P.arrayIndex ∧ idx < a1.m_fastModeData.length := by
  cases hf : a.isFastModeArray
  · rw [a.setFastModeValueChecks_dictionary P desc hf] at h
    cases h
  · by_cases hi : P.arrayIndex = Value.InvalidArrayIndexValue
    · rw [a.setFastModeValueChecks_invalid P desc hi] at h
      cases h
    · cases hr : (if a.slotOccupied P.arrayIndex then
            !desc.isNotPresent && !desc.isDataWritableEnumerableConfigurable
          else !desc.isDataWritableEnumerableConfigurable)
      · by_cases hin : P.arrayIndex < a.m_fastModeData.length % UINT32_SIZE
        · rw [a.setFastModeValueChecks_inside P desc hf hi hr hin] at h
          cases h
          exact ⟨hf, hinv hf, rfl, Nat.lt_of_lt_of_le hin (Nat.mod_le _ _)⟩
        · rw [a.setFastModeValueChecks_grow P desc hf hi hr (Nat.le_of_not_lt hin)] at h
          have hlt := P.arrayIndex_lt
          have hsucc : (P.arrayIndex + 1) % UINT32_SIZE = P.arrayIndex + 1 := by
            apply Nat.mod_eq_of_lt
            simp only [Value.InvalidArrayIndexValue, UINT32_SIZE] at hi hlt ⊢
            omega
          rcases a.setArrayLength_cases ((P.arrayIndex + 1) % UINT32_SIZE) false with
            ⟨_, hs⟩ | ⟨_, _, hs⟩ | ⟨_, hres, _⟩
          · rw [hs] at h
            cases h
          · rw [hs] at h
            cases h
            refine ⟨hf, ?_, rfl, ?_⟩
            · show (ValueVector.resize a.m_fastModeData _ Value.empty).length = _ % UINT32_SIZE
              rw [ValueVector.resize_length, Nat.mod_mod]
            · show P.arrayIndex < (ValueVector.resize a.m_fastModeData _ Value.empty).length
              rw [ValueVector.resize_length, hsucc]
              omega
          · generalize a.setArrayLength ((P.arrayIndex + 1) % UINT32_SIZE) false = r at h hres
            obtain ⟨r1, r2⟩ := r
            simp only at hres
            subst hres
            cases h
      · rw [a.setFastModeValueChecks_reject P desc hf hi hr] at h
        cases h

theorem ArrayObject.setFastModeValueChecks_returned_sizeInvariant (a : ArrayObject)
    (P : ObjectPropertyName) (desc : ObjectPropertyDescriptor) (r : Except ThrownError Bool)
    (a1 : ArrayObject) (hinv : a.sizeInvariant)
    (h : a.setFastModeValueChecks P desc = .returned r a1) : a1.sizeInvariant := by
  cases hf : a.isFastModeArray
  · rw [a.setFastModeValueChecks_dictionary P desc hf] at h
    cases h
    exact hinv
  · by_cases hi : P.arrayIndex = Value.InvalidArrayIndexValue
    · rw [a.setFastModeValueChecks_invalid P desc hi] at h
      cases h
      exact hinv
    · cases hr : (if a.slotOccupied P.arrayIndex then
            !desc.isNotPresent && !desc.isDataWritableEnumerableConfigurable
          else !desc.isDataWritableEnumerableConfigurable)
      · by_cases hin : P.arrayIndex < a.m_fastModeData.length % UINT32_SIZE
        · rw [a.setFastModeValueChecks_inside P desc hf hi hr hin] at h
          cases h
        · rw [a.setFastModeValueChecks_grow P desc hf hi hr (Nat.le_of_not_lt hin)] at h
          have hs := a.setArrayLength_sizeInvariant ((P.arrayIndex + 1) % UINT32_SIZE) false hinv
            (Nat.mod_lt _ (by decide))
          generalize a.setArrayLength ((P.arrayIndex + 1) % UINT32_SIZE) false = r0 at h hs
          obtain ⟨r1, r2⟩ := r0
          cases r1 with
          | error e => cases h; exact hs
          | ok b =>
            cases b
            · cases h; exact hs
            · cases h
      · rw [a.setFastModeValueChecks_reject P desc hf hi hr] at h
        cases h
        intro hc
        cases hc

theorem ArrayObject.setFastModeValue_sizeInvariant (a : ArrayObject)
    (P : ObjectPropertyName) (desc : ObjectPropertyDescriptor) (hinv : a.sizeInvariant) :
    (a.setFastModeValue P desc).2.sizeInvariant := by
  unfold ArrayObject.setFastModeValue
  cases h : a.setFastModeValueChecks P desc with
  | returned r a1 => exact a.setFastModeValueChecks_returned_sizeInvariant P desc r a1 hinv h
  | atStore a1 idx =>
    obtain ⟨_, hsz, _, _⟩ := a.setFastModeValueChecks_atStore P desc a1 idx hinv h
    intro _
    show (a1.m_fastModeData.set idx desc.value).length = a1.getArrayLength
    rw [List.length_set]
    exact hsz

/-- C1. Fast-mode size invariant: from every array state in which fast mode implies
that the dense storage has exactly `length` elements, the state left by
`setArrayLength(newLength, isCalledFromCtor)` for any `uint32_t` newLength
(failing or not) and the state left by any `setFastModeValue(P, desc)` satisfy it
again; and whenever `setFastModeValue` reaches its `ASSERT`, the asserted
equality `m_fastModeData.size() == getArrayLength()` holds there. The `ASSERT`
of `getFastModeValue` tests the invariant itself on the array it is called on. -/
theorem fastMode_sizeInvariant_preserved (a : ArrayObject) (hinv : a.sizeInvariant) :
    (∀ (newLength : Nat) (isCalledFromCtor : Bool), newLength < UINT32_SIZE →
        (a.setArrayLength newLength isCalledFromCtor).2.sizeInvariant)
    ∧ (∀ (P : ObjectPropertyName) (desc : ObjectPropertyDescriptor),
        (a.setFastModeValue P desc).2.sizeInvariant)
    ∧ (∀ (P : ObjectPropertyName) (desc : ObjectPropertyDescriptor) (a1 : ArrayObject)
        (idx : Nat), a.setFastModeValueChecks P desc = .atStore a1 idx →
        a1.m_fastModeData.length = a1.getArrayLength) :=
  ⟨fun n c hn => a.setArrayLength_sizeInvariant n c hinv hn,
   fun P desc => a.setFastModeValue_sizeInvariant P desc hinv,
   fun P desc a1 idx h => (a.setFastModeValueChecks_atStore P desc a1 idx hinv h).2.1⟩

theorem fastMode_sizeInvariant_preserved_witness :
    (ArrayObject.ofValues [.number 1, .empty]).sizeInvariant
    ∧ (((ArrayObject.ofValues [.number 1, .empty]).setArrayLength 4 false).2.sizeInvariant
      ∧ ((ArrayObject.ofValues [.number 1, .empty]).setFastModeValue (.uint 5)
          (.data (.number 7) true true true)).2.sizeInvariant) :=
  ⟨by decide,
   (fastMode_sizeInvariant_preserved (ArrayObject.ofValues [.number 1, .empty])
      (by decide)).1 4 false (by decide),
   (fastMode_sizeInvariant_preserved (ArrayObject.ofValues [.number 1, .empty])
      (by decide)).2.1 (.uint 5) (.data (.number 7) true true true)⟩

/-! ## The fast-path getter -/

/-- The getter finds `v` exactly in fast mode, at a valid index, in a slot that
holds the non-empty value `v`; the attributes it reports are all true. -/
theorem ArrayObject.getFastModeValue_eq_found_iff (a : ArrayObject) (P : ObjectPropertyName)
    (v : Value) (w e c : Bool) :
    a.getFastModeValue P = .found v w e c ↔
      (a.isFastModeArray = true ∧ P.arrayIndex ≠ Value.InvalidArrayIndexValue
        ∧ P.arrayIndex < a.m_fastModeData.length ∧ a.m_fastModeData[P.arrayIndex]? = some v
        ∧ v ≠ Value.empty ∧ w = true ∧ e = true ∧ c = true) := by
  unfold ArrayObject.getFastModeValue
  cases hf : a.isFastModeArray
  · simp
  · by_cases hi : P.arrayIndex = Value.InvalidArrayIndexValue
    · simp [hi]
    · by_cases hin : P.arrayIndex < a.m_fastModeData.length
      · simp only [if_true, ne_eq, hi, not_false_eq_true, dif_pos hin, true_and,
          List.getElem?_eq_getElem hin, Option.some.injEq, List.get_eq_getElem]
        by_cases hx : a.m_fastModeData[P.arrayIndex] = Value.empty
        · rw [hx]
          simp only [Value.isEmpty, Bool.not_true, Bool.false_eq_true, if_false]
          constructor
          · intro h; cases h
          · rintro ⟨_, h1, h2, _⟩
            exact absurd h1.symm h2
        · have hne : (a.m_fastModeData[P.arrayIndex]).isEmpty = false := by
            cases hv : a.m_fastModeData[P.arrayIndex] <;> simp_all [Value.isEmpty]
          simp only [hne, Bool.not_false, if_true, ObjectGetResult.found.injEq]
          constructor
          · rintro ⟨h1, h2, h3, h4⟩
            subst h1
            exact ⟨hin, rfl, hx, h2.symm, h3.symm, h4.symm⟩
          · rintro ⟨_, h1, _, h2, h3, h4⟩
            exact ⟨h1, h2.symm, h3.symm, h4.symm⟩
      · simp [hi, hin]

theorem ArrayObject.getFastModeValue_eq_notFound_iff (a : ArrayObject) (P : ObjectPropertyName) :
    a.getFastModeValue P = .notFound ↔
      ¬ ∃ v, a.isFastModeArray = true ∧ P.arrayIndex ≠ Value.InvalidArrayIndexValue
        ∧ P.arrayIndex < a.m_fastModeData.length ∧ a.m_fastModeData[P.arrayIndex]? = some v
        ∧ v ≠ Value.empty := by
  constructor
  · rintro h ⟨v, h1, h2, h3, h4, h5⟩
    have := (a.getFastModeValue_eq_found_iff P v true true true).2 ⟨h1, h2, h3, h4, h5, rfl, rfl, rfl⟩
    rw [h] at this
    cases this
  · intro h
    cases hg : a.getFastModeValue P with
    | notFound => rfl
    | found v w e c =>
      obtain ⟨h1, h2, h3, h4, h5, _⟩ := (a.getFastModeValue_eq_found_iff P v w e c).1 hg
      exact absurd ⟨v, h1, h2, h3, h4, h5⟩ h

/-- C3. `getFastModeValue(P)` returns "found" with value `v` and attributes `w`, `e`,
`c` if and only if the array is in fast mode, the index of `P` is not the
invalid-index sentinel, the index is below the dense size, the slot holds the
non-empty value `v`, and `w = e = c = true`; in every other case it returns
"not found". It never returns the empty sentinel as a found value. -/
theorem getFastModeValue_found_iff (a : ArrayObject) (P : ObjectPropertyName) :
    (∀ (v : Value) (w e c : Bool), a.getFastModeValue P = .found v w e c ↔
      (a.isFastModeArray = true ∧ P.arrayIndex ≠ Value.InvalidArrayIndexValue
        ∧ P.arrayIndex < a.m_fastModeData.length ∧ a.m_fastModeData[P.arrayIndex]? = some v
        ∧ v ≠ Value.empty ∧ w = true ∧ e = true ∧ c = true))
    ∧ (a.getFastModeValue P = .notFound ↔
        ¬ ∃ v, a.isFastModeArray = true ∧ P.arrayIndex ≠ Value.InvalidArrayIndexValue
          ∧ P.arrayIndex < a.m_fastModeData.length ∧ a.m_fastModeData[P.arrayIndex]? = some v
          ∧ v ≠ Value.empty)
    ∧ (∀ (w e c : Bool), a.getFastModeValue P ≠ .found Value.empty w e c) := by
  refine ⟨fun v w e c => a.getFastModeValue_eq_found_iff P v w e c,
    a.getFastModeValue_eq_notFound_iff P, fun w e c h => ?_⟩
  exact ((a.getFastModeValue_eq_found_iff P _ w e c).1 h).2.2.2.2.1 rfl

/-! ## The fast-path setter -/

theorem ArrayObject.setFastModeValue_of_atStore (a : ArrayObject) (P : ObjectPropertyName)
    (desc : ObjectPropertyDescriptor) (a1 : ArrayObject) (idx : Nat)
    (h : a.setFastModeValueChecks P desc = .atStore a1 idx) :
    a.setFastModeValue P desc
      = (.ok true, { a1 with m_fastModeData := a1.m_fastModeData.set idx desc.value }) := by
  unfold ArrayObject.setFastModeValue
  rw [h]

theorem ArrayObject.setFastModeValue_of_returned (a : ArrayObject) (P : ObjectPropertyName)
    (desc : ObjectPropertyDescriptor) (r : Except ThrownError Bool) (a1 : ArrayObject)
    (h : a.setFastModeValueChecks P desc = .returned r a1) :
    a.setFastModeValue P desc = (r, a1) := by
  unfold ArrayObject.setFastModeValue
  rw [h]

/-- The default data-property triple is never rejected. -/
theorem ObjectPropertyDescriptor.accept_of_default (desc : ObjectPropertyDescriptor) (occ : Bool)
    (hdef : desc.isDataWritableEnumerableConfigurable = true) :
    (if occ then !desc.isNotPresent && !desc.isDataWritableEnumerableConfigurable
      else !desc.isDataWritableEnumerableConfigurable) = false := by
  cases occ <;> simp [hdef]

/-- A store inside the dense storage: the outcome of the setter when the index is
below the dense size and the attribute intent is accepted. -/
theorem ArrayObject.setFastModeValue_inside (a : ArrayObject) (P : ObjectPropertyName)
    (desc : ObjectPropertyDescriptor)
    (hf : a.isFastModeArray = true) (hi : P.arrayIndex ≠ Value.InvalidArrayIndexValue)
    (hr : (if a.slotOccupied P.arrayIndex then
            !desc.isNotPresent && !desc.isDataWritableEnumerableConfigurable
          else !desc.isDataWritableEnumerableConfigurable) = false)
    (hin : P.arrayIndex < a.m_fastModeData.length % UINT32_SIZE) :
    a.setFastModeValue P desc
      = (.ok true, { a with m_fastModeData := a.m_fastModeData.set P.arrayIndex desc.value }) :=
  a.setFastModeValue_of_atStore P desc a P.arrayIndex
    (a.setFastModeValueChecks_inside P desc hf hi hr hin)

/-- A store that grows the array: the outcome of the setter when the index is at
or past the dense size, the attribute intent is accepted, and the length setter
neither fails nor converts. -/
theorem ArrayObject.setFastModeValue_grow (a : ArrayObject) (P : ObjectPropertyName)
    (desc : ObjectPropertyDescriptor)
    (hf : a.isFastModeArray = true) (hi : P.arrayIndex ≠ Value.InvalidArrayIndexValue)
    (hr : (if a.slotOccupied P.arrayIndex then
            !desc.isNotPresent && !desc.isDataWritableEnumerableConfigurable
          else !desc.isDataWritableEnumerableConfigurable) = false)
    (hout : a.m_fastModeData.length % UINT32_SIZE ≤ P.arrayIndex)
    (hn : P.arrayIndex + 1 ≠ Value.InvalidArrayIndexValue)
    (hno : ¬ (P.arrayIndex + 1 > ESCARGOT_ARRAY_NON_FASTMODE_MIN_SIZE
      ∧ P.arrayIndex + 1 > a.getArrayLength
      ∧ P.arrayIndex + 1 - a.getArrayLength > ESCARGOT_ARRAY_NON_FASTMODE_START_MIN_GAP
      ∧ false = false)) :
    a.setFastModeValue P desc
      = (.ok true,
         { a with
           m_lengthValue := P.arrayIndex + 1
           m_fastModeData :=
            (ValueVector.resize a.m_fastModeData (P.arrayIndex + 1) .empty).set
              P.arrayIndex desc.value }) := by
  have hlt := P.arrayIndex_lt
  have hsucc : (P.arrayIndex + 1) % UINT32_SIZE = P.arrayIndex + 1 := by
    apply Nat.mod_eq_of_lt
    simp only [Value.InvalidArrayIndexValue, UINT32_SIZE] at hi hlt ⊢
    omega
  have hc := a.setFastModeValueChecks_grow P desc hf hi hr hout
  rw [hsucc, a.setArrayLength_keep (P.arrayIndex + 1) false hn hf hno] at hc
  rw [a.setFastModeValue_of_atStore P desc _ P.arrayIndex hc]

/-- C2. Set-then-get round trip: for a fast-mode array satisfying the size
invariant, a property name whose index `idx` is valid, a descriptor with a
non-empty value and the default attribute intent, if `idx < length`, or growing
to `idx + 1` does not force conversion (not both `idx + 1 > 131072` and
`idx + 1 - length > 1024`) and `idx + 1` is not the invalid-index sentinel, then
`setFastModeValue` reports success, the array is still in fast mode, its length
is `max (old length) (idx + 1)`, and `getFastModeValue` at the same name
returns "found" with that value. -/
theorem setFastModeValue_then_getFastModeValue (a : ArrayObject) (P : ObjectPropertyName)
    (desc : ObjectPropertyDescriptor)
    (hfast : a.isFastModeArray = true) (hinv : a.sizeInvariant)
    (hvalid : P.arrayIndex ≠ Value.InvalidArrayIndexValue)
    (hvalue : desc.value ≠ Value.empty)
    (hdefault : desc.isDataWritableEnumerableConfigurable = true)
    (hroom : P.arrayIndex < a.getArrayLength
      ∨ (¬ (P.arrayIndex + 1 > 131072 ∧ P.arrayIndex + 1 - a.getArrayLength > 1024)
          ∧ P.arrayIndex + 1 ≠ Value.InvalidArrayIndexValue)) :
    (a.setFastModeValue P desc).1 = .ok true
      ∧ (a.setFastModeValue P desc).2.isFastModeArray = true
      ∧ (a.setFastModeValue P desc).2.getArrayLength = max a.getArrayLength (P.arrayIndex + 1)
      ∧ (a.setFastModeValue P desc).2.getFastModeValue P = .found desc.value true true true := by
  have hsize : a.m_fastModeData.length = a.getArrayLength := hinv hfast
  have hmod : a.m_fastModeData.length % UINT32_SIZE = a.m_fastModeData.length := by
    rw [hsize]; exact Nat.mod_eq_of_lt a.getArrayLength_lt
  have hr := desc.accept_of_default (a.slotOccupied P.arrayIndex) hdefault
  by_cases hin : P.arrayIndex < a.getArrayLength
  · have hin2 : P.arrayIndex < a.m_fastModeData.length := by omega
    rw [a.setFastModeValue_inside P desc hfast hvalid hr (by omega)]
    refine ⟨rfl, hfast, ?_, ?_⟩
    · show a.getArrayLength = _
      omega
    · apply (ArrayObject.getFastModeValue_eq_found_iff _ P _ _ _ _).2
      refine ⟨hfast, hvalid, ?_, ?_, hvalue, rfl, rfl, rfl⟩
      · show P.arrayIndex < (a.m_fastModeData.set P.arrayIndex desc.value).length
        rw [List.length_set]; exact hin2
      · show (a.m_fastModeData.set P.arrayIndex desc.value)[P.arrayIndex]? = some desc.value
        simp [List.getElem?_set, hin2]
  · obtain ⟨hgap, hn⟩ : ¬ (P.arrayIndex + 1 > 131072 ∧ P.arrayIndex + 1 - a.getArrayLength > 1024)
        ∧ P.arrayIndex + 1 ≠ Value.InvalidArrayIndexValue := by
      rcases hroom with h | h
      · exact absurd h hin
      · exact h
    have hno : ¬ (P.arrayIndex + 1 > ESCARGOT_ARRAY_NON_FASTMODE_MIN_SIZE
        ∧ P.arrayIndex + 1 > a.getArrayLength
        ∧ P.arrayIndex + 1 - a.getArrayLength > ESCARGOT_ARRAY_NON_FASTMODE_START_MIN_GAP
        ∧ false = false) := by
      rintro ⟨h1, _, h3, _⟩
      exact hgap ⟨h1, h3⟩
    rw [a.setFastModeValue_grow P desc hfast hvalid hr (by omega) hn hno]
    have hlt := P.arrayIndex_lt
    have hlen : P.arrayIndex <
        ((ValueVector.resize a.m_fastModeData (P.arrayIndex + 1) Value.empty).set
          P.arrayIndex desc.value).length := by
      rw [List.length_set, ValueVector.resize_length]; omega
    refine ⟨rfl, hfast, ?_, ?_⟩
    · show (P.arrayIndex + 1) % UINT32_SIZE = _
      rw [Nat.mod_eq_of_lt]
      · omega
      · simp only [Value.InvalidArrayIndexValue, UINT32_SIZE] at hvalid hlt ⊢
        omega
    · apply (ArrayObject.getFastModeValue_eq_found_iff _ P _ _ _ _).2
      refine ⟨hfast, hvalid, hlen, ?_, hvalue, rfl, rfl, rfl⟩
      show ((ValueVector.resize a.m_fastModeData (P.arrayIndex + 1) Value.empty).set
          P.arrayIndex desc.value)[P.arrayIndex]? = some desc.value
      rw [List.length_set] at hlen
      simp [List.getElem?_set, hlen]

theorem setFastModeValue_then_getFastModeValue_witness :
    (ArrayObject.emptyArray.setFastModeValue (.uint 0) (.data (.number 10) true true true)).1
        = .ok true
      ∧ (ArrayObject.emptyArray.setFastModeValue (.uint 0)
          (.data (.number 10) true true true)).2.isFastModeArray = true
      ∧ (ArrayObject.emptyArray.setFastModeValue (.uint 0)
          (.data (.number 10) true true true)).2.getArrayLength
          = max ArrayObject.emptyArray.getArrayLength ((ObjectPropertyName.uint 0).arrayIndex + 1)
      ∧ (ArrayObject.emptyArray.setFastModeValue (.uint 0)
          (.data (.number 10) true true true)).2.getFastModeValue (.uint 0)
          = .found (ObjectPropertyDescriptor.data (.number 10) true true true).value
              true true true :=
  setFastModeValue_then_getFastModeValue ArrayObject.emptyArray (.uint 0)
    (.data (.number 10) true true true) (by decide) (by decide) (by decide) (by decide)
    (by decide) (by decide)

/-- In dictionary mode the getter reports "not found". -/
theorem ArrayObject.getFastModeValue_dictionary (a : ArrayObject) (P : ObjectPropertyName)
    (hf : a.isFastModeArray = false) : a.getFastModeValue P = .notFound := by
  simp [ArrayObject.getFastModeValue, hf]

/-- C4. For a fast-mode array and a valid index whose slot holds the empty sentinel,
or (the size invariant holding) whose index is at or past `length`,
`setFastModeValue` with any attribute intent other than the default
data-property triple, the unspecified intent included, converts the array to
dictionary mode and reports "fast path inapplicable" (`false`); afterwards
`getFastModeValue` at that name reports "not found". -/
theorem setFastModeValue_unoccupied_nonDefault_converts (a : ArrayObject)
    (P : ObjectPropertyName) (desc : ObjectPropertyDescriptor)
    (hfast : a.isFastModeArray = true)
    (hvalid : P.arrayIndex ≠ Value.InvalidArrayIndexValue)
    (hslot : a.m_fastModeData[P.arrayIndex]? = some Value.empty
      ∨ (a.sizeInvariant ∧ a.getArrayLength ≤ P.arrayIndex))
    (hintent : desc.isDataWritableEnumerableConfigurable = false) :
    a.setFastModeValue P desc = (.ok false, a.convertIntoNonFastMode)
      ∧ (a.setFastModeValue P desc).2.isFastModeArray = false
      ∧ (a.setFastModeValue P desc).2.getFastModeValue P = .notFound := by
  have hocc : a.slotOccupied P.arrayIndex = false := by
    apply a.slotOccupied_eq_false
    rcases hslot with h | ⟨hinv, h⟩
    · exact Or.inr h
    · left
      rw [hinv hfast]
      exact h
  have hr : (if a.slotOccupied P.arrayIndex then
            !desc.isNotPresent && !desc.isDataWritableEnumerableConfigurable
          else !desc.isDataWritableEnumerableConfigurable) = true := by
    simp [hocc, hintent]
  have hset := a.setFastModeValue_of_returned P desc _ _
    (a.setFastModeValueChecks_reject P desc hfast hvalid hr)
  rw [hset]
  exact ⟨rfl, rfl, ArrayObject.getFastModeValue_dictionary _ P rfl⟩

theorem setFastModeValue_unoccupied_nonDefault_converts_witness :
    (ArrayObject.ofValues (List.replicate 5 Value.undefined)).setFastModeValue (.uint 5)
        (.data (.pointer 120) false false false)
      = (.ok false, (ArrayObject.ofValues (List.replicate 5 Value.undefined)).convertIntoNonFastMode)
      ∧ ((ArrayObject.ofValues (List.replicate 5 Value.undefined)).setFastModeValue (.uint 5)
        (.data (.pointer 120) false false false)).2.isFastModeArray = false
      ∧ ((ArrayObject.ofValues (List.replicate 5 Value.undefined)).setFastModeValue (.uint 5)
        (.data (.pointer 120) false false false)).2.getFastModeValue (.uint 5) = .notFound :=
  setFastModeValue_unoccupied_nonDefault_converts
    (ArrayObject.ofValues (List.replicate 5 Value.undefined)) (.uint 5)
    (.data (.pointer 120) false false false) (by decide) (by decide)
    (Or.inr ⟨by decide, by decide⟩) (by decide)

/-- C5. For a fast-mode array satisfying the size invariant and an index whose slot
is occupied (index below `length`, slot non-empty): when the attribute intent is
unspecified or exactly the default triple, `setFastModeValue` overwrites the
slot with the descriptor's value, changes nothing else (length and mode
included) and reports success; when the intent is anything else, it converts
the array to dictionary mode and reports "fast path inapplicable". -/
theorem setFastModeValue_occupied (a : ArrayObject)
    (P : ObjectPropertyName) (desc : ObjectPropertyDescriptor) (v : Value)
    (hfast : a.isFastModeArray = true) (hinv : a.sizeInvariant)
    (hlt : P.arrayIndex < a.getArrayLength)
    (hslot : a.m_fastModeData[P.arrayIndex]? = some v) (hne : v ≠ Value.empty) :
    ((desc.isNotPresent = true ∨ desc.isDataWritableEnumerableConfigurable = true) →
        a.setFastModeValue P desc
          = (.ok true,
             { a with m_fastModeData := a.m_fastModeData.set P.arrayIndex desc.value })
        ∧ (a.setFastModeValue P desc).2.m_fastModeData[P.arrayIndex]? = some desc.value
        ∧ (a.setFastModeValue P desc).2.getArrayLength = a.getArrayLength
        ∧ (a.setFastModeValue P desc).2.isFastModeArray = true)
    ∧ (¬ (desc.isNotPresent = true ∨ desc.isDataWritableEnumerableConfigurable = true) →
        a.setFastModeValue P desc = (.ok false, a.convertIntoNonFastMode)
        ∧ (a.setFastModeValue P desc).2.isFastModeArray = false) := by
  have hsize : a.m_fastModeData.length = a.getArrayLength := hinv hfast
  have hbound : a.m_fastModeData.length < UINT32_SIZE := by
    rw [hsize]; exact a.getArrayLength_lt
  have hmod : a.m_fastModeData.length % UINT32_SIZE = a.m_fastModeData.length :=
    Nat.mod_eq_of_lt hbound
  have hvalid : P.arrayIndex ≠ Value.InvalidArrayIndexValue := by
    have := a.getArrayLength_lt
    simp only [Value.InvalidArrayIndexValue, UINT32_SIZE] at this ⊢
    omega
  have hocc : a.slotOccupied P.arrayIndex = true :=
    a.slotOccupied_of_value P.arrayIndex v hbound hslot hne
  constructor
  · intro hok
    have hr : (if a.slotOccupied P.arrayIndex then
            !desc.isNotPresent && !desc.isDataWritableEnumerableConfigurable
          else !desc.isDataWritableEnumerableConfigurable) = false := by
      rcases hok with h | h <;> simp [hocc, h]
    rw [a.setFastModeValue_inside P desc hfast hvalid hr (by omega)]
    refine ⟨rfl, ?_, rfl, hfast⟩
    show (a.m_fastModeData.set P.arrayIndex desc.value)[P.arrayIndex]? = some desc.value
    have hin : P.arrayIndex < a.m_fastModeData.length := by omega
    simp [List.getElem?_set, hin]
  · intro hno
    have hr : (if a.slotOccupied P.arrayIndex then
            !desc.isNotPresent && !desc.isDataWritableEnumerableConfigurable
          else !desc.isDataWritableEnumerableConfigurable) = true := by
      have h1 : desc.isNotPresent = false := by
        cases h : desc.isNotPresent
        · rfl
        · exact absurd (Or.inl h) hno
      have h2 : desc.isDataWritableEnumerableConfigurable = false := by
        cases h : desc.isDataWritableEnumerableConfigurable
        · rfl
        · exact absurd (Or.inr h) hno
      simp [hocc, h1, h2]
    rw [a.setFastModeValue_of_returned P desc _ _
      (a.setFastModeValueChecks_reject P desc hfast hvalid hr)]
    exact ⟨rfl, rfl⟩

theorem setFastModeValue_occupied_witness :
    (ArrayObject.ofValues [.number 1, .number 2]).setFastModeValue (.uint 1)
        (.valueOnly (.number 9))
      = (.ok true, ArrayObject.ofValues [.number 1, .number 9])
    ∧ (ArrayObject.ofValues [.number 1, .number 2]).setFastModeValue (.uint 1)
        (.data (.number 9) false true true)
      = (.ok false, (ArrayObject.ofValues [.number 1, .number 2]).convertIntoNonFastMode) :=
  ⟨((setFastModeValue_occupied (ArrayObject.ofValues [.number 1, .number 2]) (.uint 1)
      (.valueOnly (.number 9)) (.number 2) (by decide) (by decide) (by decide) (by decide)
      (by decide)).1 (Or.inl (by decide))).1,
   ((setFastModeValue_occupied (ArrayObject.ofValues [.number 1, .number 2]) (.uint 1)
      (.data (.number 9) false true true) (.number 2) (by decide) (by decide) (by decide)
      (by decide) (by decide)).2 (by decide)).1⟩

/-! ## The length setter -/

theorem ValueVector.resize_getElem?_old (v : List Value) (n : Nat) (fill : Value) (i : Nat)
    (h1 : i < n) (h2 : i < v.length) : (ValueVector.resize v n fill)[i]? = v[i]? := by
  unfold ValueVector.resize
  have h3 : i < (v.take n).length := by
    rw [List.length_take]; omega
  rw [List.getElem?_append_left h3, List.getElem?_take_of_lt h1]

theorem ValueVector.resize_getElem?_new (v : List Value) (n : Nat) (fill : Value) (i : Nat)
    (h1 : i < n) (h2 : v.length ≤ i) : (ValueVector.resize v n fill)[i]? = some fill := by
  unfold ValueVector.resize
  have h3 : (v.take n).length ≤ i := by
    rw [List.length_take]; omega
  have h4 : i - (v.take n).length < n - v.length := by
    rw [List.length_take]; omega
  rw [List.getElem?_append_right h3, List.getElem?_replicate, if_pos h4]

/-- C6. For a fast-mode array and a newLength other than the invalid-index sentinel,
`setArrayLength(newLength, isCalledFromCtor)` converts the array to dictionary
mode and returns "now dictionary" (`false`) exactly when `newLength > 131072`,
`newLength > length`, `newLength - length > 1024` and `isCalledFromCtor` is
false; in every other case the array stays in fast mode and the call returns
"still fast" (`true`). -/
theorem setArrayLength_converts_iff (a : ArrayObject) (newLength : Nat)
    (isCalledFromCtor : Bool) (hfast : a.isFastModeArray = true)
    (hvalid : newLength ≠ Value.InvalidArrayIndexValue) :
    ((newLength > 131072 ∧ newLength > a.getArrayLength
        ∧ newLength - a.getArrayLength > 1024 ∧ isCalledFromCtor = false) →
      a.setArrayLength newLength isCalledFromCtor
          = (.ok false, { a.convertIntoNonFastMode with m_lengthValue := newLength })
        ∧ (a.setArrayLength newLength isCalledFromCtor).2.isFastModeArray = false)
    ∧ (¬ (newLength > 131072 ∧ newLength > a.getArrayLength
        ∧ newLength - a.getArrayLength > 1024 ∧ isCalledFromCtor = false) →
      (a.setArrayLength newLength isCalledFromCtor).1 = .ok true
        ∧ (a.setArrayLength newLength isCalledFromCtor).2.isFastModeArray = true)
    ∧ ((a.setArrayLength newLength isCalledFromCtor).1 = .ok false ↔
        (newLength > 131072 ∧ newLength > a.getArrayLength
          ∧ newLength - a.getArrayLength > 1024 ∧ isCalledFromCtor = false))
    ∧ ((a.setArrayLength newLength isCalledFromCtor).2.isFastModeArray = false ↔
        (newLength > 131072 ∧ newLength > a.getArrayLength
          ∧ newLength - a.getArrayLength > 1024 ∧ isCalledFromCtor = false)) := by
  have hyes : (newLength > 131072 ∧ newLength > a.getArrayLength
        ∧ newLength - a.getArrayLength > 1024 ∧ isCalledFromCtor = false) →
      a.setArrayLength newLength isCalledFromCtor
          = (.ok false, { a.convertIntoNonFastMode with m_lengthValue := newLength }) :=
    fun h => a.setArrayLength_convert newLength isCalledFromCtor hvalid hfast h.1 h.2.1 h.2.2.1
      h.2.2.2
  have hno : ¬ (newLength > 131072 ∧ newLength > a.getArrayLength
        ∧ newLength - a.getArrayLength > 1024 ∧ isCalledFromCtor = false) →
      a.setArrayLength newLength isCalledFromCtor
        = (.ok true, { a with m_lengthValue := newLength,
                              m_fastModeData :=
                                ValueVector.resize a.m_fastModeData newLength .empty }) :=
    fun h => a.setArrayLength_keep newLength isCalledFromCtor hvalid hfast h
  refine ⟨fun h => ?_, fun h => ?_, ⟨fun h => ?_, fun h => ?_⟩, ⟨fun h => ?_, fun h => ?_⟩⟩
  · rw [hyes h]; exact ⟨rfl, rfl⟩
  · rw [hno h]; exact ⟨rfl, hfast⟩
  · by_contra hc
    rw [hno hc] at h
    cases h
  · rw [hyes h]
  · by_contra hc
    rw [hno hc] at h
    have h2 : a.isFastModeArray = false := h
    rw [hfast] at h2
    cases h2
  · rw [hyes h]; rfl

theorem setArrayLength_converts_iff_witness :
    ((ArrayObject.ofValues (List.replicate 10 Value.undefined)).setArrayLength 200000 false).1
        = .ok false
      ∧ ((ArrayObject.ofValues (List.replicate 10 Value.undefined)).setArrayLength 200000
          false).2.isFastModeArray = false
      ∧ ((ArrayObject.ofValues (List.replicate 10 Value.undefined)).setArrayLength 131072
          false).1 = .ok true
      ∧ ((ArrayObject.ofValues (List.replicate 10 Value.undefined)).setArrayLength 200000
          true).2.isFastModeArray = true :=
  ⟨(setArrayLength_converts_iff (ArrayObject.ofValues (List.replicate 10 Value.undefined))
      200000 false (by decide) (by decide)).2.2.1.2 (by decide),
   (setArrayLength_converts_iff (ArrayObject.ofValues (List.replicate 10 Value.undefined))
      200000 false (by decide) (by decide)).2.2.2.2 (by decide),
   ((setArrayLength_converts_iff (ArrayObject.ofValues (List.replicate 10 Value.undefined))
      131072 false (by decide) (by decide)).2.1 (by decide)).1,
   ((setArrayLength_converts_iff (ArrayObject.ofValues (List.replicate 10 Value.undefined))
      200000 true (by decide) (by decide)).2.1 (by decide)).2⟩

/-- C7. For every array state, fast or dictionary mode, and either value of the
constructor-bootstrap flag, `setArrayLength` with newLength equal to the
invalid-index sentinel `2^32 - 1` fails with a range error, and the array
(length value, dense storage, mode, generic storage) is left unchanged. -/
theorem setArrayLength_invalid_length_fails (a : ArrayObject) (isCalledFromCtor : Bool) :
    Value.InvalidArrayIndexValue = 2 ^ 32 - 1
    ∧ (a.setArrayLength Value.InvalidArrayIndexValue isCalledFromCtor).1
        = .error { code := .RangeError, message := errorMessage_GlobalObject_InvalidArrayLength }
    ∧ (a.setArrayLength Value.InvalidArrayIndexValue isCalledFromCtor).2 = a := by
  rw [a.setArrayLength_invalid isCalledFromCtor]
  exact ⟨by decide, rfl, rfl⟩

/-- C8. For a fast-mode array satisfying the size invariant and a `uint32_t`
newLength for which `setArrayLength` neither fails nor converts (it returns
"still fast"), the result has length value newLength and a dense storage of
exactly newLength slots, in which every slot below `min (old length) newLength`
holds its previous value and every slot from the old length up to newLength
holds the empty sentinel, so that `getFastModeValue` reports "not found" for
each newly created slot. -/
theorem setArrayLength_resizes (a : ArrayObject) (newLength : Nat) (isCalledFromCtor : Bool)
    (hfast : a.isFastModeArray = true) (hinv : a.sizeInvariant)
    (hrange : newLength < UINT32_SIZE)
    (hok : (a.setArrayLength newLength isCalledFromCtor).1 = .ok true) :
    (a.setArrayLength newLength isCalledFromCtor).2.isFastModeArray = true
    ∧ (a.setArrayLength newLength isCalledFromCtor).2.getArrayLength = newLength
    ∧ (a.setArrayLength newLength isCalledFromCtor).2.m_fastModeData.length = newLength
    ∧ (∀ i, i < min a.getArrayLength newLength →
        (a.setArrayLength newLength isCalledFromCtor).2.m_fastModeData[i]?
          = a.m_fastModeData[i]?)
    ∧ (∀ i, a.getArrayLength ≤ i → i < newLength →
        (a.setArrayLength newLength isCalledFromCtor).2.m_fastModeData[i]? = some Value.empty)
    ∧ (∀ P : ObjectPropertyName, a.getArrayLength ≤ P.arrayIndex → P.arrayIndex < newLength →
        (a.setArrayLength newLength isCalledFromCtor).2.getFastModeValue P = .notFound) := by
  have hsize : a.m_fastModeData.length = a.getArrayLength := hinv hfast
  rcases a.setArrayLength_cases newLength isCalledFromCtor with
    ⟨_, hs⟩ | ⟨_, _, hs⟩ | ⟨_, hres, _⟩
  · rw [hs] at hok
    cases hok
  · rw [hs]
    have hnew : ∀ i, a.getArrayLength ≤ i → i < newLength →
        (ValueVector.resize a.m_fastModeData newLength Value.empty)[i]? = some Value.empty :=
      fun i h1 h2 => ValueVector.resize_getElem?_new _ _ _ i h2 (by omega)
    refine ⟨hfast, ?_, ?_, ?_, hnew, ?_⟩
    · show newLength % UINT32_SIZE = newLength
      exact Nat.mod_eq_of_lt hrange
    · exact ValueVector.resize_length _ _ _
    · intro i hi
      exact ValueVector.resize_getElem?_old _ _ _ i (by omega) (by omega)
    · intro P h1 h2
      apply (ArrayObject.getFastModeValue_eq_notFound_iff _ P).2
      rintro ⟨v, _, _, _, hv, hne⟩
      have : (ValueVector.resize a.m_fastModeData newLength Value.empty)[P.arrayIndex]?
          = some v := hv
      rw [hnew _ h1 h2] at this
      cases this
      exact hne rfl
  · rw [hres] at hok
    cases hok

theorem setArrayLength_resizes_witness :
    ((ArrayObject.ofValues [.number 1, .number 2]).setArrayLength 4 false).2.getArrayLength = 4
    ∧ ((ArrayObject.ofValues [.number 1, .number 2]).setArrayLength 4 false).2.m_fastModeData
        = [.number 1, .number 2, .empty, .empty]
    ∧ ((ArrayObject.ofValues [.number 1, .number 2]).setArrayLength 4
        false).2.m_fastModeData.length = 4 :=
  ⟨(setArrayLength_resizes (ArrayObject.ofValues [.number 1, .number 2]) 4 false (by decide)
      (by decide) (by decide) (by decide)).2.1,
   by decide,
   (setArrayLength_resizes (ArrayObject.ofValues [.number 1, .number 2]) 4 false (by decide)
      (by decide) (by decide) (by decide)).2.2.1⟩

/-! ## Irreversibility of the mode transition -/

theorem ArrayObject.setArrayLength_dictionary_stays (a : ArrayObject) (n : Nat) (c : Bool)
    (hd : a.isFastModeArray = false) : (a.setArrayLength n c).2.isFastModeArray = false := by
  rcases a.setArrayLength_cases n c with ⟨_, hs⟩ | ⟨_, hf, _⟩ | ⟨_, _, h, _⟩
  · rw [hs]; exact hd
  · rw [hd] at hf
    cases hf
  · exact h

theorem ArrayObject.setFastModeValue_dictionary (a : ArrayObject) (P : ObjectPropertyName)
    (desc : ObjectPropertyDescriptor) (hd : a.isFastModeArray = false) :
    a.setFastModeValue P desc = (.ok false, a) :=
  a.setFastModeValue_of_returned P desc _ _ (a.setFastModeValueChecks_dictionary P desc hd)

theorem ArrayObject.step_dictionary_stays (a : ArrayObject) (op : ArrayOp)
    (hd : a.isFastModeArray = false) : (a.step op).isFastModeArray = false := by
  cases op with
  | getFastModeValue P => exact hd
  | setFastModeValue P desc =>
    show (a.setFastModeValue P desc).2.isFastModeArray = false
    rw [a.setFastModeValue_dictionary P desc hd]
    exact hd
  | setArrayLength n c => exact a.setArrayLength_dictionary_stays n c hd
  | convertIntoNonFastMode => rfl

theorem ArrayObject.run_dictionary_stays (ops : List ArrayOp) :
    ∀ a : ArrayObject, a.isFastModeArray = false → (a.run ops).isFastModeArray = false := by
  induction ops with
  | nil => intro a hd; exact hd
  | cons op rest ih =>
    intro a hd
    exact ih (a.step op) (a.step_dictionary_stays op hd)

theorem ArrayObject.run_append (a : ArrayObject) (ops1 ops2 : List ArrayOp) :
    a.run (ops1 ++ ops2) = (a.run ops1).run ops2 := by
  simp [ArrayObject.run, List.foldl_append]

/-- C9. Irreversibility of the mode transition: an array in dictionary mode is still
in dictionary mode after `getFastModeValue` (which leaves the array as it is),
after any `setFastModeValue`, any `setArrayLength` and `convertIntoNonFastMode`;
hence along every sequence of these operations, once the array is not in fast
mode it is never in fast mode again. -/
theorem dictionaryMode_irreversible (a : ArrayObject) (hdict : a.isFastModeArray = false) :
    (∀ op : ArrayOp, (a.step op).isFastModeArray = false)
    ∧ (∀ (P : ObjectPropertyName) (desc : ObjectPropertyDescriptor),
        (a.setFastModeValue P desc).2.isFastModeArray = false)
    ∧ (∀ (newLength : Nat) (isCalledFromCtor : Bool),
        (a.setArrayLength newLength isCalledFromCtor).2.isFastModeArray = false)
    ∧ a.convertIntoNonFastMode.isFastModeArray = false
    ∧ (∀ ops : List ArrayOp, (a.run ops).isFastModeArray = false)
    ∧ (∀ (b : ArrayObject) (ops1 ops2 : List ArrayOp), (b.run ops1).isFastModeArray = false →
        (b.run (ops1 ++ ops2)).isFastModeArray = false) := by
  refine ⟨fun op => a.step_dictionary_stays op hdict, fun P desc => ?_,
    fun n c => a.setArrayLength_dictionary_stays n c hdict, rfl,
    fun ops => ArrayObject.run_dictionary_stays ops a hdict, fun b ops1 ops2 h => ?_⟩
  · rw [a.setFastModeValue_dictionary P desc hdict]
    exact hdict
  · rw [b.run_append ops1 ops2]
    exact ArrayObject.run_dictionary_stays ops2 _ h

theorem dictionaryMode_irreversible_witness :
    (ArrayObject.ofValues [.number 1]).convertIntoNonFastMode.isFastModeArray = false
    ∧ (((ArrayObject.ofValues [.number 1]).convertIntoNonFastMode).run
        [.setFastModeValue (.uint 0) (.data (.number 2) true true true),
         .setArrayLength 3 true, .getFastModeValue (.uint 0),
         .convertIntoNonFastMode]).isFastModeArray = false :=
  ⟨by decide,
   (dictionaryMode_irreversible (ArrayObject.ofValues [.number 1]).convertIntoNonFastMode
      (by decide)).2.2.2.2.1 _⟩

/-! ## Errors on the fast path -/

/-- The setter throws exactly when, in fast mode, the index is `2^32 - 2`, the
attribute intent is accepted and the slot lies at or past the dense storage: the
length it then asks for is the invalid-index sentinel. -/
theorem ArrayObject.setFastModeValue_throws_iff (a : ArrayObject) (P : ObjectPropertyName)
    (desc : ObjectPropertyDescriptor) :
    (∃ e, (a.setFastModeValue P desc).1 = .error e) ↔
      (a.isFastModeArray = true ∧ P.arrayIndex = 4294967294
        ∧ a.m_fastModeData.length % UINT32_SIZE ≤ P.arrayIndex
        ∧ desc.isDataWritableEnumerableConfigurable = true) := by
  have hlt := P.arrayIndex_lt
  cases hf : a.isFastModeArray
  · rw [a.setFastModeValue_dictionary P desc hf]
    simp
  · by_cases hi : P.arrayIndex = Value.InvalidArrayIndexValue
    · rw [a.setFastModeValue_of_returned P desc _ _ (a.setFastModeValueChecks_invalid P desc hi)]
      simp only [Value.InvalidArrayIndexValue] at hi
      simp [hi]
    · have hocc : a.m_fastModeData.length % UINT32_SIZE ≤ P.arrayIndex →
          a.slotOccupied P.arrayIndex = false := by
        intro hout
        cases h : a.slotOccupied P.arrayIndex
        · rfl
        · have := (a.slotOccupied_spec P.arrayIndex h).1
          omega
      cases hr : (if a.slotOccupied P.arrayIndex then
            !desc.isNotPresent && !desc.isDataWritableEnumerableConfigurable
          else !desc.isDataWritableEnumerableConfigurable)
      · by_cases hin : P.arrayIndex < a.m_fastModeData.length % UINT32_SIZE
        · rw [a.setFastModeValue_inside P desc hf hi hr hin]
          simp only [reduceCtorEq, exists_false, true_and, false_iff, not_and]
          intro _ h
          omega
        · have hout := Nat.le_of_not_lt hin
          have hdef : desc.isDataWritableEnumerableConfigurable = true := by
            rw [hocc hout] at hr
            simpa using hr
          have hsucc : (P.arrayIndex + 1) % UINT32_SIZE = P.arrayIndex + 1 := by
            apply Nat.mod_eq_of_lt
            simp only [Value.InvalidArrayIndexValue, UINT32_SIZE] at hi hlt ⊢
            omega
          have hc := a.setFastModeValueChecks_grow P desc hf hi hr hout
          rw [hsucc] at hc
          rcases a.setArrayLength_cases (P.arrayIndex + 1) false with
            ⟨hn, hs⟩ | ⟨hn, _, hs⟩ | ⟨hn, hres, _⟩
          · rw [hs] at hc
            rw [a.setFastModeValue_of_returned P desc _ _ hc]
            simp only [Value.InvalidArrayIndexValue] at hn
            refine ⟨fun _ => ⟨rfl, by omega, hout, hdef⟩, fun _ => ⟨_, rfl⟩⟩
          · rw [hs] at hc
            rw [a.setFastModeValue_of_atStore P desc _ _ hc]
            simp only [Value.InvalidArrayIndexValue] at hn
            simp only [reduceCtorEq, exists_false, true_and, false_iff, not_and]
            intro h
            omega
          · generalize a.setArrayLength (P.arrayIndex + 1) false = r at hc hres
            obtain ⟨r1, r2⟩ := r
            simp only at hres
            subst hres
            rw [a.setFastModeValue_of_returned P desc _ _ hc]
            simp only [Value.InvalidArrayIndexValue] at hn
            simp only [reduceCtorEq, exists_false, true_and, false_iff, not_and]
            intro h
            omega
      · rw [a.setFastModeValue_of_returned P desc _ _
          (a.setFastModeValueChecks_reject P desc hf hi hr)]
        simp only [reduceCtorEq, exists_false, true_and, false_iff, not_and]
        intro _ hout hdef
        rw [hocc hout] at hr
        simp [hdef] at hr

/-- C10, at the failing input. On the empty fast-mode array, storing at the largest
valid array index `2^32 - 2` with the default attribute intent does not return a
status: `setFastModeValue` asks the length setter for length `2^32 - 1`, the
invalid-index sentinel, and the range error of `setArrayLength` propagates to
the caller. The index is valid (it is not the sentinel) and the array is left
unchanged. -/
theorem setFastModeValue_largest_index_throws :
    (ObjectPropertyName.uint 4294967294).arrayIndex ≠ Value.InvalidArrayIndexValue
    ∧ ArrayObject.emptyArray.setFastModeValue (.uint 4294967294)
        (.data (.number 1) true true true)
      = (.error { code := .RangeError, message := errorMessage_GlobalObject_InvalidArrayLength },
         ArrayObject.emptyArray) := by
  decide

/-! ## Growth that forces conversion; declining entry points -/

/-- C11. For a fast-mode array satisfying the size invariant, the default attribute
intent and a valid index `idx >= length` with `idx + 1 > 131072`,
`idx + 1 - length > 1024` and `idx + 1` not the invalid-index sentinel,
`setFastModeValue` reports "fast path inapplicable" (`false`) and leaves the
array in dictionary mode; it does not write the value into the dense storage,
which is the storage the conversion leaves (slot `idx` does not exist in it). -/
theorem setFastModeValue_grow_converts (a : ArrayObject) (P : ObjectPropertyName)
    (desc : ObjectPropertyDescriptor)
    (hfast : a.isFastModeArray = true) (hinv : a.sizeInvariant)
    (hvalid : P.arrayIndex ≠ Value.InvalidArrayIndexValue)
    (hdefault : desc.isDataWritableEnumerableConfigurable = true)
    (hge : a.getArrayLength ≤ P.arrayIndex)
    (hbig : P.arrayIndex + 1 > 131072)
    (hgap : P.arrayIndex + 1 - a.getArrayLength > 1024)
    (hn : P.arrayIndex + 1 ≠ Value.InvalidArrayIndexValue) :
    a.setFastModeValue P desc
        = (.ok false, { a.convertIntoNonFastMode with m_lengthValue := P.arrayIndex + 1 })
      ∧ (a.setFastModeValue P desc).2.isFastModeArray = false
      ∧ (a.setFastModeValue P desc).2.m_fastModeData = a.convertIntoNonFastMode.m_fastModeData
      ∧ (a.setFastModeValue P desc).2.m_fastModeData = a.m_fastModeData
      ∧ (a.setFastModeValue P desc).2.m_fastModeData[P.arrayIndex]? = none := by
  have hsize : a.m_fastModeData.length = a.getArrayLength := hinv hfast
  have hmod : a.m_fastModeData.length % UINT32_SIZE = a.m_fastModeData.length := by
    rw [hsize]; exact Nat.mod_eq_of_lt a.getArrayLength_lt
  have hr := desc.accept_of_default (a.slotOccupied P.arrayIndex) hdefault
  have hlt := P.arrayIndex_lt
  have hsucc : (P.arrayIndex + 1) % UINT32_SIZE = P.arrayIndex + 1 := by
    apply Nat.mod_eq_of_lt
    simp only [Value.InvalidArrayIndexValue, UINT32_SIZE] at hvalid hlt ⊢
    omega
  have hc := a.setFastModeValueChecks_grow P desc hfast hvalid hr (by omega)
  rw [hsucc, a.setArrayLength_convert (P.arrayIndex + 1) false hn hfast hbig (by omega) hgap rfl]
    at hc
  rw [a.setFastModeValue_of_returned P desc _ _ hc]
  refine ⟨rfl, rfl, rfl, rfl, ?_⟩
  show a.m_fastModeData[P.arrayIndex]? = none
  exact List.getElem?_eq_none (by omega)

theorem setFastModeValue_grow_converts_witness :
    ArrayObject.emptyArray.setFastModeValue (.uint 200000) (.data (.number 3) true true true)
        = (.ok false,
           { ArrayObject.emptyArray.convertIntoNonFastMode with
             m_lengthValue := (ObjectPropertyName.uint 200000).arrayIndex + 1 })
      ∧ (ArrayObject.emptyArray.setFastModeValue (.uint 200000)
          (.data (.number 3) true true true)).2.isFastModeArray = false :=
  ⟨(setFastModeValue_grow_converts ArrayObject.emptyArray (.uint 200000)
      (.data (.number 3) true true true) (by decide) (by decide) (by decide) (by decide)
      (by decide) (by decide) (by decide) (by decide)).1,
   (setFastModeValue_grow_converts ArrayObject.emptyArray (.uint 200000)
      (.data (.number 3) true true true) (by decide) (by decide) (by decide) (by decide)
      (by decide) (by decide) (by decide) (by decide)).2.1⟩

/-- C12. Fast-path entry points decline without effect: for an array in dictionary
mode (any index, any intent), and for an array in any mode when the index is the
invalid-index sentinel, `setFastModeValue` reports "fast path inapplicable"
(`false`) and leaves the array (length value, dense storage, mode, generic
storage) unchanged, and `getFastModeValue`, which never modifies the array,
reports "not found". -/
theorem fastPath_declines_without_effect (a : ArrayObject) (P : ObjectPropertyName)
    (desc : ObjectPropertyDescriptor)
    (hdecline : a.isFastModeArray = false ∨ P.arrayIndex = Value.InvalidArrayIndexValue) :
    (a.setFastModeValue P desc).1 = .ok false
      ∧ (a.setFastModeValue P desc).2 = a
      ∧ a.getFastModeValue P = .notFound
      ∧ a.step (.getFastModeValue P) = a := by
  have hset : a.setFastModeValue P desc = (.ok false, a) := by
    rcases hdecline with h | h
    · exact a.setFastModeValue_dictionary P desc h
    · exact a.setFastModeValue_of_returned P desc _ _ (a.setFastModeValueChecks_invalid P desc h)
  have hget : a.getFastModeValue P = .notFound := by
    rcases hdecline with h | h
    · exact a.getFastModeValue_dictionary P h
    · simp [ArrayObject.getFastModeValue, h]
  rw [hset]
  exact ⟨rfl, rfl, hget, rfl⟩

theorem fastPath_declines_without_effect_witness :
    ((ArrayObject.ofValues [.number 1]).setFastModeValue (.uint 4294967295)
        (.data (.number 2) true true true)).1 = .ok false
      ∧ ((ArrayObject.ofValues [.number 1]).setFastModeValue (.uint 4294967295)
          (.data (.number 2) true true true)).2 = ArrayObject.ofValues [.number 1]
      ∧ ((ArrayObject.ofValues [.number 1]).convertIntoNonFastMode.getFastModeValue (.uint 0))
          = .notFound :=
  ⟨(fastPath_declines_without_effect (ArrayObject.ofValues [.number 1]) (.uint 4294967295)
      (.data (.number 2) true true true) (Or.inr (by decide))).1,
   (fastPath_declines_without_effect (ArrayObject.ofValues [.number 1]) (.uint 4294967295)
      (.data (.number 2) true true true) (Or.inr (by decide))).2.1,
   (fastPath_declines_without_effect (ArrayObject.ofValues [.number 1]).convertIntoNonFastMode
      (.uint 0) (.data (.number 2) true true true) (Or.inl (by decide))).2.2.1⟩


/-! ## Call frames: the loops over the local slots -/

theorem CallFrame.fillUndefinedFrom_stackStorage (count : Nat) :
    ∀ (lo : Nat) (fr : CallFrame) (j : Int),
      (CallFrame.fillUndefinedFrom lo count fr).stackStorage j
        = if (lo : Int) ≤ j ∧ j < (lo : Int) + count then Value.undefined
          else fr.stackStorage j := by
  induction count with
  | zero =>
    intro lo fr j
    have : ¬ ((lo : Int) ≤ j ∧ j < (lo : Int) + (0 : Nat)) := by omega
    simp only [CallFrame.fillUndefinedFrom, if_neg this]
  | succ n ih =>
    intro lo fr j
    simp only [CallFrame.fillUndefinedFrom]
    rw [ih (lo + 1) _ j]
    by_cases h1 : ((lo + 1 : Nat) : Int) ≤ j ∧ j < ((lo + 1 : Nat) : Int) + n
    · have h2 : (lo : Int) ≤ j ∧ j < (lo : Int) + ((n + 1 : Nat) : Int) := by omega
      rw [if_pos h1, if_pos h2]
    · rw [if_neg h1]
      by_cases h3 : j = (lo : Int)
      · have h2 : (lo : Int) ≤ j ∧ j < (lo : Int) + ((n + 1 : Nat) : Int) := by omega
        rw [if_pos h2]
        simp [CallFrame.setStack, h3]
      · have h2 : ¬ ((lo : Int) ≤ j ∧ j < (lo : Int) + ((n + 1 : Nat) : Int)) := by omega
        rw [if_neg h2]
        simp [CallFrame.setStack, Function.update, h3]

theorem CallFrame.fillUndefinedFrom_record (count : Nat) :
    ∀ (lo : Nat) (fr : CallFrame),
      (CallFrame.fillUndefinedFrom lo count fr).record = fr.record
      ∧ (CallFrame.fillUndefinedFrom lo count fr).stackStorageSize = fr.stackStorageSize := by
  induction count with
  | zero => intro lo fr; exact ⟨rfl, rfl⟩
  | succ n ih =>
    intro lo fr
    simp only [CallFrame.fillUndefinedFrom]
    exact ih (lo + 1) _

/-- The zero-fill loop writes `undefined` to the slots `lo ≤ j < hi` and nothing
else. -/
theorem CallFrame.fillUndefined_stackStorage (fr : CallFrame) (lo hi : Nat) (j : Int) :
    (fr.fillUndefined lo hi).stackStorage j
      = if (lo : Int) ≤ j ∧ j < (hi : Int) then Value.undefined else fr.stackStorage j := by
  unfold CallFrame.fillUndefined
  rw [CallFrame.fillUndefinedFrom_stackStorage]
  by_cases h : (lo : Int) ≤ j ∧ j < (hi : Int)
  · have h2 : (lo : Int) ≤ j ∧ j < (lo : Int) + ((hi - lo : Nat) : Int) := by omega
    rw [if_pos h, if_pos h2]
  · have h2 : ¬ ((lo : Int) ≤ j ∧ j < (lo : Int) + ((hi - lo : Nat) : Int)) := by omega
    rw [if_neg h, if_neg h2]

theorem CallFrame.copyValuesFrom_outside (vs : List Value) :
    ∀ (base : Nat) (fr : CallFrame) (j : Int),
      (j < (base : Int) ∨ (base : Int) + vs.length ≤ j) →
      (CallFrame.copyValuesFrom base vs fr).stackStorage j = fr.stackStorage j := by
  induction vs with
  | nil => intro base fr j _; rfl
  | cons v rest ih =>
    intro base fr j hj
    simp only [CallFrame.copyValuesFrom]
    rw [ih (base + 1) _ j (by simp only [List.length_cons] at hj; omega)]
    have hne : j ≠ (base : Int) := by
      simp only [List.length_cons] at hj; omega
    simp [CallFrame.setStack, Function.update, hne]

theorem CallFrame.copyValuesFrom_inside (vs : List Value) :
    ∀ (base : Nat) (fr : CallFrame) (i : Nat), i < vs.length →
      vs[i]? = some ((CallFrame.copyValuesFrom base vs fr).stackStorage ((base + i : Nat) : Int)) := by
  induction vs with
  | nil => intro base fr i hi; simp at hi
  | cons v rest ih =>
    intro base fr i hi
    simp only [CallFrame.copyValuesFrom]
    cases i with
    | zero =>
      rw [CallFrame.copyValuesFrom_outside rest (base + 1) _ _ (Or.inl (by omega))]
      simp [CallFrame.setStack]
    | succ k =>
      have hk : k < rest.length := by simp only [List.length_cons] at hi; omega
      have := ih (base + 1) (fr.setStack (base : Int) v) k hk
      have he : base + 1 + k = base + (k + 1) := by omega
      rw [he] at this
      simpa using this

theorem CallFrame.copyValuesFrom_record (vs : List Value) :
    ∀ (base : Nat) (fr : CallFrame),
      (CallFrame.copyValuesFrom base vs fr).record = fr.record
      ∧ (CallFrame.copyValuesFrom base vs fr).stackStorageSize = fr.stackStorageSize := by
  induction vs with
  | nil => intro base fr; exact ⟨rfl, rfl⟩
  | cons v rest ih =>
    intro base fr
    simp only [CallFrame.copyValuesFrom]
    exact ih (base + 1) _


/-! ## Simple parameter binding -/

theorem CallFrame.prepareParameters_simple (fr : CallFrame) (cb : CodeBlock) (argv : List Value)
    (hsimple : cb.needsComplexParameterCopy = false) :
    fr.prepareParameters cb argv
      = (CallFrame.copyValuesFrom 2
          (argv.take (min argv.length cb.functionParameters.length)) fr).fillUndefined
          (min argv.length cb.functionParameters.length + 2) fr.stackStorageSize := by
  simp [CallFrame.prepareParameters, hsimple]

/-- C15. Simple parameter binding: for a descriptor not needing complex parameter
copy and any argument list, with `n = min argc (declared parameter count)`,
after `// prepare parameters` the local slot `2 + i` holds `argv[i]` for every
`i < n`, and every local slot `j` with `n + 2 <= j < stackStorageSize` (the
local-binding count) holds `undefined`; in particular a declared parameter
without a supplied argument, whose slot is one of the local slots, is
`undefined`; no other slot is written (extra arguments are not copied) and the
environment record is untouched. -/
theorem simpleParameterCopy_binds (fr : CallFrame) (cb : CodeBlock) (argv : List Value)
    (hsimple : cb.needsComplexParameterCopy = false) :
    (∀ i : Nat, i < min argv.length cb.functionParameters.length →
        argv[i]? = some ((fr.prepareParameters cb argv).stackStorage ((2 + i : Nat) : Int)))
    ∧ (∀ j : Nat, min argv.length cb.functionParameters.length + 2 ≤ j →
        j < fr.stackStorageSize →
        (fr.prepareParameters cb argv).stackStorage (j : Int) = Value.undefined)
    ∧ (∀ i : Nat, argv.length ≤ i → i < cb.functionParameters.length →
        2 + i < fr.stackStorageSize →
        (fr.prepareParameters cb argv).stackStorage ((2 + i : Nat) : Int) = Value.undefined)
    ∧ (∀ j : Int,
        (j < 2 ∨ (((min argv.length cb.functionParameters.length + 2 : Nat) : Int) ≤ j
          ∧ (fr.stackStorageSize : Int) ≤ j)) →
        (fr.prepareParameters cb argv).stackStorage j = fr.stackStorage j)
    ∧ (fr.prepareParameters cb argv).record = fr.record := by
  rw [fr.prepareParameters_simple cb argv hsimple]
  have hlen : (argv.take (min argv.length cb.functionParameters.length)).length
      = min argv.length cb.functionParameters.length := by
    rw [List.length_take]; omega
  have hfill : ∀ j : Nat, min argv.length cb.functionParameters.length + 2 ≤ j →
      j < fr.stackStorageSize →
      ((CallFrame.copyValuesFrom 2
          (argv.take (min argv.length cb.functionParameters.length)) fr).fillUndefined
          (min argv.length cb.functionParameters.length + 2) fr.stackStorageSize).stackStorage
          (j : Int) = Value.undefined := by
    intro j h1 h2
    rw [CallFrame.fillUndefined_stackStorage, if_pos (by omega)]
  refine ⟨?_, hfill, ?_, ?_, ?_⟩
  · intro i hi
    rw [CallFrame.fillUndefined_stackStorage, if_neg (by omega)]
    have := CallFrame.copyValuesFrom_inside
      (argv.take (min argv.length cb.functionParameters.length)) 2 fr i (by rw [hlen]; exact hi)
    rw [List.getElem?_take_of_lt hi] at this
    exact this
  · intro i h1 h2 h3
    exact hfill (2 + i) (by omega) h3
  · intro j hj
    rw [CallFrame.fillUndefined_stackStorage, if_neg (by omega)]
    apply CallFrame.copyValuesFrom_outside
    rw [hlen]
    omega
  · unfold CallFrame.fillUndefined
    rw [(CallFrame.fillUndefinedFrom_record _ _ _).1, (CallFrame.copyValuesFrom_record _ _ _).1]


theorem simpleParameterCopy_binds_witness :
    [Value.number 1, Value.number 2, Value.number 3][1]?
        = some (((CallFrame.sample 6).prepareParameters
            { CodeBlock.sample with functionParameters := ["a", "b"] }
            [Value.number 1, Value.number 2, Value.number 3]).stackStorage ((2 + 1 : Nat) : Int))
      ∧ ((CallFrame.sample 6).prepareParameters
            { CodeBlock.sample with functionParameters := ["a", "b"] }
            [Value.number 1, Value.number 2, Value.number 3]).stackStorage ((4 : Nat) : Int)
          = Value.undefined :=
  ⟨(simpleParameterCopy_binds (CallFrame.sample 6)
      { CodeBlock.sample with functionParameters := ["a", "b"] }
      [Value.number 1, Value.number 2, Value.number 3] (by decide)).1 1 (by decide),
   (simpleParameterCopy_binds (CallFrame.sample 6)
      { CodeBlock.sample with functionParameters := ["a", "b"] }
      [Value.number 1, Value.number 2, Value.number 3] (by decide)).2.1 4 (by decide)
      (by decide)⟩

/-! ## Receiver binding, native argument padding, the depth guard -/

theorem CallFrame.prepareReceiver_eq (fr : CallFrame) (env : Collaborators) (isStrict : Bool)
    (receiverSrc : Value) :
    fr.prepareReceiver env isStrict receiverSrc
      = fr.setStack 0 (FunctionObject.nativeReceiver env isStrict receiverSrc) := by
  cases isStrict <;> cases h : receiverSrc.isUndefinedOrNull <;>
    simp [CallFrame.prepareReceiver, FunctionObject.nativeReceiver, h]

/-- C18. Native argument padding: for a native call with declared parameter count
`len` and an argument list of length `argc`, the argument vector handed to the
host routine has element `i` equal to the original `argv[i]` for every
`i < argc` and equal to `undefined` for every `argc <= i < len`; when
`argc >= len` the vector is `argv` unchanged; it is never shorter than `argv`;
and the native branch of `call` passes the original `argc` as the argument
count, with `len` the size of the descriptor's parameter information. -/
theorem nativeArguments_padding (len : Nat) (argv : List Value) :
    (∀ i : Nat, i < argv.length → (FunctionObject.nativeArguments len argv)[i]? = argv[i]?)
    ∧ (∀ i : Nat, argv.length ≤ i → i < len →
        (FunctionObject.nativeArguments len argv)[i]? = some Value.undefined)
    ∧ (len ≤ argv.length → FunctionObject.nativeArguments len argv = argv)
    ∧ (FunctionObject.nativeArguments len argv).length = max argv.length len
    ∧ (∀ (env : Collaborators) (st : ExecutionState) (f : FunctionObject) (receiverSrc : Value)
        (isNewExpression : Bool) (blk : ByteCodeBlock),
        (st.codeBlocks f.m_codeBlock).m_byteCodeBlock = some blk →
        (st.codeBlocks f.m_codeBlock).parametersInfomation.length = len →
        f.callNative env st receiverSrc argv isNewExpression
          = match env.nativeFunction blk (st.enter f)
              (FunctionObject.nativeReceiver env (st.codeBlocks f.m_codeBlock).isStrict
                receiverSrc)
              argv.length (FunctionObject.nativeArguments len argv) isNewExpression with
            | (.ok v, st1) => some (.ok v, st1.returnTo st)
            | (.error thrown, st1) =>
              some (.error (env.processException st1 thrown), st1.returnTo st)) := by
  refine ⟨?_, ?_, ?_, ?_, ?_⟩
  · intro i hi
    unfold FunctionObject.nativeArguments
    split
    · exact List.getElem?_append_left hi
    · rfl
  · intro i h1 h2
    unfold FunctionObject.nativeArguments
    rw [if_pos (by omega), List.getElem?_append_right h1, List.getElem?_replicate,
      if_pos (by omega)]
  · intro h
    unfold FunctionObject.nativeArguments
    rw [if_neg (by omega)]
  · unfold FunctionObject.nativeArguments
    split
    · rw [List.length_append, List.length_replicate]; omega
    · omega
  · intro env st f receiverSrc isNewExpression blk hblk hlen
    unfold FunctionObject.callNative
    simp only [hblk, hlen]

theorem nativeArguments_padding_witness :
    (FunctionObject.nativeArguments 3 [Value.number 1])[0]? = [Value.number 1][0]?
      ∧ (FunctionObject.nativeArguments 3 [Value.number 1])[2]? = some Value.undefined
      ∧ FunctionObject.nativeArguments 1 [Value.number 1, Value.number 2]
          = [Value.number 1, Value.number 2] :=
  ⟨(nativeArguments_padding 3 [Value.number 1]).1 0 (by decide),
   (nativeArguments_padding 3 [Value.number 1]).2.1 2 (by decide) (by decide),
   (nativeArguments_padding 1 [Value.number 1, Value.number 2]).2.2.1 (by decide)⟩

/-- C17. Depth guard: for a call whose consumed stack depth (the `size_t` difference
between `state.stackBase()` and the address of a local of `call`, taken in the
direction the stack grows) exceeds `STACK_LIMIT_FROM_BASE`, `call` fails with
the range error "Maximum call stack size exceeded" and leaves the state (the
cache and every descriptor's artifact included) as it was; the outcome does not
depend on the parser, the generator, the interpreter, a host routine or the
buffer, none of which runs, so nothing is compiled or evicted and no frame or
local slot is written. When the depth does not exceed the ceiling the guard does
not fire: `call` is its native or interpreted branch. -/
theorem call_depth_guard (env : Collaborators) (st : ExecutionState) (f : FunctionObject)
    (receiverSrc : Value) (argv : List Value) (isNewExpression : Bool) (stack : StackInputs) :
    (consumedStackDepth env st stack.currentStackBase > env.STACK_LIMIT_FROM_BASE →
        f.call env st receiverSrc argv isNewExpression stack
          = some (.error { code := .RangeError, message := "Maximum call stack size exceeded" },
                  st)
        ∧ ∀ (env1 : Collaborators) (stack1 : StackInputs),
            env1.STACK_LIMIT_FROM_BASE = env.STACK_LIMIT_FROM_BASE →
            env1.STACK_GROWS_DOWN = env.STACK_GROWS_DOWN →
            stack1.currentStackBase = stack.currentStackBase →
            f.call env1 st receiverSrc argv isNewExpression stack1
              = f.call env st receiverSrc argv isNewExpression stack)
    ∧ (¬ consumedStackDepth env st stack.currentStackBase > env.STACK_LIMIT_FROM_BASE →
        f.call env st receiverSrc argv isNewExpression stack
          = if (st.codeBlocks f.m_codeBlock).hasCallNativeFunctionCode then
              f.callNative env st receiverSrc argv isNewExpression
            else f.callInterpreted env st receiverSrc argv stack) := by
  constructor
  · intro hdeep
    have hcall : f.call env st receiverSrc argv isNewExpression stack
        = some (.error { code := .RangeError, message := "Maximum call stack size exceeded" },
                st) := by
      unfold FunctionObject.call
      rw [if_pos hdeep]
      rfl
    refine ⟨hcall, ?_⟩
    intro env1 stack1 h1 h2 h3
    rw [hcall]
    have hdeep1 : consumedStackDepth env1 st stack1.currentStackBase
        > env1.STACK_LIMIT_FROM_BASE := by
      unfold consumedStackDepth at hdeep ⊢
      rw [h1, h2, h3]
      exact hdeep
    unfold FunctionObject.call
    rw [if_pos hdeep1]
    rfl
  · intro hok
    unfold FunctionObject.call
    rw [if_neg hok]

theorem call_depth_guard_witness :
    consumedStackDepth Collaborators.sample (ExecutionState.sample 20)
        (StackInputs.sample 3000).currentStackBase
        > Collaborators.sample.STACK_LIMIT_FROM_BASE
      ∧ FunctionObject.call Collaborators.sample (ExecutionState.sample 20)
          { address := 7, m_codeBlock := 3 } Value.undefined [] false (StackInputs.sample 3000)
        = some (.error { code := .RangeError, message := "Maximum call stack size exceeded" },
                ExecutionState.sample 20) :=
  ⟨by decide,
   ((call_depth_guard Collaborators.sample (ExecutionState.sample 20)
      { address := 7, m_codeBlock := 3 } Value.undefined [] false (StackInputs.sample 3000)).1
      (by decide)).1⟩

/-! ## Complex parameter binding -/

theorem CallFrame.readParameter_writeParameter_same (fr : CallFrame)
    (p : FunctionParametersInfo) (val : Value) :
    (fr.writeParameter p val).readParameter p = val := by
  unfold CallFrame.writeParameter CallFrame.readParameter
  cases h : p.m_isHeapAllocated <;>
    simp [CallFrame.setStack, FunctionEnvironmentRecord.setHeapValueByIndex]

theorem CallFrame.readParameter_writeParameter_other (fr : CallFrame)
    (p q : FunctionParametersInfo) (val : Value) (hne : q ≠ p) :
    (fr.writeParameter q val).readParameter p = fr.readParameter p := by
  have hloc : q.m_isHeapAllocated ≠ p.m_isHeapAllocated ∨ q.m_index ≠ p.m_index := by
    by_contra hc
    apply hne
    cases p; cases q
    simp only [ne_eq, not_or, not_not] at hc
    simp only [FunctionParametersInfo.mk.injEq]
    exact hc
  unfold CallFrame.writeParameter CallFrame.readParameter
  cases hq : q.m_isHeapAllocated <;> cases hp : p.m_isHeapAllocated
  · have hidx : p.m_index ≠ q.m_index := by
      rcases hloc with h | h
      · rw [hq, hp] at h; exact absurd rfl h
      · exact fun he => h he.symm
    have hkey : (2 : Int) + p.m_index ≠ 2 + q.m_index := by omega
    simp [CallFrame.setStack, Function.update, hkey]
  · simp [CallFrame.setStack]
  · simp [FunctionEnvironmentRecord.setHeapValueByIndex]
  · have hidx : p.m_index ≠ q.m_index := by
      rcases hloc with h | h
      · rw [hq, hp] at h; exact absurd rfl h
      · exact fun he => h he.symm
    simp [FunctionEnvironmentRecord.setHeapValueByIndex, Function.update, hidx]

/-- An iteration for a parameter at another location leaves the location alone. -/
theorem CallFrame.readParameter_bindComplexParameter_other (fr : CallFrame)
    (argv : List Value) (i : Nat) (p q : FunctionParametersInfo) (hne : q ≠ p) :
    (fr.bindComplexParameter argv i q).readParameter p = fr.readParameter p := by
  unfold CallFrame.bindComplexParameter
  split
  · exact fr.readParameter_writeParameter_other p q _ hne
  · split
    · rfl
    · exact fr.readParameter_writeParameter_other p q _ hne

/-- An iteration at a position with a supplied argument writes that argument. -/
theorem CallFrame.readParameter_bindComplexParameter_supplied (fr : CallFrame)
    (argv : List Value) (i : Nat) (p : FunctionParametersInfo) (hi : i < argv.length) :
    argv[i]? = some ((fr.bindComplexParameter argv i p).readParameter p) := by
  unfold CallFrame.bindComplexParameter
  rw [dif_pos hi, CallFrame.readParameter_writeParameter_same, List.getElem?_eq_getElem hi]
  rfl

/-- An iteration at a position without an argument writes `undefined` when the
slot index is below `(int32_t)argc`, and nothing otherwise. -/
theorem CallFrame.readParameter_bindComplexParameter_missing (fr : CallFrame)
    (argv : List Value) (i : Nat) (p : FunctionParametersInfo) (hi : argv.length ≤ i) :
    (fr.bindComplexParameter argv i p).readParameter p
      = if p.m_index ≥ toInt32 argv.length then fr.readParameter p else Value.undefined := by
  unfold CallFrame.bindComplexParameter
  rw [dif_neg (by omega)]
  split
  · rfl
  · exact CallFrame.readParameter_writeParameter_same _ _ _

/-- The loop leaves a location alone when every iteration that targets it stands
at a position without an argument and is skipped. -/
theorem CallFrame.readParameter_bindComplexParametersFrom_skipped (argv : List Value)
    (p : FunctionParametersInfo) (ps : List FunctionParametersInfo) :
    ∀ (i0 : Nat) (fr : CallFrame),
      (∀ i : Nat, ps[i]? = some p →
        argv.length ≤ i0 + i ∧ p.m_index ≥ toInt32 argv.length) →
      (CallFrame.bindComplexParametersFrom argv i0 ps fr).readParameter p
        = fr.readParameter p := by
  induction ps with
  | nil => intro i0 fr _; rfl
  | cons q rest ih =>
    intro i0 fr h
    simp only [CallFrame.bindComplexParametersFrom]
    rw [ih (i0 + 1) _ (fun i hi => by
      have := h (i + 1) (by simpa using hi)
      exact ⟨by omega, this.2⟩)]
    by_cases hq : q = p
    · subst hq
      have h0 := h 0 (by simp)
      rw [CallFrame.readParameter_bindComplexParameter_missing _ _ _ _ (by omega),
        if_pos h0.2]
    · exact CallFrame.readParameter_bindComplexParameter_other _ _ _ _ _ hq

/-- The loop leaves at a location what the last iteration targeting it left. -/
theorem CallFrame.readParameter_bindComplexParametersFrom_last (argv : List Value)
    (p : FunctionParametersInfo) (ps : List FunctionParametersInfo) :
    ∀ (i0 : Nat) (fr : CallFrame) (j : Nat), ps[j]? = some p →
      (∀ i : Nat, j < i → ps[i]? ≠ some p) →
      ∃ fr1 : CallFrame,
        (CallFrame.bindComplexParametersFrom argv i0 ps fr).readParameter p
          = (fr1.bindComplexParameter argv (i0 + j) p).readParameter p
        ∧ ((∀ i : Nat, i < j → ps[i]? = some p →
              argv.length ≤ i0 + i ∧ p.m_index ≥ toInt32 argv.length) →
            fr1.readParameter p = fr.readParameter p) := by
  induction ps with
  | nil => intro i0 fr j hj; simp at hj
  | cons q rest ih =>
    intro i0 fr j hj hlast
    simp only [CallFrame.bindComplexParametersFrom]
    cases j with
    | zero =>
      have hq : q = p := by simpa using hj
      subst hq
      refine ⟨fr, ?_, fun _ => rfl⟩
      apply CallFrame.readParameter_bindComplexParametersFrom_skipped
      intro i hi
      exact absurd (by simpa using hi) (hlast (i + 1) (by omega))
    | succ k =>
      obtain ⟨fr1, h1, h2⟩ := ih (i0 + 1) (fr.bindComplexParameter argv i0 q) k
        (by simpa using hj)
        (fun i hi => by
          have := hlast (i + 1) (by omega)
          simpa using this)
      refine ⟨fr1, ?_, ?_⟩
      · rw [h1]
        have he : i0 + 1 + k = i0 + (k + 1) := by omega
        rw [he]
      · intro hskip
        rw [h2 (fun i hi hp => by
          have := hskip (i + 1) (by omega) (by simpa using hp)
          exact ⟨by omega, this.2⟩)]
        by_cases hq : q = p
        · subst hq
          have h0 := hskip 0 (by omega) (by simp)
          rw [CallFrame.readParameter_bindComplexParameter_missing _ _ _ _ (by omega),
            if_pos h0.2]
        · exact CallFrame.readParameter_bindComplexParameter_other _ _ _ _ _ hq

theorem CallFrame.prepareParameters_complex_indexed (fr : CallFrame) (cb : CodeBlock)
    (argv : List Value) (hcomplex : cb.needsComplexParameterCopy = true)
    (hindexed : cb.canUseIndexedVariableStorage = true) :
    fr.prepareParameters cb argv
      = CallFrame.bindComplexParametersFrom argv 0 cb.parametersInfomation
          (fr.fillUndefined 2 fr.stackStorageSize) := by
  simp [CallFrame.prepareParameters, hcomplex, hindexed]


theorem toInt32_of_lt (n : Nat) (h : n < 2147483648) : toInt32 n = (n : Int) := by
  unfold toInt32
  omega

/-- C13. Complex parameter binding with all arguments supplied, last write wins: for
an indexed-storage descriptor needing complex parameter copy, any parameter
layout and any argument list with `argc >= ` the number of declared parameters,
after `// prepare parameters` the location of a parameter (stack slot or heap
slot) holds `argv[j]`, where `j` is the greatest declaration position that
resolves to that location. -/
theorem complexParameterCopy_last_write_wins (fr : CallFrame) (cb : CodeBlock)
    (argv : List Value) (j : Nat) (p : FunctionParametersInfo)
    (hcomplex : cb.needsComplexParameterCopy = true)
    (hindexed : cb.canUseIndexedVariableStorage = true)
    (hall : cb.parametersInfomation.length ≤ argv.length)
    (hj : cb.parametersInfomation[j]? = some p)
    (hlast : ∀ i : Nat, j < i → cb.parametersInfomation[i]? ≠ some p) :
    argv[j]? = some ((fr.prepareParameters cb argv).readParameter p) := by
  rw [fr.prepareParameters_complex_indexed cb argv hcomplex hindexed]
  obtain ⟨fr1, h1, _⟩ := CallFrame.readParameter_bindComplexParametersFrom_last argv p
    cb.parametersInfomation 0 (fr.fillUndefined 2 fr.stackStorageSize) j hj hlast
  rw [h1, Nat.zero_add]
  have hjlt : j < cb.parametersInfomation.length := by
    rcases Nat.lt_or_ge j cb.parametersInfomation.length with h | h
    · exact h
    · rw [List.getElem?_eq_none h] at hj
      cases hj
  exact CallFrame.readParameter_bindComplexParameter_supplied _ argv j p (by omega)

theorem complexParameterCopy_last_write_wins_witness :
    [Value.number 1, Value.number 2][1]?
      = some (((CallFrame.sample 3).prepareParameters
          { CodeBlock.sample with
            needsComplexParameterCopy := true
            functionParameters := ["x", "x"]
            parametersInfomation := [⟨false, 0⟩, ⟨false, 0⟩] }
          [Value.number 1, Value.number 2]).readParameter ⟨false, 0⟩) :=
  complexParameterCopy_last_write_wins (CallFrame.sample 3)
    { CodeBlock.sample with
      needsComplexParameterCopy := true
      functionParameters := ["x", "x"]
      parametersInfomation := [⟨false, 0⟩, ⟨false, 0⟩] }
    [Value.number 1, Value.number 2] 1 ⟨false, 0⟩ (by decide) (by decide) (by decide)
    (by decide)
    (fun i hi => by
      rw [List.getElem?_eq_none (by simp only [List.length_cons, List.length_nil]; omega)]
      exact fun h => nomatch h)

/-- C14, as stated, fails. With the layout of two parameters that both resolve to
stack slot 1 and the single argument `7`, the last declaration targeting the slot
stands at position 1, which has no argument, so the claim asks for `undefined`;
but the loop skips that declaration (its slot index 1 is not below `argc = 1`)
and the slot keeps the `7` that position 0 wrote. -/
theorem complexParameterCopy_missing_counterexample :
    ((CallFrame.sample 4).prepareParameters
        { CodeBlock.sample with
          needsComplexParameterCopy := true
          functionParameters := ["x", "x"]
          parametersInfomation := [⟨false, 1⟩, ⟨false, 1⟩] }
        [Value.number 7]).readParameter ⟨false, 1⟩ = Value.number 7
    ∧ ¬ (∀ (fr : CallFrame) (cb : CodeBlock) (argv : List Value) (j : Nat)
          (p : FunctionParametersInfo),
          cb.needsComplexParameterCopy = true → cb.canUseIndexedVariableStorage = true →
          cb.parametersInfomation[j]? = some p → p.m_isHeapAllocated = false →
          (∀ i : Nat, j < i → cb.parametersInfomation[i]? ≠ some p) →
          (fr.prepareParameters cb argv).readParameter p = (argv[j]?).getD Value.undefined) := by
  refine ⟨by decide, fun h => ?_⟩
  have hbad := h (CallFrame.sample 4)
    { CodeBlock.sample with
      needsComplexParameterCopy := true
      functionParameters := ["x", "x"]
      parametersInfomation := [⟨false, 1⟩, ⟨false, 1⟩] }
    [Value.number 7] 1 ⟨false, 1⟩ (by decide) (by decide) (by decide) (by decide)
    (fun i hi => by
      rw [List.getElem?_eq_none (by simp only [List.length_cons, List.length_nil]; omega)]
      exact fun h => nomatch h)
  exact absurd hbad (by decide)

/-- C14, amended. Complex parameter binding with missing arguments: for an
indexed-storage descriptor needing complex parameter copy and any argument list,
after zero-initialising the local slots and running the binding loop in
declaration order, a stack-located parameter location holds the value resolved
for the last declaration `j` targeting it (`argv[j]` if `j < argc`, `undefined`
otherwise), provided that `j < argc`, or else that `argc < 2^31` and either the
slot index is below `argc`, or the slot is one of the zero-initialised local
slots and no declaration at a position below `argc` targets it. -/
theorem complexParameterCopy_missing_arguments (fr : CallFrame) (cb : CodeBlock)
    (argv : List Value) (j : Nat) (p : FunctionParametersInfo)
    (hcomplex : cb.needsComplexParameterCopy = true)
    (hindexed : cb.canUseIndexedVariableStorage = true)
    (hj : cb.parametersInfomation[j]? = some p)
    (hstack : p.m_isHeapAllocated = false)
    (hlast : ∀ i : Nat, j < i → cb.parametersInfomation[i]? ≠ some p)
    (hlayout : j < argv.length
      ∨ (argv.length < 2147483648
          ∧ (p.m_index < (argv.length : Int)
              ∨ (0 ≤ p.m_index ∧ p.m_index + 2 < (fr.stackStorageSize : Int)
                  ∧ ∀ i : Nat, i < argv.length → cb.parametersInfomation[i]? ≠ some p)))) :
    (fr.prepareParameters cb argv).readParameter p = (argv[j]?).getD Value.undefined := by
  rw [fr.prepareParameters_complex_indexed cb argv hcomplex hindexed]
  obtain ⟨fr1, h1, h2⟩ := CallFrame.readParameter_bindComplexParametersFrom_last argv p
    cb.parametersInfomation 0 (fr.fillUndefined 2 fr.stackStorageSize) j hj hlast
  rw [h1, Nat.zero_add]
  by_cases hjlt : j < argv.length
  · have := CallFrame.readParameter_bindComplexParameter_supplied fr1 argv j p hjlt
    rw [this]
    rfl
  · have hnone : argv[j]? = none := List.getElem?_eq_none (by omega)
    rw [hnone, CallFrame.readParameter_bindComplexParameter_missing _ _ _ _ (by omega)]
    show _ = Value.undefined
    obtain ⟨hfits, hcase⟩ : argv.length < 2147483648
        ∧ (p.m_index < (argv.length : Int)
            ∨ (0 ≤ p.m_index ∧ p.m_index + 2 < (fr.stackStorageSize : Int)
                ∧ ∀ i : Nat, i < argv.length → cb.parametersInfomation[i]? ≠ some p)) := by
      rcases hlayout with h | h
      · exact absurd h hjlt
      · exact h
    rw [toInt32_of_lt _ hfits]
    by_cases hidx : p.m_index < (argv.length : Int)
    · rw [if_neg (by omega)]
    · rw [if_pos (by omega)]
      obtain ⟨h0, hin, hnot⟩ : 0 ≤ p.m_index ∧ p.m_index + 2 < (fr.stackStorageSize : Int)
          ∧ ∀ i : Nat, i < argv.length → cb.parametersInfomation[i]? ≠ some p := by
        rcases hcase with h | h
        · exact absurd h hidx
        · exact h
      rw [h2 (fun i _ hp => by
        have hge : argv.length ≤ i := by
          by_contra hc
          exact hnot i (by omega) hp
        exact ⟨by omega, by rw [toInt32_of_lt _ hfits]; omega⟩)]
      unfold CallFrame.readParameter
      rw [hstack]
      simp only [Bool.false_eq_true, if_false]
      rw [CallFrame.fillUndefined_stackStorage, if_pos (by omega)]

theorem complexParameterCopy_missing_arguments_witness :
    ((CallFrame.sample 4).prepareParameters
        { CodeBlock.sample with
          needsComplexParameterCopy := true
          functionParameters := ["x", "y", "x"]
          parametersInfomation := [⟨false, 0⟩, ⟨false, 1⟩, ⟨false, 0⟩] }
        [Value.number 7]).readParameter ⟨false, 0⟩
      = ([Value.number 7][2]?).getD Value.undefined :=
  complexParameterCopy_missing_arguments (CallFrame.sample 4)
    { CodeBlock.sample with
      needsComplexParameterCopy := true
      functionParameters := ["x", "y", "x"]
      parametersInfomation := [⟨false, 0⟩, ⟨false, 1⟩, ⟨false, 0⟩] }
    [Value.number 7] 2 ⟨false, 0⟩ (by decide) (by decide) (by decide) (by decide)
    (fun i hi => by
      rw [List.getElem?_eq_none (by simp only [List.length_cons, List.length_nil]; omega)]
      exact fun h => nomatch h)
    (Or.inr ⟨by decide, Or.inl (by decide)⟩)


/-! ## Receiver binding -/

theorem CallFrame.bindFunctionName_stackStorage (fr : CallFrame) (cb : CodeBlock)
    (f : FunctionObject) (j : Int) (hj : j ≠ 1) :
    (fr.bindFunctionName cb f).stackStorage j = fr.stackStorage j := by
  unfold CallFrame.bindFunctionName
  cases cb.m_isFunctionNameSaveOnHeap <;> cases cb.canUseIndexedVariableStorage <;>
    simp [CallFrame.setStack, Function.update, hj]

theorem CallFrame.bindComplexParametersFrom_stackStorageSize (argv : List Value)
    (ps : List FunctionParametersInfo) :
    ∀ (i0 : Nat) (fr : CallFrame),
      (CallFrame.bindComplexParametersFrom argv i0 ps fr).stackStorageSize
        = fr.stackStorageSize := by
  induction ps with
  | nil => intro i0 fr; rfl
  | cons q rest ih =>
    intro i0 fr
    simp only [CallFrame.bindComplexParametersFrom]
    rw [ih]
    unfold CallFrame.bindComplexParameter CallFrame.writeParameter CallFrame.setStack
    split <;> (try split) <;> (try split) <;> rfl

/-- The parameter step leaves slot 0 alone unless a parameter resolves to it. -/
theorem CallFrame.prepareParameters_slot_zero (fr : CallFrame) (cb : CodeBlock)
    (argv : List Value)
    (hparam : ({ m_isHeapAllocated := false, m_index := -2 } : FunctionParametersInfo)
      ∉ cb.parametersInfomation) :
    (fr.prepareParameters cb argv).stackStorage 0 = fr.stackStorage 0 := by
  cases hc : cb.needsComplexParameterCopy
  · rw [fr.prepareParameters_simple cb argv hc, CallFrame.fillUndefined_stackStorage,
      if_neg (by omega)]
    exact CallFrame.copyValuesFrom_outside _ 2 fr 0 (Or.inl (by omega))
  · cases hi : cb.canUseIndexedVariableStorage
    · have : fr.prepareParameters cb argv
          = { fr.fillUndefined 2 fr.stackStorageSize with
              record := (fr.fillUndefined 2 fr.stackStorageSize).record.bindNamedParameters
                cb.functionParameters argv } := by
        simp [CallFrame.prepareParameters, hc, hi]
      rw [this]
      show (fr.fillUndefined 2 fr.stackStorageSize).stackStorage 0 = _
      rw [CallFrame.fillUndefined_stackStorage, if_neg (by omega)]
    · rw [fr.prepareParameters_complex_indexed cb argv hc hi]
      have h := CallFrame.readParameter_bindComplexParametersFrom_skipped argv
        { m_isHeapAllocated := false, m_index := -2 } cb.parametersInfomation 0
        (fr.fillUndefined 2 fr.stackStorageSize)
        (fun i hp => absurd (List.getElem?_mem hp) hparam)
      have h2 : ∀ g : CallFrame,
          g.readParameter { m_isHeapAllocated := false, m_index := -2 } = g.stackStorage 0 := by
        intro g
        simp [CallFrame.readParameter]
      rw [h2, h2] at h
      rw [h, CallFrame.fillUndefined_stackStorage, if_neg (by omega)]

/-- The frame handed to the interpreter holds the prepared receiver in slot 0 when
no parameter and no `arguments` binding resolves to slot 0. -/
theorem FunctionObject.prepareFrame_receiver_slot (f : FunctionObject) (env : Collaborators)
    (cb : CodeBlock) (blk : ByteCodeBlock) (isStrict : Bool) (receiverSrc : Value)
    (argv : List Value) (rawMemory : Int → Value)
    (hparam : ({ m_isHeapAllocated := false, m_index := -2 } : FunctionParametersInfo)
      ∉ cb.parametersInfomation)
    (hargs : ∀ v ∈ cb.identifierInfos, v.m_indexForIndexedStorage ≠ 0) :
    (f.prepareFrame env cb blk isStrict receiverSrc argv rawMemory).stackStorage 0
      = FunctionObject.nativeReceiver env isStrict receiverSrc := by
  unfold FunctionObject.prepareFrame
  simp only []
  have hcore : ∀ fr1 : CallFrame,
      (((fr1.prepareReceiver env isStrict receiverSrc).bindFunctionName cb f).prepareParameters
        cb argv).stackStorage 0 = FunctionObject.nativeReceiver env isStrict receiverSrc := by
    intro fr1
    rw [CallFrame.prepareParameters_slot_zero _ cb argv hparam,
      CallFrame.bindFunctionName_stackStorage _ cb f 0 (by omega), fr1.prepareReceiver_eq]
    simp [CallFrame.setStack]
  cases hu : cb.usesArgumentsObject
  · simp only [Bool.false_eq_true, if_false]
    exact hcore _
  · simp only [if_true]
    unfold FunctionObject.generateArgumentsObject
    simp only []
    split
    · exact hcore _
    · split
      · next v hfind =>
        have hv := hargs v (List.mem_of_find?_eq_some hfind)
        have hne : (0 : Int) ≠ (v.m_indexForIndexedStorage : Int) := by omega
        simp only [CallFrame.setStack, Function.update_noteq hne]
        exact hcore _
      · exact hcore _

/-- C16. Receiver binding: the receiver that the interpreted path writes to the first
reserved local slot `stackStorage[0]`, and the receiver the native path passes
to the host routine, is the global object when the descriptor is non-strict and
the supplied receiver is undefined or null, `toObject` of the supplied receiver
when the descriptor is non-strict and the receiver is anything else, and the
supplied receiver itself when the descriptor is strict. The store into slot 0
changes no other slot; the frame handed to the interpreter still holds that
receiver in slot 0 when no parameter and no `arguments` binding resolves to
slot 0; and the native branch of `call` invokes the host routine with that
receiver. -/
theorem receiver_binding (env : Collaborators) (fr : CallFrame) (isStrict : Bool)
    (receiverSrc : Value) :
    (isStrict = false → receiverSrc.isUndefinedOrNull = true →
        (fr.prepareReceiver env isStrict receiverSrc).stackStorage 0 = env.globalObject
        ∧ FunctionObject.nativeReceiver env isStrict receiverSrc = env.globalObject)
    ∧ (isStrict = false → receiverSrc.isUndefinedOrNull = false →
        (fr.prepareReceiver env isStrict receiverSrc).stackStorage 0 = env.toObject receiverSrc
        ∧ FunctionObject.nativeReceiver env isStrict receiverSrc = env.toObject receiverSrc)
    ∧ (isStrict = true →
        (fr.prepareReceiver env isStrict receiverSrc).stackStorage 0 = receiverSrc
        ∧ FunctionObject.nativeReceiver env isStrict receiverSrc = receiverSrc)
    ∧ (∀ j : Int, j ≠ 0 →
        (fr.prepareReceiver env isStrict receiverSrc).stackStorage j = fr.stackStorage j)
    ∧ (∀ (cb : CodeBlock) (blk : ByteCodeBlock) (f : FunctionObject) (argv : List Value)
        (rawMemory : Int → Value),
        ({ m_isHeapAllocated := false, m_index := -2 } : FunctionParametersInfo)
          ∉ cb.parametersInfomation →
        (∀ v ∈ cb.identifierInfos, v.m_indexForIndexedStorage ≠ 0) →
        (f.prepareFrame env cb blk isStrict receiverSrc argv rawMemory).stackStorage 0
          = (if isStrict = false then
              if receiverSrc.isUndefinedOrNull then env.globalObject
              else env.toObject receiverSrc
             else receiverSrc))
    ∧ (∀ (st : ExecutionState) (f : FunctionObject) (argv : List Value)
        (isNewExpression : Bool) (blk : ByteCodeBlock),
        (st.codeBlocks f.m_codeBlock).m_byteCodeBlock = some blk →
        (st.codeBlocks f.m_codeBlock).isStrict = isStrict →
        f.callNative env st receiverSrc argv isNewExpression
          = match env.nativeFunction blk (st.enter f)
              (if isStrict = false then
                if receiverSrc.isUndefinedOrNull then env.globalObject
                else env.toObject receiverSrc
               else receiverSrc)
              argv.length
              (FunctionObject.nativeArguments
                (st.codeBlocks f.m_codeBlock).parametersInfomation.length argv)
              isNewExpression with
            | (.ok v, st1) => some (.ok v, st1.returnTo st)
            | (.error thrown, st1) =>
              some (.error (env.processException st1 thrown), st1.returnTo st)) := by
  refine ⟨?_, ?_, ?_, ?_, ?_, ?_⟩
  · intro hs hn
    rw [fr.prepareReceiver_eq]
    simp [FunctionObject.nativeReceiver, CallFrame.setStack, hs, hn]
  · intro hs hn
    rw [fr.prepareReceiver_eq]
    simp [FunctionObject.nativeReceiver, CallFrame.setStack, hs, hn]
  · intro hs
    rw [fr.prepareReceiver_eq]
    simp [FunctionObject.nativeReceiver, CallFrame.setStack, hs]
  · intro j hj
    rw [fr.prepareReceiver_eq]
    simp [CallFrame.setStack, Function.update, hj]
  · intro cb blk f argv rawMemory hparam hargs
    rw [f.prepareFrame_receiver_slot env cb blk isStrict receiverSrc argv rawMemory hparam hargs]
    cases isStrict <;> simp [FunctionObject.nativeReceiver]
  · intro st f argv isNewExpression blk hblk hstrict
    unfold FunctionObject.callNative
    simp only [hblk, hstrict, FunctionObject.nativeReceiver]
    cases isStrict <;> simp

theorem receiver_binding_witness :
    ((CallFrame.sample 2).prepareReceiver Collaborators.sample false Value.null).stackStorage 0
        = Collaborators.sample.globalObject
      ∧ ((CallFrame.sample 2).prepareReceiver Collaborators.sample true Value.null).stackStorage 0
        = Value.null
      ∧ FunctionObject.nativeReceiver Collaborators.sample false (Value.number 5)
        = Collaborators.sample.toObject (Value.number 5) :=
  ⟨((receiver_binding Collaborators.sample (CallFrame.sample 2) false Value.null).1
      (by decide) (by decide)).1,
   ((receiver_binding Collaborators.sample (CallFrame.sample 2) true Value.null).2.2.1
      (by decide)).1,
   ((receiver_binding Collaborators.sample (CallFrame.sample 2) false (Value.number 5)).2.1
      (by decide) (by decide)).2⟩


/-! ## The compiled-code cache -/

theorem collectCodeBlocksInStack_nodup (codeBlocks : Nat → CodeBlock)
    (chain : List EnvironmentRecord) :
    ∀ acc : List Nat, acc.Nodup → (collectCodeBlocksInStack codeBlocks chain acc).Nodup := by
  induction chain with
  | nil => intro acc h; exact h
  | cons r parents ih =>
    intro acc h
    cases r with
    | objectEnvironment => exact ih acc h
    | declarativeEnvironment => exact ih acc h
    | functionEnvironment cblk =>
      simp only [collectCodeBlocksInStack]
      split
      · split
        · exact ih acc h
        · next hnot =>
          apply ih
          rw [List.nodup_append]
          refine ⟨h, List.nodup_singleton _, ?_⟩
          intro a ha hb
          rw [List.mem_singleton] at hb
          subst hb
          exact hnot ha
      · exact ih acc h

theorem collectCodeBlocksInStack_mem (codeBlocks : Nat → CodeBlock)
    (chain : List EnvironmentRecord) :
    ∀ (acc : List Nat) (p : Nat),
      p ∈ collectCodeBlocksInStack codeBlocks chain acc ↔
        p ∈ acc ∨ (EnvironmentRecord.functionEnvironment p ∈ chain
          ∧ (codeBlocks p).m_script.isSome = true
          ∧ (codeBlocks p).m_byteCodeBlock.isSome = true) := by
  induction chain with
  | nil => intro acc p; simp [collectCodeBlocksInStack]
  | cons r parents ih =>
    intro acc p
    cases r with
    | objectEnvironment =>
      simp only [collectCodeBlocksInStack]
      rw [ih acc p]
      simp
    | declarativeEnvironment =>
      simp only [collectCodeBlocksInStack]
      rw [ih acc p]
      simp
    | functionEnvironment cblk =>
      simp only [collectCodeBlocksInStack]
      by_cases hlive : ((codeBlocks cblk).m_script.isSome
          && (codeBlocks cblk).m_byteCodeBlock.isSome) = true
      · rw [if_pos hlive]
        have hl : (codeBlocks cblk).m_script.isSome = true
            ∧ (codeBlocks cblk).m_byteCodeBlock.isSome = true := by
          simpa using hlive
        by_cases hmem : cblk ∈ acc
        · rw [if_pos hmem, ih acc p]
          constructor
          · rintro (h | ⟨h1, h2⟩)
            · exact Or.inl h
            · exact Or.inr ⟨List.mem_cons_of_mem _ h1, h2⟩
          · rintro (h | ⟨h1, h2⟩)
            · exact Or.inl h
            · rcases List.mem_cons.1 h1 with he | he
              · cases he
                exact Or.inl hmem
              · exact Or.inr ⟨he, h2⟩
        · rw [if_neg hmem, ih (acc ++ [cblk]) p]
          constructor
          · rintro (h | ⟨h1, h2⟩)
            · rcases List.mem_append.1 h with h | h
              · exact Or.inl h
              · rw [List.mem_singleton] at h
                subst h
                exact Or.inr ⟨List.mem_cons_self _ _, hl⟩
            · exact Or.inr ⟨List.mem_cons_of_mem _ h1, h2⟩
          · rintro (h | ⟨h1, h2⟩)
            · exact Or.inl (List.mem_append_left _ h)
            · rcases List.mem_cons.1 h1 with he | he
              · cases he
                exact Or.inl (List.mem_append_right _ (List.mem_singleton.2 rfl))
              · exact Or.inr ⟨he, h2⟩
      · rw [if_neg hlive, ih acc p]
        constructor
        · rintro (h | ⟨h1, h2⟩)
          · exact Or.inl h
          · exact Or.inr ⟨List.mem_cons_of_mem _ h1, h2⟩
        · rintro (h | ⟨h1, h2⟩)
          · exact Or.inl h
          · rcases List.mem_cons.1 h1 with he | he
            · cases he
              exfalso
              apply hlive
              simp [h2.1, h2.2]
            · exact Or.inr ⟨he, h2⟩

/-- The discarding loop nulls the artifact of exactly the cache entries outside
`codeBlocksInCurrentStack`. -/
theorem discardNotInStack_apply (inStack : List Nat) (v : List Nat) :
    ∀ (codeBlocks : Nat → CodeBlock) (p : Nat),
      discardNotInStack inStack v codeBlocks p
        = if p ∈ v ∧ p ∉ inStack then { codeBlocks p with m_byteCodeBlock := none }
          else codeBlocks p := by
  induction v with
  | nil => intro codeBlocks p; simp [discardNotInStack]
  | cons q rest ih =>
    intro codeBlocks p
    simp only [discardNotInStack]
    by_cases hq : q ∈ inStack
    · rw [if_pos hq, ih codeBlocks p]
      by_cases hp : p ∈ rest ∧ p ∉ inStack
      · rw [if_pos hp, if_pos ⟨List.mem_cons_of_mem _ hp.1, hp.2⟩]
      · rw [if_neg hp, if_neg]
        rintro ⟨h1, h2⟩
        rcases List.mem_cons.1 h1 with he | he
        · subst he
          exact h2 hq
        · exact hp ⟨he, h2⟩
    · rw [if_neg hq, ih _ p]
      by_cases hpq : p = q
      · subst hpq
        have hout : p ∈ p :: rest ∧ p ∉ inStack := ⟨List.mem_cons_self _ _, hq⟩
        rw [if_pos hout]
        simp only [Function.update_same]
        split <;> rfl
      · simp only [Function.update_noteq hpq]
        by_cases hp : p ∈ rest ∧ p ∉ inStack
        · rw [if_pos hp, if_pos ⟨List.mem_cons_of_mem _ hp.1, hp.2⟩]
        · rw [if_neg hp, if_neg]
          rintro ⟨h1, h2⟩
          rcases List.mem_cons.1 h1 with he | he
          · exact hpq he
          · exact hp ⟨he, h2⟩

/-- The refilling loop clears `m_locData` in the artifacts of the entries it
visits and changes nothing else. -/
theorem clearLocData_apply (l : List Nat) :
    ∀ (codeBlocks : Nat → CodeBlock) (p : Nat),
      clearLocData l codeBlocks p
        = if p ∈ l then
            { codeBlocks p with
              m_byteCodeBlock :=
                (codeBlocks p).m_byteCodeBlock.map (fun b => { b with m_locData := [] }) }
          else codeBlocks p := by
  induction l with
  | nil => intro codeBlocks p; simp [clearLocData]
  | cons q rest ih =>
    intro codeBlocks p
    simp only [clearLocData]
    cases hb : (codeBlocks q).m_byteCodeBlock with
    | none =>
      simp only []
      rw [ih codeBlocks p]
      by_cases hpq : p = q
      · subst hpq
        have hout : p ∈ p :: rest := List.mem_cons_self _ _
        rw [if_pos hout]
        split
        · rfl
        · rw [hb]
          cases hc : codeBlocks p
          rw [hc] at hb
          simp only at hb
          subst hb
          rfl
      · by_cases hp : p ∈ rest
        · rw [if_pos hp, if_pos (List.mem_cons_of_mem _ hp)]
        · rw [if_neg hp, if_neg]
          intro h
          rcases List.mem_cons.1 h with he | he
          · exact hpq he
          · exact hp he
    | some b =>
      simp only []
      rw [ih _ p]
      by_cases hpq : p = q
      · subst hpq
        have hout : p ∈ p :: rest := List.mem_cons_self _ _
        rw [if_pos hout]
        simp only [Function.update_same, hb, Option.map_some']
        split <;> rfl
      · simp only [Function.update_noteq hpq]
        by_cases hp : p ∈ rest
        · rw [if_pos hp, if_pos (List.mem_cons_of_mem _ hp)]
        · rw [if_neg hp, if_neg]
          intro h
          rcases List.mem_cons.1 h with he | he
          · exact hpq he
          · exact hp he


/-- The summation loop, when it dereferences no null artifact, adds
`ByteCodeBlock.codeSize` of every cache entry to the running total. -/
theorem sumCodeSize_eq (codeBlocks : Nat → CodeBlock) (v : List Nat) :
    ∀ (total r : Nat), sumCodeSize codeBlocks v total = some r →
      r = total + (v.map (fun p =>
            match (codeBlocks p).m_byteCodeBlock with
            | some b => b.codeSize
            | none => 0)).sum
      ∧ ∀ p ∈ v, (codeBlocks p).m_byteCodeBlock.isSome = true := by
  induction v with
  | nil =>
    intro total r h
    simp only [sumCodeSize, Option.some.injEq] at h
    subst h
    simp
  | cons q rest ih =>
    intro total r h
    simp only [sumCodeSize] at h
    cases hb : (codeBlocks q).m_byteCodeBlock with
    | none => rw [hb] at h; cases h
    | some b =>
      rw [hb] at h
      obtain ⟨h1, h2⟩ := ih _ r h
      refine ⟨?_, ?_⟩
      · rw [h1, List.map_cons, List.sum_cons, hb]
        simp only []
        omega
      · intro p hp
        rcases List.mem_cons.1 hp with he | he
        · subst he; rw [hb]; rfl
        · exact h2 p he

theorem ExecutionState.evictionPass_mem (st : ExecutionState) (p : Nat) :
    p ∈ st.evictionPass.compiledCodeBlocks ↔
      (EnvironmentRecord.functionEnvironment p ∈ st.executionContext
        ∧ (st.codeBlocks p).m_script.isSome = true
        ∧ (st.codeBlocks p).m_byteCodeBlock.isSome = true) := by
  show p ∈ collectCodeBlocksInStack st.codeBlocks st.executionContext [] ↔ _
  rw [collectCodeBlocksInStack_mem]
  simp

theorem ExecutionState.evictionPass_codeBlocks (st : ExecutionState) (p : Nat) :
    st.evictionPass.codeBlocks p
      = if p ∈ st.codeBlocksInCurrentStack then
          { st.codeBlocks p with
            m_byteCodeBlock :=
              (st.codeBlocks p).m_byteCodeBlock.map (fun b => { b with m_locData := [] }) }
        else if p ∈ st.compiledCodeBlocks then { st.codeBlocks p with m_byteCodeBlock := none }
        else st.codeBlocks p := by
  show clearLocData st.codeBlocksInCurrentStack
      (discardNotInStack st.codeBlocksInCurrentStack st.compiledCodeBlocks st.codeBlocks) p = _
  rw [clearLocData_apply, discardNotInStack_apply]
  by_cases h1 : p ∈ st.codeBlocksInCurrentStack
  · have h2 : ¬ (p ∈ st.compiledCodeBlocks ∧ p ∉ st.codeBlocksInCurrentStack) :=
      fun h => h.2 h1
    rw [if_pos h1, if_pos h1, if_neg h2]
  · rw [if_neg h1, if_neg h1]
    by_cases h3 : p ∈ st.compiledCodeBlocks
    · rw [if_pos ⟨h3, h1⟩, if_pos h3]
    · have h2 : ¬ (p ∈ st.compiledCodeBlocks ∧ p ∉ st.codeBlocksInCurrentStack) :=
        fun h => h3 h.1
      rw [if_neg h2, if_neg h3]

theorem FunctionObject.generateBytecodeBlock_eq (env : Collaborators) (st : ExecutionState)
    (f : FunctionObject) (currentStackBase total : Nat)
    (hsize : st.currentCodeSizeTotal = some total) :
    f.generateBytecodeBlock env st currentStackBase
      = match env.parseFunctionAndGenerateByteCode (st.afterSizeCheck total) f.m_codeBlock
            (sizeSub env.STACK_LIMIT_FROM_BASE (consumedStackDepth env st currentStackBase)) with
        | .error e => some (.error e, st.afterSizeCheck total)
        | .ok blk => some (.ok (), (st.afterSizeCheck total).registerByteCodeBlock
            f.m_codeBlock blk) := by
  unfold FunctionObject.generateBytecodeBlock
  rw [hsize]

/-- C19. Eviction pass: when `generateBytecodeBlock` runs with the cumulative cached
artifact size above the ceiling, the state it compiles in (after the pass,
before the new descriptor is registered) is the one the eviction pass leaves,
in which: the cache holds exactly the descriptors live on the chain of
execution contexts (their function environment record is on the chain, they are
script-backed and held an artifact), each once; every previously cached
descriptor that is not live has no artifact any more; and every live descriptor
still holds its artifact, with the position data cleared. -/
theorem evictionPass_keeps_exactly_live (env : Collaborators) (st : ExecutionState)
    (f : FunctionObject) (currentStackBase total : Nat)
    (hsize : st.currentCodeSizeTotal = some total) (hover : total > codeSizeMax) :
    st.afterSizeCheck total = st.evictionPass
    ∧ f.generateBytecodeBlock env st currentStackBase
        = (match env.parseFunctionAndGenerateByteCode st.evictionPass f.m_codeBlock
              (sizeSub env.STACK_LIMIT_FROM_BASE
                (consumedStackDepth env st currentStackBase)) with
          | .error e => some (.error e, st.evictionPass)
          | .ok blk => some (.ok (), st.evictionPass.registerByteCodeBlock f.m_codeBlock blk))
    ∧ st.evictionPass.compiledCodeBlocks.Nodup
    ∧ (∀ p : Nat, p ∈ st.evictionPass.compiledCodeBlocks ↔
        (EnvironmentRecord.functionEnvironment p ∈ st.executionContext
          ∧ (st.codeBlocks p).m_script.isSome = true
          ∧ (st.codeBlocks p).m_byteCodeBlock.isSome = true))
    ∧ (∀ p : Nat, p ∈ st.compiledCodeBlocks → p ∉ st.evictionPass.compiledCodeBlocks →
        (st.evictionPass.codeBlocks p).m_byteCodeBlock = none)
    ∧ (∀ p : Nat, p ∈ st.evictionPass.compiledCodeBlocks →
        ∃ b : ByteCodeBlock, (st.codeBlocks p).m_byteCodeBlock = some b
          ∧ (st.evictionPass.codeBlocks p).m_byteCodeBlock = some { b with m_locData := [] }) := by
  have hafter : st.afterSizeCheck total = st.evictionPass := by
    unfold ExecutionState.afterSizeCheck
    rw [if_pos hover]
  refine ⟨hafter, ?_, ?_, st.evictionPass_mem, ?_, ?_⟩
  · rw [f.generateBytecodeBlock_eq env st currentStackBase total hsize, hafter]
  · exact collectCodeBlocksInStack_nodup st.codeBlocks st.executionContext [] List.nodup_nil
  · intro p hp hnot
    have hnot2 : p ∉ st.codeBlocksInCurrentStack := hnot
    rw [st.evictionPass_codeBlocks p, if_neg hnot2, if_pos hp]
  · intro p hp
    have hp2 : p ∈ st.codeBlocksInCurrentStack := hp
    have hsome := ((st.evictionPass_mem p).1 hp).2.2
    cases hb : (st.codeBlocks p).m_byteCodeBlock with
    | none => rw [hb] at hsome; cases hsome
    | some b =>
      refine ⟨b, rfl, ?_⟩
      rw [st.evictionPass_codeBlocks p, if_pos hp2]
      simp only [hb, Option.map_some']


theorem ExecutionState.sample_currentCodeSizeTotal (n : Nat) :
    (ExecutionState.sample n).currentCodeSizeTotal = some (n + 10) := by
  simp [ExecutionState.currentCodeSizeTotal, ExecutionState.sample, sumCodeSize,
    ByteCodeBlock.codeSize, ByteCodeBlock.sample, CodeBlock.sample]

theorem evictionPass_keeps_exactly_live_witness :
    (ExecutionState.sample 3000000).currentCodeSizeTotal = some (3000000 + 10)
      ∧ 3000000 + 10 > codeSizeMax
      ∧ (ExecutionState.sample 3000000).evictionPass.compiledCodeBlocks.Nodup
      ∧ ((ExecutionState.sample 3000000).evictionPass.codeBlocks 1).m_byteCodeBlock = none :=
  ⟨ExecutionState.sample_currentCodeSizeTotal 3000000, by decide,
   (evictionPass_keeps_exactly_live Collaborators.sample (ExecutionState.sample 3000000)
      { address := 7, m_codeBlock := 3 } 4000 (3000000 + 10)
      (ExecutionState.sample_currentCodeSizeTotal 3000000) (by decide)).2.2.1,
   (evictionPass_keeps_exactly_live Collaborators.sample (ExecutionState.sample 3000000)
      { address := 7, m_codeBlock := 3 } 4000 (3000000 + 10)
      (ExecutionState.sample_currentCodeSizeTotal 3000000) (by decide)).2.2.2.2.1 1
      (by decide) (by decide)⟩

/-- C20. Eviction threshold and registration: the cumulative artifact size that
`generateBytecodeBlock` computes is the sum, over the cached descriptors, of the
code bytes plus 16 per position entry plus 8 per literal, per in-use structure
and per get-object position. When it is at most 2 MiB (`2 * 1024 * 1024`) and
the parser and generator succeed, `generateBytecodeBlock` returns, discards no
artifact (every other descriptor is as it was) and the cache afterwards is the
previous cache with the compiled descriptor appended; when they fail, their
error propagates and the state is untouched. In every case in which the
parser and generator succeed it returns with the compiled descriptor holding the
new artifact and standing last in the cache; and whenever it returns, the
compiled descriptor holds an artifact and is the last cache entry. -/
theorem generateBytecodeBlock_registers (env : Collaborators) (st : ExecutionState)
    (f : FunctionObject) (currentStackBase total : Nat)
    (hsize : st.currentCodeSizeTotal = some total) :
    total = (st.compiledCodeBlocks.map (fun p =>
        match (st.codeBlocks p).m_byteCodeBlock with
        | some b => b.m_code.length + 16 * b.m_locData.length + 8 * b.m_literalData.length
            + 8 * b.m_objectStructuresInUse.length + 8 * b.m_getObjectCodePositions.length
        | none => 0)).sum
    ∧ (total ≤ 2 * 1024 * 1024 →
        ∀ blk : ByteCodeBlock,
          env.parseFunctionAndGenerateByteCode st f.m_codeBlock
              (sizeSub env.STACK_LIMIT_FROM_BASE (consumedStackDepth env st currentStackBase))
            = .ok blk →
          f.generateBytecodeBlock env st currentStackBase
              = some (.ok (), st.registerByteCodeBlock f.m_codeBlock blk)
          ∧ (st.registerByteCodeBlock f.m_codeBlock blk).compiledCodeBlocks
              = st.compiledCodeBlocks ++ [f.m_codeBlock]
          ∧ (∀ p : Nat, p ≠ f.m_codeBlock →
              (st.registerByteCodeBlock f.m_codeBlock blk).codeBlocks p = st.codeBlocks p)
          ∧ ((st.registerByteCodeBlock f.m_codeBlock blk).codeBlocks
              f.m_codeBlock).m_byteCodeBlock = some blk)
    ∧ (total ≤ 2 * 1024 * 1024 →
        ∀ e : ThrownError,
          env.parseFunctionAndGenerateByteCode st f.m_codeBlock
              (sizeSub env.STACK_LIMIT_FROM_BASE (consumedStackDepth env st currentStackBase))
            = .error e →
          f.generateBytecodeBlock env st currentStackBase = some (.error e, st))
    ∧ (∀ blk : ByteCodeBlock,
        env.parseFunctionAndGenerateByteCode (st.afterSizeCheck total) f.m_codeBlock
            (sizeSub env.STACK_LIMIT_FROM_BASE (consumedStackDepth env st currentStackBase))
          = .ok blk →
        ∃ st1 : ExecutionState,
          f.generateBytecodeBlock env st currentStackBase = some (.ok (), st1)
          ∧ (st1.codeBlocks f.m_codeBlock).m_byteCodeBlock = some blk
          ∧ st1.compiledCodeBlocks.getLast? = some f.m_codeBlock)
    ∧ (∀ st1 : ExecutionState,
        f.generateBytecodeBlock env st currentStackBase = some (.ok (), st1) →
        (st1.codeBlocks f.m_codeBlock).m_byteCodeBlock.isSome = true
          ∧ st1.compiledCodeBlocks.getLast? = some f.m_codeBlock) := by
  have hreg : ∀ (s : ExecutionState) (blk : ByteCodeBlock),
      ((s.registerByteCodeBlock f.m_codeBlock blk).codeBlocks f.m_codeBlock).m_byteCodeBlock
          = some blk
        ∧ (s.registerByteCodeBlock f.m_codeBlock blk).compiledCodeBlocks.getLast?
          = some f.m_codeBlock := by
    intro s blk
    constructor
    · simp [ExecutionState.registerByteCodeBlock]
    · simp [ExecutionState.registerByteCodeBlock]
  have hgen := f.generateBytecodeBlock_eq env st currentStackBase total hsize
  refine ⟨?_, ?_, ?_, ?_, ?_⟩
  · have h := (sumCodeSize_eq st.codeBlocks st.compiledCodeBlocks 0 total hsize).1
    have hfun : (fun p : Nat =>
          match (st.codeBlocks p).m_byteCodeBlock with
          | some b => b.codeSize
          | none => 0)
        = (fun p : Nat =>
          match (st.codeBlocks p).m_byteCodeBlock with
          | some b => b.m_code.length + 16 * b.m_locData.length + 8 * b.m_literalData.length
              + 8 * b.m_objectStructuresInUse.length + 8 * b.m_getObjectCodePositions.length
          | none => 0) := by
      funext p
      cases (st.codeBlocks p).m_byteCodeBlock with
      | none => rfl
      | some b =>
        show b.codeSize = b.m_code.length + 16 * b.m_locData.length
          + 8 * b.m_literalData.length + 8 * b.m_objectStructuresInUse.length
          + 8 * b.m_getObjectCodePositions.length
        simp only [ByteCodeBlock.codeSize, SIZEOF_SIZE_T_PAIR, SIZEOF_SIZE_T]
        omega
    rw [h, Nat.zero_add, hfun]
  · intro hsmall blk hparse
    have hafter : st.afterSizeCheck total = st := by
      unfold ExecutionState.afterSizeCheck
      rw [if_neg]
      simp only [codeSizeMax]
      omega
    rw [hafter, hparse] at hgen
    refine ⟨hgen, rfl, ?_, (hreg st blk).1⟩
    intro p hp
    simp [ExecutionState.registerByteCodeBlock, Function.update_noteq hp]
  · intro hsmall e hparse
    have hafter : st.afterSizeCheck total = st := by
      unfold ExecutionState.afterSizeCheck
      rw [if_neg]
      simp only [codeSizeMax]
      omega
    rw [hafter, hparse] at hgen
    exact hgen
  · intro blk hparse
    rw [hparse] at hgen
    exact ⟨_, hgen, (hreg _ blk).1, (hreg _ blk).2⟩
  · intro st1 hret
    rw [hret] at hgen
    cases hp : env.parseFunctionAndGenerateByteCode (st.afterSizeCheck total) f.m_codeBlock
        (sizeSub env.STACK_LIMIT_FROM_BASE (consumedStackDepth env st currentStackBase)) with
    | error e =>
      rw [hp] at hgen
      simp at hgen
    | ok blk =>
      rw [hp] at hgen
      simp only [Option.some.injEq, Prod.mk.injEq, true_and] at hgen
      subst hgen
      refine ⟨?_, (hreg _ blk).2⟩
      rw [(hreg _ blk).1]
      rfl

theorem generateBytecodeBlock_registers_witness :
    (ExecutionState.sample 20).currentCodeSizeTotal = some (20 + 10)
      ∧ FunctionObject.generateBytecodeBlock Collaborators.sample (ExecutionState.sample 20)
          { address := 7, m_codeBlock := 3 } 4000
        = some (.ok (), (ExecutionState.sample 20).registerByteCodeBlock 3
            (ByteCodeBlock.sample 0))
      ∧ ((ExecutionState.sample 20).registerByteCodeBlock 3
            (ByteCodeBlock.sample 0)).compiledCodeBlocks
          = (ExecutionState.sample 20).compiledCodeBlocks ++ [3] :=
  ⟨ExecutionState.sample_currentCodeSizeTotal 20,
   ((generateBytecodeBlock_registers Collaborators.sample (ExecutionState.sample 20)
      { address := 7, m_codeBlock := 3 } 4000 (20 + 10)
      (ExecutionState.sample_currentCodeSizeTotal 20)).2.1 (by decide)
      (ByteCodeBlock.sample 0) rfl).1,
   ((generateBytecodeBlock_registers Collaborators.sample (ExecutionState.sample 20)
      { address := 7, m_codeBlock := 3 } 4000 (20 + 10)
      (ExecutionState.sample_currentCodeSizeTotal 20)).2.1 (by decide)
      (ByteCodeBlock.sample 0) rfl).2.1⟩


/-! ## The frame of a successful fast-path set -/

/-- A successful set either stores inside the dense storage, or grows the array
to `idx + 1` slots and then stores. -/
theorem ArrayObject.setFastModeValue_success_cases (a : ArrayObject) (P : ObjectPropertyName)
    (desc : ObjectPropertyDescriptor) (hinv : a.sizeInvariant)
    (hok : (a.setFastModeValue P desc).1 = .ok true) :
    a.isFastModeArray = true ∧ P.arrayIndex ≠ Value.InvalidArrayIndexValue
      ∧ ((P.arrayIndex < a.m_fastModeData.length
            ∧ a.setFastModeValue P desc
              = (.ok true,
                 { a with m_fastModeData := a.m_fastModeData.set P.arrayIndex desc.value }))
          ∨ (a.m_fastModeData.length ≤ P.arrayIndex
            ∧ a.setFastModeValue P desc
              = (.ok true,
                 { a with
                   m_lengthValue := P.arrayIndex + 1
                   m_fastModeData :=
                    (ValueVector.resize a.m_fastModeData (P.arrayIndex + 1) .empty).set
                      P.arrayIndex desc.value }))) := by
  have hlt := P.arrayIndex_lt
  cases hf : a.isFastModeArray
  · rw [a.setFastModeValue_dictionary P desc hf] at hok
    cases hok
  · have hmod : a.m_fastModeData.length % UINT32_SIZE = a.m_fastModeData.length := by
      rw [hinv hf]; exact Nat.mod_eq_of_lt a.getArrayLength_lt
    by_cases hi : P.arrayIndex = Value.InvalidArrayIndexValue
    · rw [a.setFastModeValue_of_returned P desc _ _
        (a.setFastModeValueChecks_invalid P desc hi)] at hok
      cases hok
    · refine ⟨rfl, hi, ?_⟩
      cases hr : (if a.slotOccupied P.arrayIndex then
            !desc.isNotPresent && !desc.isDataWritableEnumerableConfigurable
          else !desc.isDataWritableEnumerableConfigurable)
      · by_cases hin : P.arrayIndex < a.m_fastModeData.length % UINT32_SIZE
        · left
          exact ⟨by omega, a.setFastModeValue_inside P desc hf hi hr hin⟩
        · right
          have hout := Nat.le_of_not_lt hin
          refine ⟨by omega, ?_⟩
          have hsucc : (P.arrayIndex + 1) % UINT32_SIZE = P.arrayIndex + 1 := by
            apply Nat.mod_eq_of_lt
            simp only [Value.InvalidArrayIndexValue, UINT32_SIZE] at hi hlt ⊢
            omega
          have hc := a.setFastModeValueChecks_grow P desc hf hi hr hout
          rw [hsucc] at hc
          rcases a.setArrayLength_cases (P.arrayIndex + 1) false with
            ⟨_, hs⟩ | ⟨_, _, hs⟩ | ⟨_, hres, _⟩
          · rw [hs] at hc
            rw [a.setFastModeValue_of_returned P desc _ _ hc] at hok
            cases hok
          · rw [hs] at hc
            exact a.setFastModeValue_of_atStore P desc _ _ hc
          · generalize a.setArrayLength (P.arrayIndex + 1) false = r at hc hres
            obtain ⟨r1, r2⟩ := r
            simp only at hres
            subst hres
            rw [a.setFastModeValue_of_returned P desc _ _ hc] at hok
            cases hok
      · rw [a.setFastModeValue_of_returned P desc _ _
          (a.setFastModeValueChecks_reject P desc hf hi hr)] at hok
        cases hok

/-- C21. Frame of a successful fast-path set: for a fast-mode array satisfying the
size invariant, whenever `setFastModeValue(P, desc)` reports success, with `idx`
the index of `P`: every dense slot `j != idx` with `j < ` old length holds the
same value as before; every slot `j != idx` with old length `<= j <` new length
holds the empty sentinel and reads as "not found"; slot `idx` holds the
descriptor's value; the new length is `max (old length) (idx + 1)`, the stored
length being untouched when `idx < ` old length; and the mode data and the
generic storage are unchanged. -/
theorem setFastModeValue_success_frame (a : ArrayObject) (P : ObjectPropertyName)
    (desc : ObjectPropertyDescriptor)
    (hfast : a.isFastModeArray = true) (hinv : a.sizeInvariant)
    (hok : (a.setFastModeValue P desc).1 = .ok true) :
    (∀ j : Nat, j ≠ P.arrayIndex → j < a.getArrayLength →
        (a.setFastModeValue P desc).2.m_fastModeData[j]? = a.m_fastModeData[j]?)
    ∧ (∀ j : Nat, j ≠ P.arrayIndex → a.getArrayLength ≤ j →
        j < (a.setFastModeValue P desc).2.getArrayLength →
        (a.setFastModeValue P desc).2.m_fastModeData[j]? = some Value.empty)
    ∧ (∀ Q : ObjectPropertyName, Q.arrayIndex ≠ P.arrayIndex →
        a.getArrayLength ≤ Q.arrayIndex →
        Q.arrayIndex < (a.setFastModeValue P desc).2.getArrayLength →
        (a.setFastModeValue P desc).2.getFastModeValue Q = .notFound)
    ∧ (a.setFastModeValue P desc).2.m_fastModeData[P.arrayIndex]? = some desc.value
    ∧ (a.setFastModeValue P desc).2.getArrayLength = max a.getArrayLength (P.arrayIndex + 1)
    ∧ (P.arrayIndex < a.getArrayLength →
        (a.setFastModeValue P desc).2.m_lengthValue = a.m_lengthValue)
    ∧ (a.setFastModeValue P desc).2.m_rareData = a.m_rareData
    ∧ (a.setFastModeValue P desc).2.m_genericProperties = a.m_genericProperties := by
  have hsize : a.m_fastModeData.length = a.getArrayLength := hinv hfast
  have hlt := P.arrayIndex_lt
  obtain ⟨_, hvalid, hcase⟩ := a.setFastModeValue_success_cases P desc hinv hok
  have hfound : ∀ (b : ArrayObject) (Q : ObjectPropertyName),
      b.m_fastModeData[Q.arrayIndex]? = some Value.empty → b.getFastModeValue Q = .notFound := by
    intro b Q hq
    apply (b.getFastModeValue_eq_notFound_iff Q).2
    rintro ⟨v, _, _, _, hv, hne⟩
    rw [hq] at hv
    cases hv
    exact hne rfl
  rcases hcase with ⟨hin, hset⟩ | ⟨hout, hset⟩
  · rw [hset]
    have hnew : ∀ j : Nat, j ≠ P.arrayIndex → a.getArrayLength ≤ j →
        j < a.getArrayLength →
        (a.m_fastModeData.set P.arrayIndex desc.value)[j]? = some Value.empty := by
      intro j _ h1 h2
      omega
    refine ⟨?_, hnew, ?_, ?_, ?_, fun _ => rfl, rfl, rfl⟩
    · intro j hj _
      show (a.m_fastModeData.set P.arrayIndex desc.value)[j]? = a.m_fastModeData[j]?
      exact List.getElem?_set_ne (fun h => hj h.symm)
    · intro Q hq h1 h2
      exact hfound _ Q (hnew Q.arrayIndex hq h1 h2)
    · show (a.m_fastModeData.set P.arrayIndex desc.value)[P.arrayIndex]? = some desc.value
      simp [List.getElem?_set, hin]
    · show a.getArrayLength = _
      omega
  · rw [hset]
    have hsucc : (P.arrayIndex + 1) % UINT32_SIZE = P.arrayIndex + 1 := by
      apply Nat.mod_eq_of_lt
      simp only [Value.InvalidArrayIndexValue, UINT32_SIZE] at hvalid hlt ⊢
      omega
    have hlen : ({ a with
          m_lengthValue := P.arrayIndex + 1
          m_fastModeData :=
            (ValueVector.resize a.m_fastModeData (P.arrayIndex + 1) .empty).set
              P.arrayIndex desc.value } : ArrayObject).getArrayLength = P.arrayIndex + 1 :=
      hsucc
    have hnew : ∀ j : Nat, j ≠ P.arrayIndex → a.getArrayLength ≤ j →
        j < P.arrayIndex + 1 →
        ((ValueVector.resize a.m_fastModeData (P.arrayIndex + 1) .empty).set
          P.arrayIndex desc.value)[j]? = some Value.empty := by
      intro j hj h1 h2
      rw [List.getElem?_set_ne (fun h => hj h.symm)]
      exact ValueVector.resize_getElem?_new _ _ _ j h2 (by omega)
    refine ⟨?_, ?_, ?_, ?_, ?_, ?_, rfl, rfl⟩
    · intro j hj h1
      show ((ValueVector.resize a.m_fastModeData (P.arrayIndex + 1) .empty).set
          P.arrayIndex desc.value)[j]? = a.m_fastModeData[j]?
      rw [List.getElem?_set_ne (fun h => hj h.symm)]
      exact ValueVector.resize_getElem?_old _ _ _ j (by omega) (by omega)
    · intro j hj h1 h2
      rw [hlen] at h2
      exact hnew j hj h1 h2
    · intro Q hq h1 h2
      rw [hlen] at h2
      exact hfound _ Q (hnew Q.arrayIndex hq h1 h2)
    · show ((ValueVector.resize a.m_fastModeData (P.arrayIndex + 1) .empty).set
          P.arrayIndex desc.value)[P.arrayIndex]? = some desc.value
      have : P.arrayIndex < (ValueVector.resize a.m_fastModeData (P.arrayIndex + 1)
          Value.empty).length := by
        rw [ValueVector.resize_length]; omega
      simp [List.getElem?_set, this]
    · rw [hlen]
      omega
    · intro h
      omega

theorem setFastModeValue_success_frame_witness :
    ((ArrayObject.ofValues [.number 1, .number 2]).setFastModeValue (.uint 4)
        (.data (.number 9) true true true)).2.m_fastModeData[1]?
        = (ArrayObject.ofValues [.number 1, .number 2]).m_fastModeData[1]?
      ∧ ((ArrayObject.ofValues [.number 1, .number 2]).setFastModeValue (.uint 4)
          (.data (.number 9) true true true)).2.m_fastModeData[3]? = some Value.empty
      ∧ ((ArrayObject.ofValues [.number 1, .number 2]).setFastModeValue (.uint 4)
          (.data (.number 9) true true true)).2.m_fastModeData
          = [.number 1, .number 2, .empty, .empty, .number 9] :=
  ⟨(setFastModeValue_success_frame (ArrayObject.ofValues [.number 1, .number 2]) (.uint 4)
      (.data (.number 9) true true true) (by decide) (by decide) (by decide)).1 1
      (by decide) (by decide),
   (setFastModeValue_success_frame (ArrayObject.ofValues [.number 1, .number 2]) (.uint 4)
      (.data (.number 9) true true true) (by decide) (by decide) (by decide)).2.1 3
      (by decide) (by decide) (by decide),
   by decide⟩


/-! ## The compiled-code cache invariant -/

theorem sumCodeSize_isSome (codeBlocks : Nat → CodeBlock) (v : List Nat) :
    ∀ total : Nat, (∀ p ∈ v, (codeBlocks p).m_byteCodeBlock.isSome = true) →
      ∃ r : Nat, sumCodeSize codeBlocks v total = some r := by
  induction v with
  | nil => intro total _; exact ⟨total, rfl⟩
  | cons q rest ih =>
    intro total h
    simp only [sumCodeSize]
    cases hb : (codeBlocks q).m_byteCodeBlock with
    | none =>
      have := h q (List.mem_cons_self _ _)
      rw [hb] at this
      cases this
    | some b => exact ih _ (fun p hp => h p (List.mem_cons_of_mem _ hp))

/-- The eviction pass leaves a cache that satisfies the invariant, whatever the
cache was. -/
theorem ExecutionState.evictionPass_cacheInvariant (st : ExecutionState) :
    st.evictionPass.cacheInvariant := by
  refine ⟨collectCodeBlocksInStack_nodup st.codeBlocks st.executionContext [] List.nodup_nil,
    ?_⟩
  intro p hp
  have hp2 : p ∈ st.codeBlocksInCurrentStack := hp
  have hsome := ((st.evictionPass_mem p).1 hp).2.2
  rw [st.evictionPass_codeBlocks p, if_pos hp2]
  cases hb : (st.codeBlocks p).m_byteCodeBlock with
  | none => rw [hb] at hsome; cases hsome
  | some b => simp [hb]

/-- Registering a descriptor that is not in the cache keeps the invariant. -/
theorem ExecutionState.registerByteCodeBlock_cacheInvariant (st : ExecutionState)
    (codeBlock : Nat) (blk : ByteCodeBlock) (hinv : st.cacheInvariant)
    (hnew : codeBlock ∉ st.compiledCodeBlocks) :
    (st.registerByteCodeBlock codeBlock blk).cacheInvariant := by
  constructor
  · show (st.compiledCodeBlocks ++ [codeBlock]).Nodup
    rw [List.nodup_append]
    refine ⟨hinv.1, List.nodup_singleton _, ?_⟩
    intro a ha hb
    rw [List.mem_singleton] at hb
    subst hb
    exact hnew ha
  · intro p hp
    have hp2 : p ∈ st.compiledCodeBlocks ++ [codeBlock] := hp
    by_cases hpc : p = codeBlock
    · subst hpc
      simp [ExecutionState.registerByteCodeBlock]
    · have hold : p ∈ st.compiledCodeBlocks := by
        rcases List.mem_append.1 hp2 with h | h
        · exact h
        · exact absurd (List.mem_singleton.1 h) hpc
      have := hinv.2 p hold
      simpa [ExecutionState.registerByteCodeBlock, Function.update_noteq hpc] using this

/-- C22. Compiled-code cache invariant: if the cache has no duplicate entries and
every cached descriptor holds a compiled artifact, and `generateBytecodeBlock`
is called for a descriptor whose artifact is absent (which is when `call`
invokes it: with an artifact present the interpreted branch runs the
interpreter on the unchanged state), then the size summation dereferences no
null artifact, `generateBytecodeBlock` ends, and in the state it leaves, on
return or on an error of the parser or generator, with or without the eviction
pass, the cache again has no duplicates and every cached descriptor holds an
artifact. -/
theorem generateBytecodeBlock_preserves_cacheInvariant (env : Collaborators)
    (st : ExecutionState) (f : FunctionObject) (currentStackBase : Nat)
    (hinv : st.cacheInvariant)
    (habsent : (st.codeBlocks f.m_codeBlock).m_byteCodeBlock = none) :
    (∃ total : Nat, st.currentCodeSizeTotal = some total)
    ∧ (∃ (r : Except ThrownError Unit) (st1 : ExecutionState),
        f.generateBytecodeBlock env st currentStackBase = some (r, st1))
    ∧ (∀ (r : Except ThrownError Unit) (st1 : ExecutionState),
        f.generateBytecodeBlock env st currentStackBase = some (r, st1) → st1.cacheInvariant)
    ∧ (∀ blk : ByteCodeBlock, (st.registerByteCodeBlock f.m_codeBlock blk).cacheInvariant)
    ∧ (∀ blk : ByteCodeBlock,
        (st.evictionPass.registerByteCodeBlock f.m_codeBlock blk).cacheInvariant)
    ∧ (∀ (st0 : ExecutionState) (blk0 : ByteCodeBlock) (receiverSrc : Value)
        (argv : List Value) (stack : StackInputs),
        (st0.codeBlocks f.m_codeBlock).m_byteCodeBlock = some blk0 →
        f.callInterpreted env st0 receiverSrc argv stack
          = match env.interpret (st0.enter f) blk0
              (f.prepareFrame env (st0.codeBlocks f.m_codeBlock) blk0
                (st0.codeBlocks f.m_codeBlock).isStrict receiverSrc argv stack.rawMemory) with
            | (r, st2) => some (r, st2.returnTo st0)) := by
  obtain ⟨total, htotal⟩ := sumCodeSize_isSome st.codeBlocks st.compiledCodeBlocks 0 hinv.2
  have hsize : st.currentCodeSizeTotal = some total := htotal
  have hnew : f.m_codeBlock ∉ st.compiledCodeBlocks := by
    intro hmem
    have := hinv.2 _ hmem
    rw [habsent] at this
    cases this
  have hnewLive : f.m_codeBlock ∉ st.evictionPass.compiledCodeBlocks := by
    intro hmem
    have := ((st.evictionPass_mem _).1 hmem).2.2
    rw [habsent] at this
    cases this
  have hafter : (st.afterSizeCheck total).cacheInvariant
      ∧ f.m_codeBlock ∉ (st.afterSizeCheck total).compiledCodeBlocks := by
    unfold ExecutionState.afterSizeCheck
    split
    · exact ⟨st.evictionPass_cacheInvariant, hnewLive⟩
    · exact ⟨hinv, hnew⟩
  have hgen := f.generateBytecodeBlock_eq env st currentStackBase total hsize
  refine ⟨⟨total, hsize⟩, ?_, ?_, ?_, ?_, ?_⟩
  · rw [hgen]
    cases env.parseFunctionAndGenerateByteCode (st.afterSizeCheck total) f.m_codeBlock
        (sizeSub env.STACK_LIMIT_FROM_BASE (consumedStackDepth env st currentStackBase)) with
    | error e => exact ⟨_, _, rfl⟩
    | ok blk => exact ⟨_, _, rfl⟩
  · intro r st1 hret
    rw [hgen] at hret
    cases hp : env.parseFunctionAndGenerateByteCode (st.afterSizeCheck total) f.m_codeBlock
        (sizeSub env.STACK_LIMIT_FROM_BASE (consumedStackDepth env st currentStackBase)) with
    | error e =>
      rw [hp] at hret
      simp only [Option.some.injEq, Prod.mk.injEq] at hret
      rw [← hret.2]
      exact hafter.1
    | ok blk =>
      rw [hp] at hret
      simp only [Option.some.injEq, Prod.mk.injEq] at hret
      rw [← hret.2]
      exact ExecutionState.registerByteCodeBlock_cacheInvariant _ _ blk hafter.1 hafter.2
  · intro blk
    exact st.registerByteCodeBlock_cacheInvariant _ blk hinv hnew
  · intro blk
    exact st.evictionPass.registerByteCodeBlock_cacheInvariant _ blk
      st.evictionPass_cacheInvariant hnewLive
  · intro st0 blk0 receiverSrc argv stack hblk
    unfold FunctionObject.callInterpreted
    simp [hblk]

theorem generateBytecodeBlock_preserves_cacheInvariant_witness :
    (ExecutionState.sample 3000000).cacheInvariant
      ∧ ((ExecutionState.sample 3000000).codeBlocks 3).m_byteCodeBlock = none
      ∧ ((ExecutionState.sample 3000000).evictionPass.registerByteCodeBlock 3
          (ByteCodeBlock.sample 0)).cacheInvariant
      ∧ ∃ total : Nat, (ExecutionState.sample 3000000).currentCodeSizeTotal = some total :=
  ⟨by decide, by decide,
   (generateBytecodeBlock_preserves_cacheInvariant Collaborators.sample
      (ExecutionState.sample 3000000) { address := 7, m_codeBlock := 3 } 4000 (by decide)
      (by decide)).2.2.2.2.1 (ByteCodeBlock.sample 0),
   (generateBytecodeBlock_preserves_cacheInvariant Collaborators.sample
      (ExecutionState.sample 3000000) { address := 7, m_codeBlock := 3 } 4000 (by decide)
      (by decide)).1⟩


end Escargot
